import Mathlib

/-!
# Verification development for the SIMD code-generation core of sling/myelin

The definitions below are a shallow embedding of

* `sling/myelin/simd-assembler.cc` (SIMD generators, `SIMDAssembler`, `SIMDStrategy`),
* `sling/myelin/kernel/simd-matmul.cc` (`MatMulArgs`, `SIMDMatMul`).

C++ `int` values are modelled by `Int`; `/` on `int` is truncating division
(`Int.tdiv`).  All intermediate values of `SIMDStrategy` are bounded by the span
length, so no 32-bit overflow occurs for spans that fit an `int`.
-/

namespace Sling

/-! ## SIMD generators (abstract interface) -/

/-- The concrete subclasses of `SIMDGenerator` defined in `simd-assembler.cc`. -/
inductive GeneratorClass where
  | AVX512FloatGenerator
  | AVX256FloatGenerator
  | AVX128FloatGenerator
  | SSE128FloatGenerator
  | AVX512ScalarFloatGenerator
  | AVXScalarFloatGenerator
  | SSEScalarFloatGenerator
  deriving DecidableEq, Repr

/-- A generator object seen through the virtual interface of `SIMDGenerator`: the
results of the virtual methods `VectorBytes()`, `VectorSize()` and
`SupportsMasking()` are fields, so that statements quantified over generators
cover every implementation of the interface.  The field `cls` names the class whose
emitters are used, `aligned_` is the constructor flag and `mask_` the opmask
register held by an AVX-512 generator. -/
structure SIMDGenerator where
  cls : GeneratorClass
  aligned_ : Bool
  VectorBytes : Int
  VectorSize : Int
  SupportsMasking : Bool
  mask_ : Nat
  deriving DecidableEq, Repr

/-- Constructor of `AVX512FloatGenerator` (lines 63-75, 140-142); `mask` is the opmask
register obtained from `masm->kk().alloc()`. -/
def AVX512FloatGenerator (aligned : Bool) (mask : Nat) : SIMDGenerator :=
  { cls := .AVX512FloatGenerator, aligned_ := aligned, VectorBytes := 64, VectorSize := 16,
    SupportsMasking := true, mask_ := mask }

/-- Constructor of `AVX256FloatGenerator` (lines 181-189). -/
def AVX256FloatGenerator (aligned : Bool) : SIMDGenerator :=
  { cls := .AVX256FloatGenerator, aligned_ := aligned, VectorBytes := 32, VectorSize := 8,
    SupportsMasking := false, mask_ := 0 }

/-- Constructor of `AVX128FloatGenerator` (lines 253-261). -/
def AVX128FloatGenerator (aligned : Bool) : SIMDGenerator :=
  { cls := .AVX128FloatGenerator, aligned_ := aligned, VectorBytes := 16, VectorSize := 4,
    SupportsMasking := false, mask_ := 0 }

/-- Constructor of `SSE128FloatGenerator` (lines 321-329). -/
def SSE128FloatGenerator (aligned : Bool) : SIMDGenerator :=
  { cls := .SSE128FloatGenerator, aligned_ := aligned, VectorBytes := 16, VectorSize := 4,
    SupportsMasking := false, mask_ := 0 }

/-- Constructor of `AVX512ScalarFloatGenerator` (lines 425-433); `sizeof(float)` is 4. -/
def AVX512ScalarFloatGenerator (aligned : Bool) : SIMDGenerator :=
  { cls := .AVX512ScalarFloatGenerator, aligned_ := aligned, VectorBytes := 4,
    VectorSize := 1, SupportsMasking := false, mask_ := 0 }

/-- Constructor of `AVXScalarFloatGenerator` (lines 475-483). -/
def AVXScalarFloatGenerator (aligned : Bool) : SIMDGenerator :=
  { cls := .AVXScalarFloatGenerator, aligned_ := aligned, VectorBytes := 4,
    VectorSize := 1, SupportsMasking := false, mask_ := 0 }

/-- Constructor of `SSEScalarFloatGenerator` (lines 534-542). -/
def SSEScalarFloatGenerator (aligned : Bool) : SIMDGenerator :=
  { cls := .SSEScalarFloatGenerator, aligned_ := aligned, VectorBytes := 4,
    VectorSize := 1, SupportsMasking := false, mask_ := 0 }

/-! ## Strategy planner (`SIMDStrategy`) -/

/-- Modelled from the spec: the record `SIMDStrategy::Phase` is declared in
`simd-assembler.h`, which is not part of the sources.  A phase constructed from a
generator has `unrolls = 1`, `repeat = 0`, `masked = 0` and `offset = 0` until the
planner assigns the fields (spec section 3 and 4.E). -/
structure Phase where
  generator : SIMDGenerator
  offset : Int := 0
  unrolls : Int := 1
  repeat_ : Int := 0
  masked : Int := 0
  deriving DecidableEq, Repr

/-- Local variables of the constructor `SIMDStrategy::SIMDStrategy` together with the
member `phases_`. -/
structure StrategyState where
  phases_ : List Phase
  remaining : Int
  offset : Int
  deriving DecidableEq, Repr

/-- Number of unrolls of the bulk phase: `std::min(main / vecsize, max_unrolls)` with
`main = (size / vecsize) * vecsize` (lines 639-641). -/
def SIMDStrategy.bulkUnrolls (vecsize size max_unrolls : Int) : Int :=
  let main := (size.tdiv vecsize) * vecsize
  min (main.tdiv vecsize) max_unrolls

/-- The part "Add bulk phase" of the constructor (lines 638-651). -/
def SIMDStrategy.addBulk (main : SIMDGenerator) (size max_unrolls : Int) : StrategyState :=
  let vecsize := main.VectorSize
  let unrolls := SIMDStrategy.bulkUnrolls vecsize size max_unrolls
  let remaining := size
  let offset := 0
  if unrolls > 0 then
    let bulk : Phase :=
      { generator := main, unrolls := unrolls, repeat_ := size.tdiv (vecsize * unrolls) }
    { phases_ := [bulk],
      remaining := remaining - bulk.repeat_ * vecsize * unrolls,
      offset := offset + bulk.repeat_ * vecsize * unrolls }
  else
    { phases_ := [], remaining := remaining, offset := offset }

/-- First half of the body of the loop "Add residual phases" (lines 658-669): a flat
phase for the elements that fit whole vectors of this generator. -/
def SIMDStrategy.addResidualPhase (gen : SIMDGenerator) (s : StrategyState) : StrategyState :=
  let vecsize := gen.VectorSize
  let n := s.remaining.tdiv vecsize
  if n > 0 then
    { phases_ := s.phases_ ++ [{ generator := gen, unrolls := n, offset := s.offset }],
      offset := s.offset + n * vecsize,
      remaining := s.remaining - n * vecsize }
  else s

/-- Second half of the body of the loop (lines 671-680): a masked phase for the
remainder if the generator supports masking. -/
def SIMDStrategy.addMaskedPhase (gen : SIMDGenerator) (s : StrategyState) : StrategyState :=
  let vecsize := gen.VectorSize
  if gen.SupportsMasking && decide (s.remaining > 0) && decide (s.remaining < vecsize) then
    { phases_ := s.phases_ ++ [{ generator := gen, masked := s.remaining, offset := s.offset }],
      offset := s.offset + s.remaining,
      remaining := 0 }
  else s

/-- One iteration of the loop "Add residual phases" after its `break` test
(lines 658-680). -/
def SIMDStrategy.addResidual (gen : SIMDGenerator) (s : StrategyState) : StrategyState :=
  SIMDStrategy.addMaskedPhase gen (SIMDStrategy.addResidualPhase gen s)

/-- The loop over `sasm->cascade()` (lines 654-681); it stops as soon as
`remaining == 0`. -/
def SIMDStrategy.residuals : List SIMDGenerator → StrategyState → StrategyState
  | [], s => s
  | gen :: rest, s =>
    if s.remaining = 0 then s
    else SIMDStrategy.residuals rest (SIMDStrategy.addResidual gen s)

/-- The phases built by `SIMDStrategy::SIMDStrategy` for a main generator and a
cascade (the values of `sasm->main()` and `sasm->cascade()`). -/
def SIMDStrategy.plan (main : SIMDGenerator) (cascade : List SIMDGenerator)
    (size max_unrolls : Int) : List Phase :=
  (SIMDStrategy.residuals cascade (SIMDStrategy.addBulk main size max_unrolls)).phases_

/-- Number of elements a phase covers, with the case distinction that the emitters of
`simd-matmul.cc` make on a phase: a repeated phase (`repeat > 1`) runs its block of
`unrolls * VectorSize` elements `repeat` times, a flat phase (`masked == 0`) runs it
once, and a masked phase covers `masked` elements. -/
def Phase.elements (p : Phase) : Int :=
  if p.repeat_ > 1 then p.repeat_ * p.unrolls * p.generator.VectorSize
  else if p.masked = 0 then p.unrolls * p.generator.VectorSize
  else p.masked

/-- Total number of elements covered by a list of phases. -/
def coverage (ps : List Phase) : Int := (ps.map Phase.elements).sum

/-- The offsets of the phases are contiguous from `start`: each phase begins where
the phases before it end. -/
def contiguousFrom : Int → List Phase → Prop
  | _, [] => True
  | start, p :: ps => p.offset = start ∧ contiguousFrom (start + p.elements) ps

/-- Invariant of the planner for a span of `N` elements: the phases built so far are
contiguous from 0 and cover `offset` elements, and `offset + remaining = N`. -/
structure PlanInv (N : Int) (s : StrategyState) : Prop where
  rem_nonneg : 0 ≤ s.remaining
  split : s.offset + s.remaining = N
  covered : coverage s.phases_ = s.offset
  contiguous : contiguousFrom 0 s.phases_

/-- The generators of the residual phases of a list of phases, in plan order: the phases
that are not masked (`masked == 0`). -/
def residualGenerators (ps : List Phase) : List SIMDGenerator :=
  (ps.filter (fun p => decide (p.masked = 0))).map (fun p => p.generator)

/-- The vector sizes of the residual (non-masked) phases of a list of phases, in plan
order. -/
def residualVectorSizes (ps : List Phase) : List Int :=
  (residualGenerators ps).map (fun g => g.VectorSize)

/-- Invariant of the planner about masked phases: while elements remain no phase is
masked, only the last phase can be masked, and a masked phase belongs to a generator
that supports masking and covers fewer elements than one vector. -/
structure MaskedLast (s : StrategyState) : Prop where
  none_while_remaining : s.remaining ≠ 0 → ∀ p ∈ s.phases_, p.masked = 0
  only_last : ∀ p ∈ s.phases_.dropLast, p.masked = 0
  bounds : ∀ p ∈ s.phases_, p.masked ≠ 0 →
    p.generator.SupportsMasking = true ∧ 0 < p.masked ∧ p.masked < p.generator.VectorSize

/-! ## Tensors and steps (external collaborators) -/

/-- Modelled from the spec: storage order of a tensor (declared outside the sources;
spec section 3: ROW_MAJOR, COLUMN_MAJOR or ANY). -/
inductive Order where
  | ANY_ORDER
  | ROW_MAJOR
  | COLUMN_MAJOR
  deriving DecidableEq, Repr

/-- Modelled from the spec: element types (declared outside the sources); the code
refers to `DT_FLOAT` and `DT_DOUBLE`. -/
inductive Type_ where
  | DT_INVALID
  | DT_FLOAT
  | DT_DOUBLE
  | DT_INT32
  deriving DecidableEq, Repr

/-- Modelled from the spec: `TypeTraits::of(type).size()`, the size of an element in
bytes. -/
def Type_.size : Type_ → Int
  | .DT_INVALID => 0
  | .DT_FLOAT => 4
  | .DT_DOUBLE => 8
  | .DT_INT32 => 4

/-- Modelled from the spec: a shape is the vector of dimensions (class `Shape` is
declared outside the sources). -/
structure Shape where
  dims : List Int
  deriving DecidableEq, Repr

/-- Modelled from the spec: `Shape::rank()`. -/
def Shape.rank (s : Shape) : Int := s.dims.length

/-- Modelled from the spec: `Shape::dim(d)`. -/
def Shape.dim (s : Shape) (d : Nat) : Int := s.dims.getD d 0

/-- Modelled from the spec: `Shape::transpose()`, which exchanges the two dimensions
of a matrix shape. -/
def Shape.transpose (s : Shape) : Shape := { dims := s.dims.reverse }

/-- Modelled from the spec: the attributes of a tensor that the matmul kernel reads
(class `Tensor` is declared outside the sources).  `name` stands for the identity of
the tensor object, `stride` and `padding` hold `stride(d)` and `padding(d)` per
dimension, and `supported` lists the orders for which `SupportsOrder` holds. -/
structure Tensor where
  name : Nat
  type : Type_
  order : Order
  shape : Shape
  stride : List Int
  padding : List Int
  size : Int
  supported : List Order
  deriving DecidableEq, Repr

/-- Modelled from the spec: `Tensor::SupportsOrder(order)`, the tensor's own predicate
(defined outside the sources). -/
def Tensor.SupportsOrder (t : Tensor) (order : Order) : Bool := t.supported.contains order

/-- Modelled from the spec: `Tensor::dim(d)`. -/
def Tensor.dim (t : Tensor) (d : Nat) : Int := t.shape.dim d

/-- Modelled from the spec: a step of the compute graph as seen by the kernel: its
operation type, input and output tensors, boolean attributes and the variant label
the kernel sets. -/
structure Step where
  type : String
  inputs : List Tensor
  outputs : List Tensor
  attrs : List (String × Bool)
  variant : String
  deriving DecidableEq, Repr

/-- Modelled from the spec: `Step::indegree()`. -/
def Step.indegree (step : Step) : Int := step.inputs.length

/-- Modelled from the spec: `Step::outdegree()`. -/
def Step.outdegree (step : Step) : Int := step.outputs.length

/-- Modelled from the spec: `Step::GetAttr(name, defval)` for boolean attributes. -/
def Step.GetAttr (step : Step) (name : String) (defval : Bool) : Bool :=
  match step.attrs.lookup name with
  | some v => v
  | none => defval

/-- Modelled from the spec: `Step::set_variant`. -/
def Step.set_variant (step : Step) (variant : String) : Step :=
  { step with variant := variant }

/-- The ways in which emission aborts (`CHECK` failures, `LOG(FATAL)`), and the uses
of an object that the sources leave undefined. -/
inductive Fatal where
  | CheckValid
  | CheckEnsureOutputOrder
  | UnsupportedElementOrder
  | UnsupportedType
  | CheckEqDimensions
  | CheckEqUnrolls
  | CheckEqVectorSize
  | MaskingNotSupported
  | EmptyCascade
  | MissingTensor
  deriving DecidableEq, Repr

/-! ## Matmul arguments (`MatMulArgs`) -/

/-- The record `MatMulArgs::Arg` (lines 37-92). -/
structure Arg where
  tensor : Tensor
  shape : Shape
  transposed : Bool
  deriving DecidableEq, Repr

/-- The method `Arg::Init` (lines 39-47). -/
def Arg.Init (tensor : Tensor) (transposed : Bool) : Arg :=
  { tensor := tensor,
    transposed := transposed,
    shape := if transposed then tensor.shape.transpose else tensor.shape }

/-- The method `Arg::Transpose` (lines 50-53). -/
def Arg.Transpose (x : Arg) : Arg :=
  { x with transposed := !x.transposed, shape := x.shape.transpose }

/-- The method `Arg::order`: element order with respect to transpose (lines 56-63). -/
def Arg.order (x : Arg) : Order :=
  match x.tensor.order with
  | .ROW_MAJOR => if x.transposed then .COLUMN_MAJOR else .ROW_MAJOR
  | .COLUMN_MAJOR => if x.transposed then .ROW_MAJOR else .COLUMN_MAJOR
  | _ => x.tensor.order

/-- The method `Arg::outer`: outer dimension in tensor array (line 66). -/
def Arg.outer (x : Arg) : Nat := if x.tensor.order = .ROW_MAJOR then 0 else 1

/-- The method `Arg::inner`: inner dimension in tensor array (line 69). -/
def Arg.inner (x : Arg) : Nat := if x.tensor.order = .ROW_MAJOR then 1 else 0

/-- The method `Arg::height` (line 72). -/
def Arg.height (x : Arg) : Int := x.tensor.dim x.outer

/-- The method `Arg::width` (line 75). -/
def Arg.width (x : Arg) : Int := x.tensor.dim x.inner

/-- The method `Arg::size` (line 78). -/
def Arg.size (x : Arg) : Int := x.tensor.size

/-- The method `Arg::stride`: bytes per row including padding (line 81). -/
def Arg.stride (x : Arg) : Int := x.tensor.stride.getD x.outer 0

/-- The method `Arg::padding`: padding bytes per row (line 84). -/
def Arg.padding (x : Arg) : Int := x.tensor.padding.getD x.outer 0

/-- The method `Arg::type` (line 87). -/
def Arg.type (x : Arg) : Type_ := x.tensor.type

/-- The members of `MatMulArgs` (lines 191-198). -/
structure MatMulArgs where
  c_ : Arg
  a_ : Arg
  b_ : Arg
  accumulate_ : Bool
  deriving DecidableEq, Repr

/-- The static method `MatMulArgs::Valid` (lines 95-101). -/
def MatMulArgs.Valid (step : Step) : Bool :=
  if step.type = "AssignAddMatMul" then
    decide (step.indegree ≥ 3)
  else
    decide (step.indegree ≥ 2) && decide (step.outdegree ≥ 1)

/-- The constructor `MatMulArgs::MatMulArgs` (lines 104-119); a failing `CHECK` aborts. -/
def MatMulArgs.new (step : Step) : Except Fatal MatMulArgs :=
  if MatMulArgs.Valid step then
    let accumulate := decide (step.type = "AssignAddMatMul")
    let c := if accumulate then step.inputs[0]? else step.outputs[0]?
    let a := if accumulate then step.inputs[1]? else step.inputs[0]?
    let b := if accumulate then step.inputs[2]? else step.inputs[1]?
    match c, a, b with
    | some c, some a, some b =>
      .ok { accumulate_ := accumulate,
            c_ := Arg.Init c (step.GetAttr "transpose_c" false),
            a_ := Arg.Init a (step.GetAttr "transpose_a" false),
            b_ := Arg.Init b (step.GetAttr "transpose_b" false) }
    | _, _, _ => .error .MissingTensor
  else .error .CheckValid

/-- The test in `EnsureOutputOrder` that decides whether the matmul is transformed to
meet the output order requirement (lines 126-131). -/
def MatMulArgs.transform (args : MatMulArgs) (order : Order) : Bool :=
  if order = .ROW_MAJOR then
    decide (args.c_.tensor.order = .COLUMN_MAJOR)
  else if order = .COLUMN_MAJOR then
    decide (args.c_.tensor.order = .ROW_MAJOR)
  else false

/-- The method `MatMulArgs::EnsureOutputOrder` (lines 123-143): the returned pair is
the boolean result and the arguments after the call. -/
def MatMulArgs.EnsureOutputOrder (args : MatMulArgs) (order : Order) : Bool × MatMulArgs :=
  let args1 : MatMulArgs :=
    if args.transform order then
      { args with a_ := args.b_.Transpose, b_ := args.a_.Transpose, c_ := args.c_.Transpose }
    else args
  (args1.c_.tensor.SupportsOrder args1.c_.tensor.order, args1)

/-- The method `MatMulArgs::CheckShapes` (lines 163-174). -/
def MatMulArgs.CheckShapes (args : MatMulArgs) : Bool :=
  if args.a_.shape.rank ≠ 2 then false
  else if args.b_.shape.rank ≠ 2 then false
  else if args.c_.shape.rank ≠ 2 then false
  else if args.a_.shape.dim 0 ≠ args.c_.shape.dim 0 then false
  else if args.a_.shape.dim 1 ≠ args.b_.shape.dim 0 then false
  else if args.b_.shape.dim 1 ≠ args.c_.shape.dim 1 then false
  else true

/-- The method `MatMulArgs::Aligned` (lines 177-181); `%` is the C++ remainder. -/
def MatMulArgs.Aligned (args : MatMulArgs) (align : Int) : Bool :=
  decide (args.a_.stride.tmod align = 0) &&
  decide (args.b_.stride.tmod align = 0) &&
  decide (args.c_.stride.tmod align = 0)

/-! ### The matrices denoted by the arguments -/

/-- The matrix an argument stands for, given the logical contents `val t i j` of every
tensor `t`: the contents of its tensor, transposed when the argument is flagged as
transposed. -/
def Arg.matrix {R : Type} (val : Tensor → Nat → Nat → R) (x : Arg) : Nat → Nat → R :=
  fun i j => if x.transposed then val x.tensor j i else val x.tensor i j

/-- The arguments denote a matrix product `C = A * B`: every entry of `C` within its
shape is the dot product of the row of `A` and the column of `B`, over the contracted
dimension `A.shape.dim(1)`. -/
def MatMulArgs.IsProduct {R : Type} [CommRing R] (val : Tensor → Nat → Nat → R)
    (args : MatMulArgs) : Prop :=
  ∀ i j : Nat, (i : Int) < args.c_.shape.dim 0 → (j : Int) < args.c_.shape.dim 1 →
    args.c_.matrix val i j =
      ∑ l in Finset.range (args.a_.shape.dim 1).toNat,
        args.a_.matrix val i l * args.b_.matrix val l j

/-! ## The assembler interface (external) and the emitted code -/

/-- Modelled from the spec: the CPU features the oracle reports (section 6). -/
inductive CpuFeature where
  | SSE
  | SSE2
  | SSE4_1
  | AVX
  | AVX2
  | FMA3
  | AVX512F
  deriving DecidableEq, Repr

/-- Modelled from the spec: a register pool of the assembler (`rr()`, `mm()`, `kk()`),
declared outside the sources; `used` lists the registers that are reserved. -/
structure Registers where
  used : List Nat
  deriving DecidableEq, Repr

/-- Modelled from the spec: `alloc` reserves one register from the pool; the model
hands out the lowest register that is not reserved. -/
def Registers.alloc (pool : Registers) : Nat × Registers :=
  let r := ((List.range (pool.used.length + 1)).find? (fun r => !pool.used.contains r)).getD
    pool.used.length
  (r, { used := r :: pool.used })

/-- Modelled from the spec: `release` returns a register to the pool. -/
def Registers.release (pool : Registers) (r : Nat) : Registers :=
  { used := pool.used.erase r }

/-- A general-purpose register, by its code. -/
abbrev Register := Nat

/-- A memory operand `Operand(base, index, times_1, disp)`; the shorter constructors
leave out the index or the displacement. -/
structure Operand where
  base : Register
  index : Option Register := none
  disp : Int := 0
  deriving DecidableEq, Repr

/-- A `Label` object of an emitter, identified by the variable that declares it and,
for a label declared in the body of the loop over the phases, by the iteration. -/
inductive Label where
  | l1
  | l2 (iter : Nat)
  | l3 (iter : Nat)
  deriving DecidableEq, Repr

/-- A call of one of the emitting virtual methods of `SIMDGenerator` with its
arguments; `Add` is the overload with a register source and `AddMem` the one with a
memory operand. -/
inductive GenOp where
  | Load (dst : Nat) (src : Operand)
  | Store (dst : Operand) (src : Nat)
  | Broadcast (dst : Nat) (src : Operand)
  | Zero (r : Nat)
  | Add (dst src1 src2 : Nat)
  | AddMem (dst src1 : Nat) (src2 : Operand)
  | Mul (dst src1 : Nat) (src2 : Operand)
  | MulAdd (dst src1 : Nat) (src2 : Operand) (retain : Bool)
  | Sum (r : Nat)
  | SetMask (bits : Int)
  | MaskedLoad (dst : Nat) (src : Operand)
  | MaskedStore (dst : Operand) (src : Nat)
  | MaskedAdd (dst src1 : Nat) (src2 : Operand)
  | MaskedMul (dst src1 : Nat) (src2 : Operand)
  | MaskedMulAdd (dst src1 : Nat) (src2 : Operand)
  deriving DecidableEq, Repr

/-- One step of the code a matmul emitter produces: either a call of a generator method
(which the generator turns into machine instructions) or an instruction emitted
directly through the assembler. -/
inductive Instruction where
  | gen (g : SIMDGenerator) (op : GenOp)
  | LoadTensorAddress (dst : Register) (tensor : Tensor)
  | leaq (dst : Register) (src : Operand)
  | xorq (dst src : Register)
  | movq (dst src : Register)
  | movq_imm (dst : Register) (imm : Int)
  | addq_imm (dst : Register) (imm : Int)
  | cmpq (a b : Register)
  | cmpq_imm (a : Register) (imm : Int)
  | j_less (target : Label)
  | bind (label : Label)
  deriving DecidableEq, Repr

/-- Modelled from the spec: the state of the assembler that the emitters use: the
enabled CPU features, the three register pools and the code emitted so far. -/
structure MacroAssembler where
  features : List CpuFeature
  rr : Registers
  mm : Registers
  kk : Registers
  code : List Instruction
  deriving DecidableEq, Repr

/-- Modelled from the spec: `masm->Enabled(feature)`; the static `CPU::Enabled` is the
same oracle. -/
def MacroAssembler.Enabled (masm : MacroAssembler) (f : CpuFeature) : Bool :=
  masm.features.contains f

/-- Appends instructions to the code buffer. -/
def MacroAssembler.emit (masm : MacroAssembler) (code : List Instruction) : MacroAssembler :=
  { masm with code := masm.code ++ code }

/-! ### Methods of the generators, as called by the emitters -/

/-- Whether the class inherits the scalar default implementations of the base class
(`Broadcast` and `Sum` are overridden by the four vector classes only). -/
def SIMDGenerator.inheritsScalarDefaults (g : SIMDGenerator) : Bool :=
  match g.cls with
  | .AVX512ScalarFloatGenerator => true
  | .AVXScalarFloatGenerator => true
  | .SSEScalarFloatGenerator => true
  | _ => false

/-- The method `Broadcast`: the base class checks `VectorSize() == 1` and loads
(lines 22-26); the vector classes emit a broadcast. -/
def SIMDGenerator.Broadcast (g : SIMDGenerator) (dst : Nat) (src : Operand) :
    Except Fatal (List Instruction) :=
  if g.inheritsScalarDefaults then
    if g.VectorSize = 1 then .ok [.gen g (.Load dst src)] else .error .CheckEqVectorSize
  else .ok [.gen g (.Broadcast dst src)]

/-- The method `Sum`: a checked no-op in the base class (lines 29-32). -/
def SIMDGenerator.Sum (g : SIMDGenerator) (r : Nat) : Except Fatal (List Instruction) :=
  if g.inheritsScalarDefaults then
    if g.VectorSize = 1 then .ok [] else .error .CheckEqVectorSize
  else .ok [.gen g (.Sum r)]

/-- The masked methods and `SetMask`: fatal in the base class (lines 38-60), emitted by
`AVX512FloatGenerator` (lines 144-174). -/
def SIMDGenerator.masked (g : SIMDGenerator) (op : GenOp) : Except Fatal (List Instruction) :=
  match g.cls with
  | .AVX512FloatGenerator => .ok [.gen g op]
  | _ => .error .MaskingNotSupported

/-! ### `SIMDAssembler` -/

/-- Modelled from the spec: the members of `SIMDAssembler` (declared in
`simd-assembler.h`, not part of the sources).  The constructor passes every generator
to `add` and the destructor deletes the generators through `cascade_`, so `cascade_`
holds all generators in the order in which they were added. -/
structure SIMDAssembler where
  name_ : String
  cascade_ : List SIMDGenerator
  deriving DecidableEq, Repr

/-- Modelled from the spec: `main()` is the first (widest) generator. -/
def SIMDAssembler.main (sasm : SIMDAssembler) : Option SIMDGenerator := sasm.cascade_.head?

/-- Modelled from the spec: `scalar()` is the last generator of the cascade. -/
def SIMDAssembler.scalar (sasm : SIMDAssembler) : Option SIMDGenerator :=
  sasm.cascade_.getLast?

/-- Modelled from the spec: `cascade()` is the sequence of generators walked by the
planner.  It starts with the main generator: the emitters handle residual phases of the
"same vector size as bulk" (simd-matmul.cc, lines 569-570) and masked phases, which only
the main generator of the AVX-512 cascade can give. -/
def SIMDAssembler.cascade (sasm : SIMDAssembler) : List SIMDGenerator := sasm.cascade_

/-- Modelled from the spec: `name()`. -/
def SIMDAssembler.name (sasm : SIMDAssembler) : String := sasm.name_

/-- The static method `SIMDAssembler::Supports` (lines 585-588). -/
def SIMDAssembler.Supports (type : Type_) : Bool := decide (type = .DT_FLOAT)

/-- The static method `SIMDAssembler::VectorBytes` (lines 590-595). -/
def SIMDAssembler.VectorBytes (masm : MacroAssembler) (type : Type_) : Int :=
  if masm.Enabled .AVX512F then 64
  else if masm.Enabled .AVX then 32
  else if masm.Enabled .SSE then 16
  else type.size

/-- The constructor `SIMDAssembler::SIMDAssembler` (lines 597-619).  Constructing an
`AVX512FloatGenerator` reserves an opmask register (lines 65-68). -/
def SIMDAssembler.new (masm : MacroAssembler) (type : Type_) (aligned : Bool) :
    Except Fatal (SIMDAssembler × MacroAssembler) :=
  match type with
  | .DT_FLOAT =>
    if masm.Enabled .AVX512F then
      let (mask, kk) := masm.kk.alloc
      .ok ({ name_ := "AVX512Flt",
             cascade_ := [AVX512FloatGenerator aligned mask,
                          AVX512ScalarFloatGenerator aligned] },
           { masm with kk := kk })
    else if masm.Enabled .AVX then
      .ok ({ name_ := "AVXFlt",
             cascade_ := [AVX256FloatGenerator aligned, AVX128FloatGenerator aligned,
                          AVXScalarFloatGenerator aligned] }, masm)
    else if masm.Enabled .SSE then
      .ok ({ name_ := "SSEFlt",
             cascade_ := [SSE128FloatGenerator aligned, SSEScalarFloatGenerator aligned] },
           masm)
    else .ok ({ name_ := "", cascade_ := [] }, masm)
  | _ => .error .UnsupportedType

/-- The destructor `SIMDAssembler::~SIMDAssembler`: deleting an `AVX512FloatGenerator`
releases its opmask register (lines 69-71). -/
def SIMDAssembler.delete (sasm : SIMDAssembler) (masm : MacroAssembler) : MacroAssembler :=
  sasm.cascade_.foldl
    (fun m g => if g.cls = .AVX512FloatGenerator then { m with kk := m.kk.release g.mask_ }
      else m) masm

/-- Modelled from the spec: `sasm.alloc()` reserves one vector register from the pool
(through `main()->Alloc()`, which calls `masm_->mm().alloc`). -/
def SIMDAssembler.alloc (_sasm : SIMDAssembler) (masm : MacroAssembler) :
    Nat × MacroAssembler :=
  let (r, mm) := masm.mm.alloc
  (r, { masm with mm := mm })

/-- Modelled from the spec: `sasm.alloc(n)` reserves `n` vector registers. -/
def SIMDAssembler.allocN (sasm : SIMDAssembler) : Nat → MacroAssembler →
    List Nat × MacroAssembler
  | 0, masm => ([], masm)
  | n + 1, masm =>
    let (r, masm1) := sasm.alloc masm
    let (rs, masm2) := sasm.allocN n masm1
    (r :: rs, masm2)

/-- The method `SIMDAssembler::Sum` (lines 625-635). -/
def SIMDAssembler.Sum (main : SIMDGenerator) (regs : List Nat) : List Instruction :=
  if regs.length = 4 then
    [.gen main (.Add (regs.getD 0 0) (regs.getD 0 0) (regs.getD 2 0)),
     .gen main (.Add (regs.getD 1 0) (regs.getD 1 0) (regs.getD 3 0)),
     .gen main (.Add (regs.getD 0 0) (regs.getD 0 0) (regs.getD 1 0))]
  else
    (List.range' 1 (regs.length - 1)).map
      (fun n => .gen main (.Add (regs.getD 0 0) (regs.getD 0 0) (regs.getD n 0)))

/-- The object built by `SIMDStrategy::SIMDStrategy`. -/
structure SIMDStrategy where
  phases_ : List Phase
  deriving DecidableEq, Repr

/-- The constructor `SIMDStrategy::SIMDStrategy(sasm, size, max_unrolls)` (lines
637-682); `sasm->main()` of an assembler without generators is undefined. -/
def SIMDStrategy.new (sasm : SIMDAssembler) (size max_unrolls : Int) :
    Except Fatal SIMDStrategy :=
  match sasm.main with
  | some main => .ok { phases_ := SIMDStrategy.plan main sasm.cascade size max_unrolls }
  | none => .error .EmptyCascade

/-- The method `SIMDStrategy::MaxUnrolls` (lines 684-688). -/
def SIMDStrategy.MaxUnrolls (strategy : SIMDStrategy) : Int :=
  strategy.phases_.foldl (fun unrolls p => max unrolls p.unrolls) 1

/-- The loop of `SIMDStrategy::PreloadMasks` over the phases (lines 691-693). -/
def SIMDStrategy.preloadMasks : List Phase → Except Fatal (List Instruction)
  | [] => .ok []
  | p :: ps => do
    let code ← if p.masked ≠ 0 then p.generator.masked (.SetMask p.masked) else .ok []
    let rest ← SIMDStrategy.preloadMasks ps
    pure (code ++ rest)

/-- The method `SIMDStrategy::PreloadMasks` (lines 690-694). -/
def SIMDStrategy.PreloadMasks (strategy : SIMDStrategy) : Except Fatal (List Instruction) :=
  SIMDStrategy.preloadMasks strategy.phases_

/-! ## The matmul emitter (`SIMDMatMul`) -/

/-- Maximum number of loop unrolls (line 31). -/
def kMaxUnrolls : Int := 4

/-- The kernel object: `accumulate_` tells an `AssignAddMatMul` kernel from a `MatMul`
kernel (lines 205, 719). -/
structure SIMDMatMul where
  accumulate_ : Bool
  deriving DecidableEq, Repr

/-- The method `SIMDMatMul::Supports` (lines 214-231). -/
def SIMDMatMul.Supports (self : SIMDMatMul) (step : Step) : Bool :=
  if !MatMulArgs.Valid step then false
  else
    match MatMulArgs.new step with
    | .error _ => false
    | .ok args =>
      if !args.CheckShapes then false
      else if args.accumulate_ ≠ self.accumulate_ then false
      else
        let (ok, args) := args.EnsureOutputOrder .ROW_MAJOR
        if !ok then false
        else
          let type := args.c_.type
          if !SIMDAssembler.Supports type then false
          else if args.a_.type ≠ type then false
          else if args.b_.type ≠ type then false
          else true

/-- The values of the counter of a loop `for (int i = 0; i < unrolls; ++i)`. -/
def unrollIndices (unrolls : Int) : List Nat := List.range unrolls.toNat

/-- The registers that `GenerateVertical` reserves (lines 287-294 and 318). -/
structure VerticalRegisters where
  a : Register
  b : Register
  c : Register
  a_ofs : Register
  b_ptr : Register
  col_ofs : Register
  sum : List Nat
  elem : Nat
  a_end : Register
  deriving DecidableEq, Repr

/-- The outer product of the A element and a B row block, emitted by a repeated phase
(lines 344-356) and by a residual phase (lines 396-407); `bsrc i` is the operand of the
block of B for unroll `i`. -/
def SIMDMatMul.outerProduct (self : SIMDMatMul) (dsize : Int) (r : VerticalRegisters)
    (phase : Phase) (bsrc : Nat → Operand) : Except Fatal (List Instruction) := do
  let gen := phase.generator
  let vecsize := gen.VectorSize
  let broadcast ← gen.Broadcast r.elem { base := r.a }
  pure (broadcast ++ (unrollIndices phase.unrolls).flatMap fun i =>
    (if self.accumulate_ then
      [Instruction.gen gen (.Load (r.sum.getD i 0) { base := r.c, disp := i * vecsize * dsize }),
       Instruction.gen gen (.MulAdd (r.sum.getD i 0) r.elem (bsrc i)
         (decide ((i : Int) ≠ phase.unrolls - 1)))]
    else
      [Instruction.gen gen (.Mul (r.sum.getD i 0) r.elem (bsrc i))]) ++
    [Instruction.gen gen (.Store { base := r.c, disp := i * vecsize * dsize } (r.sum.getD i 0))])

/-- The dot products over the contracted dimension of A, emitted by a repeated phase
(lines 358-384) and by a residual phase (lines 409-435); `bstart` is the operand whose
address is loaded into `b_ptr`. -/
def SIMDMatMul.innerLoop (self : SIMDMatMul) (dsize b_stride inner_step inner_limit : Int)
    (r : VerticalRegisters) (iter : Nat) (phase : Phase) (bstart : Operand) :
    Except Fatal (List Instruction) := do
  let gen := phase.generator
  let vecsize := gen.VectorSize
  let broadcast ← gen.Broadcast r.elem { base := r.a, index := some r.a_ofs }
  pure ((unrollIndices phase.unrolls).map (fun i => Instruction.gen gen (.Zero (r.sum.getD i 0))) ++
    [.xorq r.a_ofs r.a_ofs, .leaq r.b_ptr bstart, .bind (.l3 iter)] ++
    broadcast ++
    (unrollIndices phase.unrolls).map (fun i =>
      Instruction.gen gen (.MulAdd (r.sum.getD i 0) r.elem
        { base := r.b_ptr, disp := i * vecsize * dsize }
        (decide ((i : Int) ≠ phase.unrolls - 1)))) ++
    [.addq_imm r.b_ptr b_stride, .addq_imm r.a_ofs inner_step,
     .cmpq_imm r.a_ofs inner_limit, .j_less (.l3 iter)] ++
    (unrollIndices phase.unrolls).flatMap fun i =>
      (if self.accumulate_ then
        [Instruction.gen gen (.AddMem (r.sum.getD i 0) (r.sum.getD i 0)
          { base := r.c, disp := i * vecsize * dsize })]
      else []) ++
      [Instruction.gen gen (.Store { base := r.c, disp := i * vecsize * dsize }
        (r.sum.getD i 0))])

/-- The masked phase of `GenerateVertical` (lines 439-471). -/
def SIMDMatMul.maskedPhase (self : SIMDMatMul) (dsize b_stride inner_step inner_limit : Int)
    (inner_single : Bool) (r : VerticalRegisters) (iter : Nat) (phase : Phase) :
    Except Fatal (List Instruction) := do
  let gen := phase.generator
  let blkstart := phase.offset * dsize
  if phase.unrolls ≠ 1 then throw Fatal.CheckEqUnrolls
  let body ←
    if inner_single then do
      let broadcast ← gen.Broadcast r.elem { base := r.a }
      let product ←
        if self.accumulate_ then do
          let load ← gen.masked (.MaskedLoad r.elem { base := r.c })
          let muladd ← gen.masked
            (.MaskedMulAdd (r.sum.getD 0 0) r.elem { base := r.b, disp := blkstart })
          pure (load ++ muladd)
        else gen.masked (.MaskedMul (r.sum.getD 0 0) r.elem { base := r.b, disp := blkstart })
      let store ← gen.masked (.MaskedStore { base := r.c } (r.sum.getD 0 0))
      pure (broadcast ++ product ++ store)
    else do
      let broadcast ← gen.Broadcast r.elem { base := r.a, index := some r.a_ofs }
      let muladd ← gen.masked (.MaskedMulAdd (r.sum.getD 0 0) r.elem { base := r.b_ptr })
      let add ←
        if self.accumulate_ then
          gen.masked (.MaskedAdd (r.sum.getD 0 0) (r.sum.getD 0 0) { base := r.c })
        else pure []
      let store ← gen.masked (.MaskedStore { base := r.c } (r.sum.getD 0 0))
      pure ([Instruction.gen gen (.Zero (r.sum.getD 0 0)), .xorq r.a_ofs r.a_ofs,
          .leaq r.b_ptr { base := r.b, disp := blkstart }, .bind (.l3 iter)] ++
        broadcast ++ muladd ++
        [.addq_imm r.b_ptr b_stride, .addq_imm r.a_ofs inner_step,
         .cmpq_imm r.a_ofs inner_limit, .j_less (.l3 iter)] ++
        add ++ store)
  pure (body ++ [.addq_imm r.c (phase.masked * dsize)])

/-- The body of the loop over the phases in `GenerateVertical` (lines 326-473);
`iter` is the index of the iteration. -/
def SIMDMatMul.verticalPhase (self : SIMDMatMul) (dsize b_stride inner_step inner_limit : Int)
    (inner_single : Bool) (r : VerticalRegisters) (iter : Nat) (phase : Phase) :
    Except Fatal (List Instruction) := do
  let gen := phase.generator
  let vecsize := gen.VectorSize
  let blkstart := phase.offset * dsize
  let blksize := phase.unrolls * vecsize * dsize
  if phase.repeat_ > 1 then
    -- Repeated phase.
    let body ←
      if inner_single then
        self.outerProduct dsize r phase
          (fun i => { base := r.b, index := some r.col_ofs, disp := i * vecsize * dsize })
      else
        self.innerLoop dsize b_stride inner_step inner_limit r iter phase
          { base := r.b, index := some r.col_ofs }
    pure ((if phase.offset = 0 then [Instruction.xorq r.col_ofs r.col_ofs]
        else [Instruction.movq_imm r.col_ofs blkstart]) ++
      [.bind (.l2 iter)] ++ body ++
      [.addq_imm r.c blksize, .addq_imm r.col_ofs blksize,
       .cmpq_imm r.col_ofs (blkstart + phase.repeat_ * blksize), .j_less (.l2 iter)])
  else if phase.masked = 0 then
    -- Residual phase.
    let body ←
      if inner_single then
        self.outerProduct dsize r phase
          (fun i => { base := r.b, disp := blkstart + i * vecsize * dsize })
      else
        self.innerLoop dsize b_stride inner_step inner_limit r iter phase
          { base := r.b, disp := blkstart }
    pure (body ++ [.addq_imm r.c blksize])
  else
    -- Masked phase.
    self.maskedPhase dsize b_stride inner_step inner_limit inner_single r iter phase

/-- The loop over `strategy.phases()` in `GenerateVertical` (line 326). -/
def SIMDMatMul.verticalPhases (self : SIMDMatMul)
    (dsize b_stride inner_step inner_limit : Int) (inner_single : Bool)
    (r : VerticalRegisters) : Nat → List Phase → Except Fatal (List Instruction)
  | _, [] => .ok []
  | iter, phase :: rest => do
    let code ← self.verticalPhase dsize b_stride inner_step inner_limit inner_single r
      iter phase
    let more ← SIMDMatMul.verticalPhases self dsize b_stride inner_step inner_limit
      inner_single r (iter + 1) rest
    pure (code ++ more)

/-- The method `SIMDMatMul::GenerateVertical` from the dimension check on (lines
276-483), given the `SIMDAssembler` it has constructed; the result is the assembler
with the emitted code. -/
def SIMDMatMul.verticalBody (self : SIMDMatMul) (sasm : SIMDAssembler)
    (masm : MacroAssembler) (args : MatMulArgs) (strided : Bool) :
    Except Fatal MacroAssembler := do
  let dsize := args.c_.tensor.type.size
  if strided then
    if args.a_.height ≠ args.b_.height then throw Fatal.CheckEqDimensions
  else
    if args.a_.width ≠ args.b_.height then throw Fatal.CheckEqDimensions
  -- Compute vector processing strategy.
  let strategy ← SIMDStrategy.new sasm args.b_.width kMaxUnrolls
  let masks ← strategy.PreloadMasks
  let masm := masm.emit masks
  -- Allocate registers.
  let (a, rr) := masm.rr.alloc
  let (b, rr) := rr.alloc
  let (c, rr) := rr.alloc
  let (a_ofs, rr) := rr.alloc
  let (b_ptr, rr) := rr.alloc
  let (col_ofs, rr) := rr.alloc
  let masm := { masm with rr := rr }
  let (sum, masm) := sasm.allocN strategy.MaxUnrolls.toNat masm
  let (elem, masm) := sasm.alloc masm
  -- Load tensor addresses.
  let masm := masm.emit [.LoadTensorAddress a args.a_.tensor,
    .LoadTensorAddress b args.b_.tensor, .LoadTensorAddress c args.c_.tensor]
  -- Compute inner and outer dimensions.
  let outer_step := if strided then dsize else args.a_.stride
  let outer_limit :=
    if strided then dsize * args.a_.width else args.a_.stride * args.a_.height
  let inner_step := if strided then args.a_.stride else dsize
  let inner_limit :=
    if strided then args.a_.stride * args.a_.height else dsize * args.a_.width
  let outer_single := decide (outer_step = outer_limit)
  let inner_single := decide (inner_step = inner_limit)
  -- Loop over rows/columns in A.
  let (a_end, rr) := masm.rr.alloc
  let masm := { masm with rr := rr }
  let masm := if !outer_single then
      masm.emit [.leaq a_end { base := a, disp := outer_limit }, .bind .l1]
    else masm
  -- Compute dot product between row/column in A and column blocks in B.
  let r : VerticalRegisters :=
    { a := a, b := b, c := c, a_ofs := a_ofs, b_ptr := b_ptr, col_ofs := col_ofs,
      sum := sum, elem := elem, a_end := a_end }
  let code ← self.verticalPhases dsize args.b_.stride inner_step inner_limit inner_single r
    0 strategy.phases_
  let masm := masm.emit code
  -- Next row/column in A.
  let masm := if !outer_single then
      masm.emit ((if args.c_.padding > 0 then [Instruction.addq_imm c args.c_.padding] else []) ++
        [.addq_imm a outer_step, .cmpq a a_end, .j_less .l1])
    else masm
  pure (sasm.delete masm)

/-- The method `SIMDMatMul::GenerateVertical` (lines 268-484): it constructs the SIMD
generators, sets the variant of the step and emits the loop nest; the result is the
step and the assembler afterwards. -/
def SIMDMatMul.GenerateVertical (self : SIMDMatMul) (step : Step) (masm : MacroAssembler)
    (args : MatMulArgs) (strided : Bool) : Except Fatal (Step × MacroAssembler) := do
  -- Create SIMD code generators.
  let type := args.c_.tensor.type
  let vecbytes := SIMDAssembler.VectorBytes masm args.c_.type
  let (sasm, masm) ← SIMDAssembler.new masm type (args.Aligned vecbytes)
  let step := step.set_variant (sasm.name ++ (if strided then "CR" else "RR"))
  let masm ← self.verticalBody sasm masm args strided
  pure (step, masm)

/-- The registers that `GenerateHorizontal` uses in the loop over the phases (lines
503-510); `b_ptr` is `b` itself when B has a single row or A has a single row. -/
structure HorizontalRegisters where
  a : Register
  b_ptr : Register
  ofs : Register
  sum : List Nat
  elem : List Nat
  deriving DecidableEq, Repr

/-- The body of the loop over the phases in `GenerateHorizontal` (lines 543-598).  The
unrolled residual with a narrower vector reserves one more register, so the pool of
vector registers is passed along. -/
def SIMDMatMul.horizontalPhase (sasm : SIMDAssembler) (main : SIMDGenerator) (dsize : Int)
    (r : HorizontalRegisters) (iter : Nat) (masm : MacroAssembler) (phase : Phase) :
    Except Fatal (List Instruction × MacroAssembler) := do
  let gen := phase.generator
  let vecsize := gen.VectorSize
  let blkstart := phase.offset * dsize
  let blksize := phase.unrolls * vecsize * dsize
  if phase.repeat_ > 1 then
    -- Repeated phase.
    pure ((if blkstart = 0 then [Instruction.xorq r.ofs r.ofs]
        else [Instruction.movq_imm r.ofs blkstart]) ++
      [.bind (.l3 iter)] ++
      ((unrollIndices phase.unrolls).flatMap fun i =>
        [Instruction.gen gen (.Load (r.elem.getD i 0)
          { base := r.a, index := some r.ofs, disp := i * vecsize * dsize }),
         Instruction.gen gen (.MulAdd (r.sum.getD i 0) (r.elem.getD i 0)
          { base := r.b_ptr, index := some r.ofs, disp := i * vecsize * dsize } false)]) ++
      [.addq_imm r.ofs blksize, .cmpq_imm r.ofs (blkstart + phase.repeat_ * blksize),
       .j_less (.l3 iter)], masm)
  else if phase.masked = 0 then
    -- Residual phase.
    if phase.offset = 0 ∨ vecsize = main.VectorSize then
      -- Same vector size as bulk; unroll directly into sum registers.
      pure ((unrollIndices phase.unrolls).flatMap fun i =>
        [Instruction.gen gen (.Load (r.elem.getD i 0)
          { base := r.a, disp := blkstart + i * vecsize * dsize }),
         Instruction.gen gen (.MulAdd (r.sum.getD i 0) (r.elem.getD i 0)
          { base := r.b_ptr, disp := blkstart + i * vecsize * dsize } false)], masm)
    else if phase.unrolls = 1 then
      -- Single residual; merge into first sum register.
      pure ([.gen gen (.Load (r.elem.getD 0 0) { base := r.a, disp := blkstart }),
        .gen gen (.Mul (r.elem.getD 0 0) (r.elem.getD 0 0)
          { base := r.b_ptr, disp := blkstart }),
        .gen main (.Add (r.sum.getD 0 0) (r.sum.getD 0 0) (r.elem.getD 0 0))], masm)
    else
      -- Accumulate unrolled residual and merge into first sum register.
      let (acc, masm) := sasm.alloc masm
      pure ([Instruction.gen gen (.Zero acc)] ++
        ((unrollIndices phase.unrolls).flatMap fun i =>
          [Instruction.gen gen (.Load (r.elem.getD i 0)
            { base := r.a, disp := blkstart + i * vecsize * dsize }),
           Instruction.gen gen (.MulAdd acc (r.elem.getD i 0)
            { base := r.b_ptr, disp := blkstart + i * vecsize * dsize } false)]) ++
        [.gen main (.Add (r.sum.getD 0 0) (r.sum.getD 0 0) acc)], masm)
  else
    -- Masked phase.
    if phase.unrolls ≠ 1 then throw Fatal.CheckEqUnrolls
    let load ← gen.masked (.MaskedLoad (r.elem.getD 0 0) { base := r.a, disp := blkstart })
    let muladd ← gen.masked
      (.MaskedMulAdd (r.sum.getD 0 0) (r.elem.getD 0 0) { base := r.b_ptr, disp := blkstart })
    pure (load ++ muladd, masm)

/-- The loop over `strategy.phases()` in `GenerateHorizontal` (line 543). -/
def SIMDMatMul.horizontalPhases (sasm : SIMDAssembler) (main : SIMDGenerator) (dsize : Int)
    (r : HorizontalRegisters) :
    Nat → MacroAssembler → List Phase → Except Fatal (List Instruction × MacroAssembler)
  | _, masm, [] => .ok ([], masm)
  | iter, masm, phase :: rest => do
    let (code, masm) ← SIMDMatMul.horizontalPhase sasm main dsize r iter masm phase
    let (more, masm) ← SIMDMatMul.horizontalPhases sasm main dsize r (iter + 1) masm rest
    pure (code ++ more, masm)

/-- The method `SIMDMatMul::GenerateHorizontal` from the dimension check on (lines
496-626), given the `SIMDAssembler` it has constructed. -/
def SIMDMatMul.horizontalBody (self : SIMDMatMul) (sasm : SIMDAssembler)
    (masm : MacroAssembler) (args : MatMulArgs) : Except Fatal MacroAssembler := do
  let dsize := args.c_.tensor.type.size
  if args.a_.width ≠ args.b_.width then throw Fatal.CheckEqDimensions
  -- Compute vector processing strategy.
  let strategy ← SIMDStrategy.new sasm args.b_.width kMaxUnrolls
  let masks ← strategy.PreloadMasks
  let masm := masm.emit masks
  let main ← match sasm.main with
    | some g => pure g
    | none => throw Fatal.EmptyCascade
  let scalar ← match sasm.scalar with
    | some g => pure g
    | none => throw Fatal.EmptyCascade
  -- Allocate registers.
  let (a, rr) := masm.rr.alloc
  let (b, rr) := rr.alloc
  let (c, rr) := rr.alloc
  let (b_ptr, rr) := rr.alloc
  let (b_end, rr) := rr.alloc
  let (ofs, rr) := rr.alloc
  let masm := { masm with rr := rr }
  let (sum, masm) := sasm.allocN strategy.MaxUnrolls.toNat masm
  let (elem, masm) := sasm.allocN strategy.MaxUnrolls.toNat masm
  -- Load tensor addresses.
  let masm := masm.emit [.LoadTensorAddress a args.a_.tensor,
    .LoadTensorAddress b args.b_.tensor, .LoadTensorAddress c args.c_.tensor]
  -- Loop over rows in A.
  let masm := if args.b_.height > 1 then
      masm.emit [.leaq b_end { base := b, disp := args.b_.size }]
    else masm
  let (a_end, rr) := masm.rr.alloc
  let masm := { masm with rr := rr }
  let masm := if args.a_.height > 1 then
      masm.emit [.leaq a_end { base := a, disp := args.a_.size }, .bind .l1]
    else masm
  -- Loop over rows in B.
  let b_ptr := if args.b_.height > 1 ∧ args.a_.height > 1 then b_ptr else b
  let masm := if args.b_.height > 1 then
      masm.emit ((if args.a_.height > 1 then [Instruction.movq b_ptr b] else []) ++
        [.bind (.l2 0)])
    else masm
  let masm := masm.emit (sum.map fun r => Instruction.gen main (.Zero r))
  -- Compute dot product between row in A and row in B.
  let r : HorizontalRegisters := { a := a, b_ptr := b_ptr, ofs := ofs, sum := sum, elem := elem }
  let (code, masm) ← SIMDMatMul.horizontalPhases sasm main dsize r 0 masm strategy.phases_
  let masm := masm.emit code
  -- Horizontal sum of results.
  let masm := masm.emit (SIMDAssembler.Sum main sum)
  let lanes ← main.Sum (sum.getD 0 0)
  let masm := masm.emit lanes
  -- Save result in C.
  let masm := masm.emit
    ((if self.accumulate_ then
        [Instruction.gen scalar (.AddMem (sum.getD 0 0) (sum.getD 0 0) { base := c })]
      else []) ++
      [.gen scalar (.Store { base := c } (sum.getD 0 0)), .addq_imm c dsize])
  -- Next row in B.
  let masm := if args.b_.height > 1 then
      masm.emit [.addq_imm b_ptr args.b_.stride, .cmpq b_ptr b_end, .j_less (.l2 0)]
    else masm
  -- Next row in A.
  let masm := if args.a_.height > 1 then
      masm.emit ((if args.c_.padding > 0 then [Instruction.addq_imm c args.c_.padding] else []) ++
        [.addq_imm a args.a_.stride, .cmpq a a_end, .j_less .l1])
    else masm
  pure (sasm.delete masm)

/-- The method `SIMDMatMul::GenerateHorizontal` (lines 488-627). -/
def SIMDMatMul.GenerateHorizontal (self : SIMDMatMul) (step : Step) (masm : MacroAssembler)
    (args : MatMulArgs) : Except Fatal (Step × MacroAssembler) := do
  -- Create SIMD code generators.
  let type := args.c_.tensor.type
  let vecbytes := SIMDAssembler.VectorBytes masm args.c_.type
  let (sasm, masm) ← SIMDAssembler.new masm type (args.Aligned vecbytes)
  let step := step.set_variant (sasm.name ++ "RC")
  let masm ← self.horizontalBody sasm masm args
  pure (step, masm)

/-- The method `SIMDMatMul::GenerateColCol` from the dimension check on (lines
637-710), given the `SIMDAssembler` it has constructed. -/
def SIMDMatMul.colColBody (self : SIMDMatMul) (sasm : SIMDAssembler)
    (masm : MacroAssembler) (args : MatMulArgs) : Except Fatal MacroAssembler := do
  let dsize := args.c_.tensor.type.size
  if args.a_.height ≠ args.b_.width then throw Fatal.CheckEqDimensions
  -- Allocate registers.
  let (a, rr) := masm.rr.alloc
  let (b, rr) := rr.alloc
  let (c, rr) := rr.alloc
  let (b_ptr, rr) := rr.alloc
  let (a_end, rr) := rr.alloc
  let (b_end, rr) := rr.alloc
  let (a_ofs, rr) := rr.alloc
  let (b_ofs, rr) := rr.alloc
  let masm := { masm with rr := rr }
  let (elem, masm) := sasm.alloc masm
  let (sum, masm) := sasm.alloc masm
  -- Load tensor addresses.
  let masm := masm.emit [.LoadTensorAddress a args.a_.tensor,
    .LoadTensorAddress b args.b_.tensor, .LoadTensorAddress c args.c_.tensor]
  let masm := if args.a_.width > 1 then
      masm.emit [.leaq a_end { base := a, disp := args.a_.width * dsize }]
    else masm
  let masm := if args.b_.height > 1 then
      masm.emit [.leaq b_end { base := b, disp := args.b_.size }]
    else masm
  -- Loop over columns in A and rows in B.
  let masm := masm.emit [.bind .l1, .movq b_ptr b, .bind (.l2 0)]
  -- Compute dot product between column in A and row in B.
  let gen ← match sasm.scalar with
    | some g => pure g
    | none => throw Fatal.EmptyCascade
  let masm := if args.b_.width = 1 then
      masm.emit [.gen gen (.Load sum { base := a }), .gen gen (.Mul sum sum { base := b_ptr })]
    else
      masm.emit [.xorq a_ofs a_ofs, .xorq b_ofs b_ofs, .gen gen (.Zero sum), .bind (.l3 0),
        .gen gen (.Load elem { base := a, index := some a_ofs }),
        .gen gen (.MulAdd sum elem { base := b_ptr, index := some b_ofs } false),
        .addq_imm a_ofs args.a_.stride, .addq_imm b_ofs dsize,
        .cmpq_imm b_ofs (args.b_.width * dsize), .j_less (.l3 0)]
  -- Save result in C.
  let masm := masm.emit
    ((if self.accumulate_ then [Instruction.gen gen (.AddMem sum sum { base := c })] else []) ++
      [.gen gen (.Store { base := c } sum), .addq_imm c dsize])
  -- Next row in B.
  let masm := if args.b_.height > 1 then
      masm.emit [.addq_imm b_ptr args.b_.stride, .cmpq b_ptr b_end, .j_less (.l2 0)]
    else masm
  -- Next column in A.
  let masm := if args.a_.width > 1 then
      masm.emit ((if args.c_.padding > 0 then [Instruction.addq_imm c args.c_.padding] else []) ++
        [.addq_imm a dsize, .cmpq a a_end, .j_less .l1])
    else masm
  pure (sasm.delete masm)

/-- The method `SIMDMatMul::GenerateColCol` (lines 630-711). -/
def SIMDMatMul.GenerateColCol (self : SIMDMatMul) (step : Step) (masm : MacroAssembler)
    (args : MatMulArgs) : Except Fatal (Step × MacroAssembler) := do
  -- Create SIMD code generators.
  let type := args.c_.tensor.type
  let (sasm, masm) ← SIMDAssembler.new masm type true
  let step := step.set_variant (sasm.name ++ "CC")
  let masm ← self.colColBody sasm masm args
  pure (step, masm)

/-- The four loop nests that `Generate` chooses from. -/
inductive LoopNest where
  | Vertical (strided : Bool)
  | Horizontal
  | ColCol
  deriving DecidableEq, Repr

/-- The first part of `SIMDMatMul::Generate` (lines 246-262): the arguments are built
and normalised to a row-major output under `CHECK`, and the element orders of A and B
choose the matrix multiplication algorithm; any other combination is fatal. -/
def SIMDMatMul.selectNest (step : Step) : Except Fatal (MatMulArgs × LoopNest) := do
  let args ← MatMulArgs.new step
  let (ok, args) := args.EnsureOutputOrder .ROW_MAJOR
  if !ok then throw Fatal.CheckEnsureOutputOrder
  -- Use the input element order to choose matrix multiplication algorithm.
  let a := args.a_.order
  let b := args.b_.order
  if a = .ROW_MAJOR ∧ b = .ROW_MAJOR then
    pure (args, .Vertical false)
  else if a = .ROW_MAJOR ∧ b = .COLUMN_MAJOR then
    pure (args, .Horizontal)
  else if a = .COLUMN_MAJOR ∧ b = .ROW_MAJOR then
    pure (args, .Vertical true)
  else if a = .COLUMN_MAJOR ∧ b = .COLUMN_MAJOR then
    pure (args, .ColCol)
  else
    throw Fatal.UnsupportedElementOrder

/-- The call of the emitter of the chosen loop nest in `Generate` (lines 253-259). -/
def SIMDMatMul.runNest (self : SIMDMatMul) (step : Step) (masm : MacroAssembler)
    (args : MatMulArgs) : LoopNest → Except Fatal (Step × MacroAssembler)
  | .Vertical strided => self.GenerateVertical step masm args strided
  | .Horizontal => self.GenerateHorizontal step masm args
  | .ColCol => self.GenerateColCol step masm args

/-- The method `SIMDMatMul::Generate` (lines 245-263): the chosen emitter is run. -/
def SIMDMatMul.Generate (self : SIMDMatMul) (step : Step) (masm : MacroAssembler) :
    Except Fatal (Step × MacroAssembler) := do
  let (args, nest) ← SIMDMatMul.selectNest step
  self.runNest step masm args nest

/-! ## Execution of the emitted code over exact arithmetic

The following small machine gives a meaning to the code of `GenerateVertical` and
`GenerateColCol` for the generators that use VEX or EVEX encoded instructions.  Float
values are modelled by integers with exact arithmetic, an element of memory is addressed
by the byte address of its first byte, and an element has 4 bytes. -/

/-- State of the machine: general-purpose registers, vector registers by lane, opmask
registers (number of enabled low lanes), float memory by byte address, and the outcome
`less` of the last comparison. -/
structure Machine where
  gp : Register → Int
  vec : Nat → Nat → Int
  kmask : Nat → Int
  mem : Int → Int
  less : Bool

/-- The address of a memory operand. -/
def Operand.address (m : Machine) (o : Operand) : Int :=
  m.gp o.base + (match o.index with | some i => m.gp i | none => 0) + o.disp

/-- Writes a general-purpose register. -/
def Machine.setGp (m : Machine) (r : Register) (v : Int) : Machine :=
  { m with gp := fun x => if x = r then v else m.gp x }

/-- Writes all lanes of a vector register. -/
def Machine.setVec (m : Machine) (r : Nat) (v : Nat → Int) : Machine :=
  { m with vec := fun x => if x = r then v else m.vec x }

/-- The float at lane `l` of the vector that starts at address `ea`. -/
def Machine.lane (m : Machine) (ea : Int) (l : Nat) : Int := m.mem (ea + 4 * l)

/-- Stores the first `n` lanes of `v` to the vector that starts at address `ea`. -/
def Machine.storeLanes (m : Machine) (ea : Int) (n : Int) (v : Nat → Int) : Machine :=
  { m with mem := fun x =>
      if ea ≤ x ∧ x < ea + 4 * n ∧ (x - ea).tmod 4 = 0 then v ((x - ea).tdiv 4).toNat
      else m.mem x }

/-- Whether the generator emits VEX or EVEX encoded instructions (all classes but the
two SSE classes). -/
def SIMDGenerator.usesVex (g : SIMDGenerator) : Bool :=
  match g.cls with
  | .SSE128FloatGenerator => false
  | .SSEScalarFloatGenerator => false
  | _ => true

/-- Result of an arithmetic instruction of a VEX generator with `V` lanes: the lanes
below `V` hold `f`; for a scalar generator the lanes 1 to 3 are copied from `rest` (the
first source of `vaddss`/`vmulss`, the destination of `vfmadd231ss`); all higher lanes
are zeroed. -/
def vexResult (g : SIMDGenerator) (f rest : Nat → Int) : Nat → Int :=
  fun l =>
    if (l : Int) < g.VectorSize then f l
    else if g.inheritsScalarDefaults ∧ l < 4 then rest l
    else 0

/-- Meaning of a generator call for a VEX or EVEX generator; `fma3` tells whether FMA3 is
enabled.  The calls `Add` (register form) and `Sum` occur in `GenerateHorizontal` only
and are not given a meaning here, nor are the calls of the SSE generators. -/
def GenOp.exec (g : SIMDGenerator) (fma3 : Bool) (m : Machine) : GenOp → Option Machine
  | .Load dst src =>
    -- vmovaps/vmovups/vmovss: the lanes above the vector are zeroed
    some (m.setVec dst (vexResult g (m.lane (src.address m)) (fun _ => 0)))
  | .Store dst src => some (m.storeLanes (dst.address m) g.VectorSize (m.vec src))
  | .Broadcast dst src =>
    -- vbroadcastss
    some (m.setVec dst (vexResult g (fun _ => m.lane (src.address m) 0) (fun _ => 0)))
  | .Zero r => some (m.setVec r (fun _ => 0))
  | .AddMem dst src1 src2 =>
    some (m.setVec dst
      (vexResult g (fun l => m.vec src1 l + m.lane (src2.address m) l) (m.vec src1)))
  | .Mul dst src1 src2 =>
    some (m.setVec dst
      (vexResult g (fun l => m.vec src1 l * m.lane (src2.address m) l) (m.vec src1)))
  | .MulAdd dst src1 src2 retain =>
    let product := fun l => m.vec src1 l * m.lane (src2.address m) l
    -- without FMA3 and with retain = false the product is written to src1 first
    let m1 := if fma3 || retain then m
      else m.setVec src1 (vexResult g product (m.vec src1))
    some (m1.setVec dst (vexResult g (fun l => m.vec dst l + product l) (m1.vec dst)))
  | .SetMask bits => some { m with kmask := fun k => if k = g.mask_ then bits else m.kmask k }
  | .MaskedLoad dst src =>
    -- zero-masking
    some (m.setVec dst (fun l =>
      if (l : Int) < m.kmask g.mask_ then m.lane (src.address m) l else 0))
  | .MaskedStore dst src => some (m.storeLanes (dst.address m) (m.kmask g.mask_) (m.vec src))
  | .MaskedAdd dst src1 src2 =>
    -- merge-masking
    some (m.setVec dst (fun l =>
      if (l : Int) < m.kmask g.mask_ then m.vec src1 l + m.lane (src2.address m) l
      else m.vec dst l))
  | .MaskedMul dst src1 src2 =>
    some (m.setVec dst (fun l =>
      if (l : Int) < m.kmask g.mask_ then m.vec src1 l * m.lane (src2.address m) l
      else m.vec dst l))
  | .MaskedMulAdd dst src1 src2 =>
    some (m.setVec dst (fun l =>
      if (l : Int) < m.kmask g.mask_ then
        m.vec dst l + m.vec src1 l * m.lane (src2.address m) l
      else m.vec dst l))
  | .Add _ _ _ => none
  | .Sum _ => none

/-- Meaning of one emitted instruction other than a jump; `addr` gives the data address
of each tensor. -/
def Instruction.exec (addr : Tensor → Int) (fma3 : Bool) (m : Machine) :
    Instruction → Option Machine
  | .gen g op => if g.usesVex then op.exec g fma3 m else none
  | .LoadTensorAddress dst tensor => some (m.setGp dst (addr tensor))
  | .leaq dst src => some (m.setGp dst (src.address m))
  | .xorq dst src => if dst = src then some (m.setGp dst 0) else none
  | .movq dst src => some (m.setGp dst (m.gp src))
  | .movq_imm dst imm => some (m.setGp dst imm)
  | .addq_imm dst imm => some (m.setGp dst (m.gp dst + imm))
  | .cmpq a b => some { m with less := decide (m.gp a < m.gp b) }
  | .cmpq_imm a imm => some { m with less := decide (m.gp a < imm) }
  | .j_less _ => some m
  | .bind _ => some m

/-- Runs the program from position `pc` for at most `fuel` instructions; the result is
the state when the end of the program is reached. -/
def run (addr : Tensor → Int) (fma3 : Bool) (prog : List Instruction) :
    Nat → Nat → Machine → Option Machine
  | 0, _, _ => none
  | fuel + 1, pc, m =>
    match prog[pc]? with
    | none => some m
    | some (.j_less target) =>
      if m.less then run addr fma3 prog fuel (prog.indexOf (.bind target)) m
      else run addr fma3 prog fuel (pc + 1) m
    | some i =>
      match i.exec addr fma3 m with
      | some m1 => run addr fma3 prog fuel (pc + 1) m1
      | none => none

/-! ### Sample tensors -/

/-- A float matrix tensor of the given shape and order with dense rows, which supports
every order. -/
def sampleTensor (name : Nat) (order : Order) (rows cols : Int) : Tensor :=
  { name := name, type := .DT_FLOAT, order := order, shape := { dims := [rows, cols] },
    stride := if order = .COLUMN_MAJOR then [4, 4 * rows] else [4 * cols, 4],
    padding := [0, 0], size := 4 * rows * cols,
    supported := [.ANY_ORDER, .ROW_MAJOR, .COLUMN_MAJOR] }

/-- A row-major output tensor that does not support its own order (for instance because
another kernel has required a conflicting order). -/
def conflictingTensor : Tensor :=
  { sampleTensor 0 .ROW_MAJOR 2 2 with supported := [.COLUMN_MAJOR] }

/-- Arguments of a product of a 2x3 and a 3x2 matrix with a column-major output. -/
def columnMajorOutputArgs : MatMulArgs :=
  { c_ := Arg.Init (sampleTensor 0 .COLUMN_MAJOR 2 2) false,
    a_ := Arg.Init (sampleTensor 1 .ROW_MAJOR 2 3) false,
    b_ := Arg.Init (sampleTensor 2 .ROW_MAJOR 3 2) false,
    accumulate_ := false }

/-- Arguments of a product of two 2x2 matrices whose output tensor rejects its order. -/
def conflictingOutputArgs : MatMulArgs :=
  { c_ := Arg.Init conflictingTensor false,
    a_ := Arg.Init (sampleTensor 1 .ROW_MAJOR 2 2) false,
    b_ := Arg.Init (sampleTensor 2 .ROW_MAJOR 2 2) false,
    accumulate_ := false }

/-! ### Sample steps and machines -/

/-- An assembler with empty register pools and no code for the given CPU features. -/
def sampleAssembler (features : List CpuFeature) : MacroAssembler :=
  { features := features, rr := { used := [] }, mm := { used := [] }, kk := { used := [] },
    code := [] }

/-- The features of a CPU with AVX-512F. -/
def avx512Features : List CpuFeature := [.SSE, .SSE2, .SSE4_1, .AVX, .AVX2, .FMA3, .AVX512F]

/-- The features of a CPU with AVX2 and FMA3 but without AVX-512F. -/
def avxFeatures : List CpuFeature := [.SSE, .SSE2, .SSE4_1, .AVX, .AVX2, .FMA3]

/-- A `MatMul` step `C = A * B` for row-major C with the given input tensors. -/
def matMulStep (a b c : Tensor) : Step :=
  { type := "MatMul", inputs := [a, b], outputs := [c], attrs := [], variant := "" }

/-- An `AssignAddMatMul` step `C += A * B`: the result is the first input. -/
def assignAddMatMulStep (a b c : Tensor) : Step :=
  { type := "AssignAddMatMul", inputs := [c, a, b], outputs := [], attrs := [], variant := "" }

/-- The step `C += A * B` for a 1x1 matrix A and a 1x3 matrix B, all row-major. -/
def outerProductAccStep : Step :=
  assignAddMatMulStep (sampleTensor 1 .ROW_MAJOR 1 1) (sampleTensor 2 .ROW_MAJOR 1 3)
    (sampleTensor 0 .ROW_MAJOR 1 3)

/-- The step `C = A * B` for a row-major 2x3 matrix A and a row-major 3x2 matrix B. -/
def scenarioStep : Step :=
  matMulStep (sampleTensor 1 .ROW_MAJOR 2 3) (sampleTensor 2 .ROW_MAJOR 3 2)
    (sampleTensor 0 .ROW_MAJOR 2 2)

/-- The step `C = A * B` for a column-major 8x1 matrix A and a row-major 1x8 matrix B. -/
def outerProductStep : Step :=
  matMulStep (sampleTensor 1 .COLUMN_MAJOR 8 1) (sampleTensor 2 .ROW_MAJOR 1 8)
    (sampleTensor 0 .ROW_MAJOR 8 8)

/-- The arguments that `MatMulArgs` builds for `outerProductStep`. -/
def outerProductArgs : MatMulArgs :=
  { c_ := Arg.Init (sampleTensor 0 .ROW_MAJOR 8 8) false,
    a_ := Arg.Init (sampleTensor 1 .COLUMN_MAJOR 8 1) false,
    b_ := Arg.Init (sampleTensor 2 .ROW_MAJOR 1 8) false,
    accumulate_ := false }

/-- A supported step whose input A has the tensor order ANY. -/
def anyOrderStep : Step :=
  matMulStep (sampleTensor 1 .ANY_ORDER 2 3) (sampleTensor 2 .ROW_MAJOR 3 2)
    (sampleTensor 0 .ROW_MAJOR 2 2)

/-- Data addresses of the sample tensors: tensor `n` starts at byte `1000 * (n + 1)`. -/
def dataAddress (t : Tensor) : Int := 1000 * (t.name + 1)

/-- Memory in which the floats `xs` are stored consecutively from address `ea`. -/
def floats (ea : Int) (xs : List Int) (mem : Int → Int) : Int → Int :=
  fun x =>
    if ea ≤ x ∧ x < ea + 4 * xs.length ∧ (x - ea).tmod 4 = 0 then
      xs.getD ((x - ea).tdiv 4).toNat 0
    else mem x

/-- Initial machine with the given contents of the sample tensors C (tensor 0),
A (tensor 1) and B (tensor 2), and all registers zero. -/
def sampleMachine (c a b : List Int) : Machine :=
  { gp := fun _ => 0, vec := fun _ _ => 0, kmask := fun _ => 0, less := false,
    mem := floats 1000 c (floats 2000 a (floats 3000 b (fun _ => 0))) }

/-- Runs the code that `Generate` emits for the step on the machine and reads back the
first `n` floats of the output tensor C. -/
def SIMDMatMul.output (self : SIMDMatMul) (features : List CpuFeature) (step : Step)
    (m : Machine) (n : Nat) : Option (List Int) :=
  match self.Generate step (sampleAssembler features) with
  | .ok (_, masm) =>
    (run dataAddress ((sampleAssembler features).Enabled .FMA3) masm.code 1000 0 m).map
      (fun m1 => (List.range n).map (fun i => m1.mem (1000 + 4 * i)))
  | .error _ => none

/-- The code that `Generate` emits for the step into an empty assembler, if it does not
abort. -/
def SIMDMatMul.emitted (self : SIMDMatMul) (features : List CpuFeature) (step : Step) :
    Option (List Instruction) :=
  match self.Generate step (sampleAssembler features) with
  | .ok (_, masm) => some masm.code
  | .error _ => none

/-- The variant that `Generate` sets on the step, if it does not abort. -/
def SIMDMatMul.variantSet (self : SIMDMatMul) (features : List CpuFeature) (step : Step) :
    Option String :=
  match self.Generate step (sampleAssembler features) with
  | .ok (step1, _) => some step1.variant
  | .error _ => none

/-- Reference scalar matrix multiplication on row-major lists: `C = A * B`, or
`C = C0 + A * B` when accumulating, for an `rows x inner` matrix A and an
`inner x cols` matrix B. -/
def referenceMatMul (rows inner cols : Nat) (a b c0 : List Int) (accumulate : Bool) :
    List Int :=
  (List.range (rows * cols)).map fun ij =>
    (if accumulate then c0.getD ij 0 else 0) +
      ((List.range inner).map fun l =>
        a.getD ((ij / cols) * inner + l) 0 * b.getD (l * cols + ij % cols) 0).sum

/-- The phases that `SIMDStrategy` plans for a span of `size` elements with the
`SIMDAssembler` built for floats on a CPU with the given features, if neither
constructor aborts. -/
def SIMDStrategy.planned (features : List CpuFeature) (aligned : Bool)
    (size max_unrolls : Int) : Option (List Phase) :=
  match SIMDAssembler.new (sampleAssembler features) .DT_FLOAT aligned with
  | .ok (sasm, _) =>
    match SIMDStrategy.new sasm size max_unrolls with
    | .ok strategy => some strategy.phases_
    | .error _ => none
  | .error _ => none

/-! ## Machine instructions emitted by the generator methods -/

/-- The width of a SIMD register operand: `XMMRegister` (128 bits), `YMMRegister`
(256 bits) or `ZMMRegister` (512 bits). -/
inductive RegisterWidth where
  | xmm
  | ymm
  | zmm
  deriving DecidableEq, Repr

/-- Number of 32-bit float lanes of a register of the given width. -/
def RegisterWidth.lanes : RegisterWidth → Nat
  | .xmm => 4
  | .ymm => 8
  | .zmm => 16

/-- Modelled from the spec: a SIMD register operand, the register with the given code
seen at a width; registers with the same code share their low lanes. -/
structure SIMDRegister where
  width : RegisterWidth
  code : Nat
  deriving DecidableEq, Repr

/-- The helper `xmm(code)`, also `XMMRegister::from_code`. -/
def xmm (code : Nat) : SIMDRegister := { width := .xmm, code := code }

/-- The helper `ymm(code)`, also `YMMRegister::from_code`. -/
def ymm (code : Nat) : SIMDRegister := { width := .ymm, code := code }

/-- The helper `zmm(code)`, also `ZMMRegister::from_code`. -/
def zmm (code : Nat) : SIMDRegister := { width := .zmm, code := code }

/-- The accessor `ymm()` of a wider register: the same register seen as 256 bits. -/
def SIMDRegister.ymm (r : SIMDRegister) : SIMDRegister := { r with width := .ymm }

/-- An operand of a machine instruction: a SIMD register, a memory operand or an
immediate byte. -/
inductive MachineOperand where
  | reg (r : SIMDRegister)
  | mem (m : Operand)
  | imm (v : Nat)
  deriving DecidableEq, Repr

/-- The assembler methods that the generator methods `Add`, `Mul`, `MulAdd` and `Sum`
call. -/
inductive Mnemonic where
  | vaddps
  | vmulps
  | vfmadd231ps
  | vaddss
  | vmulss
  | vfmadd231ss
  | movaps
  | movups
  | movss
  | addps
  | mulps
  | addss
  | mulss
  | vshuff32x4
  | vperm2f128
  | vhaddps
  | haddps
  deriving DecidableEq, Repr

/-- One machine instruction: the assembler method called and its arguments in the order
of the call; for every mnemonic above the first operand is the destination. -/
structure MachineInstruction where
  mnemonic : Mnemonic
  operands : List MachineOperand
  deriving DecidableEq, Repr

/-- The code of the register that the instruction writes. -/
def MachineInstruction.written (i : MachineInstruction) : Option Nat :=
  match i.operands with
  | .reg r :: _ => some r.code
  | _ => none

/-- Whether the operand is a memory operand. -/
def MachineOperand.isMem : MachineOperand → Bool
  | .mem _ => true
  | _ => false

/-- The memory operands of the instruction. -/
def MachineInstruction.memoryOperands (i : MachineInstruction) : List MachineOperand :=
  i.operands.filter MachineOperand.isMem

/-- Whether the instruction is a fused multiply-add. -/
def MachineInstruction.isFused (i : MachineInstruction) : Bool :=
  i.mnemonic = .vfmadd231ps || i.mnemonic = .vfmadd231ss

/-- Whether the instruction is a multiplication. -/
def MachineInstruction.isMul (i : MachineInstruction) : Bool :=
  i.mnemonic = .vmulps || i.mnemonic = .vmulss || i.mnemonic = .mulps || i.mnemonic = .mulss

/-- Modelled from the spec: `masm->mm().allocx()` reserves a register of the SIMD pool
and returns it as an `XMMRegister`. -/
def MacroAssembler.allocx (masm : MacroAssembler) : SIMDRegister × MacroAssembler :=
  (xmm masm.mm.alloc.1, { masm with mm := masm.mm.alloc.2 })

/-- Modelled from the spec: `masm->mm().allocy()`, as `allocx` for a `YMMRegister`. -/
def MacroAssembler.allocy (masm : MacroAssembler) : SIMDRegister × MacroAssembler :=
  (ymm masm.mm.alloc.1, { masm with mm := masm.mm.alloc.2 })

/-- Modelled from the spec: `masm->mm().allocz()`, as `allocx` for a `ZMMRegister`. -/
def MacroAssembler.allocz (masm : MacroAssembler) : SIMDRegister × MacroAssembler :=
  (zmm masm.mm.alloc.1, { masm with mm := masm.mm.alloc.2 })

/-- Modelled from the spec: `masm->mm().release(reg)` returns the register to the pool. -/
def MacroAssembler.releasem (masm : MacroAssembler) (r : SIMDRegister) : MacroAssembler :=
  { masm with mm := masm.mm.release r.code }

/-! ### The methods `Add`, `Mul`, `MulAdd` and `Sum` of the generator classes -/

/-- `AVX512FloatGenerator::Add` with a memory operand (lines 106-108). -/
def AVX512FloatGenerator.AddMem (masm : MacroAssembler) (dst src1 : Nat) (src2 : Operand) :
    List MachineInstruction × MacroAssembler :=
  ([⟨.vaddps, [.reg (zmm dst), .reg (zmm src1), .mem src2]⟩], masm)

/-- `AVX512FloatGenerator::Mul` (lines 110-112). -/
def AVX512FloatGenerator.Mul (masm : MacroAssembler) (dst src1 : Nat) (src2 : Operand) :
    List MachineInstruction × MacroAssembler :=
  ([⟨.vmulps, [.reg (zmm dst), .reg (zmm src1), .mem src2]⟩], masm)

/-- `AVX512FloatGenerator::MulAdd` (lines 114-126). -/
def AVX512FloatGenerator.MulAdd (masm : MacroAssembler) (dst src1 : Nat) (src2 : Operand)
    (retain : Bool) : List MachineInstruction × MacroAssembler :=
  if masm.Enabled .FMA3 then
    ([⟨.vfmadd231ps, [.reg (zmm dst), .reg (zmm src1), .mem src2]⟩], masm)
  else if retain then
    let acc := masm.allocz.1
    let masm1 := masm.allocz.2
    ([⟨.vmulps, [.reg acc, .reg (zmm src1), .mem src2]⟩,
      ⟨.vaddps, [.reg (zmm dst), .reg (zmm dst), .reg acc]⟩], masm1.releasem acc)
  else
    ([⟨.vmulps, [.reg (zmm src1), .reg (zmm src1), .mem src2]⟩,
      ⟨.vaddps, [.reg (zmm dst), .reg (zmm dst), .reg (zmm src1)]⟩], masm)

/-- `AVX512FloatGenerator::Sum` (lines 128-138). -/
def AVX512FloatGenerator.Sum (masm : MacroAssembler) (r : Nat) :
    List MachineInstruction × MacroAssembler :=
  let sum := zmm r
  let acc := masm.allocz.1
  let masm1 := masm.allocz.2
  ([⟨.vshuff32x4, [.reg acc, .reg sum, .reg sum, .imm 0x0E]⟩,
    ⟨.vaddps, [.reg sum, .reg sum, .reg acc]⟩,
    ⟨.vperm2f128, [.reg acc.ymm, .reg sum.ymm, .reg sum.ymm, .imm 1]⟩,
    ⟨.vhaddps, [.reg sum.ymm, .reg sum.ymm, .reg acc.ymm]⟩,
    ⟨.vhaddps, [.reg sum.ymm, .reg sum.ymm, .reg sum.ymm]⟩,
    ⟨.vhaddps, [.reg sum.ymm, .reg sum.ymm, .reg sum.ymm]⟩], masm1.releasem acc)

/-- `AVX256FloatGenerator::Add` with a memory operand (lines 219-221). -/
def AVX256FloatGenerator.AddMem (masm : MacroAssembler) (dst src1 : Nat) (src2 : Operand) :
    List MachineInstruction × MacroAssembler :=
  ([⟨.vaddps, [.reg (ymm dst), .reg (ymm src1), .mem src2]⟩], masm)

/-- `AVX256FloatGenerator::Mul` (lines 223-225). -/
def AVX256FloatGenerator.Mul (masm : MacroAssembler) (dst src1 : Nat) (src2 : Operand) :
    List MachineInstruction × MacroAssembler :=
  ([⟨.vmulps, [.reg (ymm dst), .reg (ymm src1), .mem src2]⟩], masm)

/-- `AVX256FloatGenerator::MulAdd` (lines 227-239). -/
def AVX256FloatGenerator.MulAdd (masm : MacroAssembler) (dst src1 : Nat) (src2 : Operand)
    (retain : Bool) : List MachineInstruction × MacroAssembler :=
  if masm.Enabled .FMA3 then
    ([⟨.vfmadd231ps, [.reg (ymm dst), .reg (ymm src1), .mem src2]⟩], masm)
  else if retain then
    let acc := masm.allocy.1
    let masm1 := masm.allocy.2
    ([⟨.vmulps, [.reg acc, .reg (ymm src1), .mem src2]⟩,
      ⟨.vaddps, [.reg (ymm dst), .reg (ymm dst), .reg acc]⟩], masm1.releasem acc)
  else
    ([⟨.vmulps, [.reg (ymm src1), .reg (ymm src1), .mem src2]⟩,
      ⟨.vaddps, [.reg (ymm dst), .reg (ymm dst), .reg (ymm src1)]⟩], masm)

/-- `AVX256FloatGenerator::Sum` (lines 241-249). -/
def AVX256FloatGenerator.Sum (masm : MacroAssembler) (r : Nat) :
    List MachineInstruction × MacroAssembler :=
  let sum := ymm r
  let acc := masm.allocy.1
  let masm1 := masm.allocy.2
  ([⟨.vperm2f128, [.reg acc, .reg sum, .reg sum, .imm 1]⟩,
    ⟨.vhaddps, [.reg sum, .reg sum, .reg acc]⟩,
    ⟨.vhaddps, [.reg sum, .reg sum, .reg sum]⟩,
    ⟨.vhaddps, [.reg sum, .reg sum, .reg sum]⟩], masm1.releasem acc)

/-- `AVX128FloatGenerator::Add` with a memory operand (lines 291-293). -/
def AVX128FloatGenerator.AddMem (masm : MacroAssembler) (dst src1 : Nat) (src2 : Operand) :
    List MachineInstruction × MacroAssembler :=
  ([⟨.vaddps, [.reg (xmm dst), .reg (xmm src1), .mem src2]⟩], masm)

/-- `AVX128FloatGenerator::Mul` (lines 295-297). -/
def AVX128FloatGenerator.Mul (masm : MacroAssembler) (dst src1 : Nat) (src2 : Operand) :
    List MachineInstruction × MacroAssembler :=
  ([⟨.vmulps, [.reg (xmm dst), .reg (xmm src1), .mem src2]⟩], masm)

/-- `AVX128FloatGenerator::MulAdd` (lines 299-311). -/
def AVX128FloatGenerator.MulAdd (masm : MacroAssembler) (dst src1 : Nat) (src2 : Operand)
    (retain : Bool) : List MachineInstruction × MacroAssembler :=
  if masm.Enabled .FMA3 then
    ([⟨.vfmadd231ps, [.reg (xmm dst), .reg (xmm src1), .mem src2]⟩], masm)
  else if retain then
    let acc := masm.allocx.1
    let masm1 := masm.allocx.2
    ([⟨.vmulps, [.reg acc, .reg (xmm src1), .mem src2]⟩,
      ⟨.vaddps, [.reg (xmm dst), .reg (xmm dst), .reg acc]⟩], masm1.releasem acc)
  else
    ([⟨.vmulps, [.reg (xmm src1), .reg (xmm src1), .mem src2]⟩,
      ⟨.vaddps, [.reg (xmm dst), .reg (xmm dst), .reg (xmm src1)]⟩], masm)

/-- `AVX128FloatGenerator::Sum` (lines 313-317). -/
def AVX128FloatGenerator.Sum (masm : MacroAssembler) (r : Nat) :
    List MachineInstruction × MacroAssembler :=
  let sum := xmm r
  ([⟨.vhaddps, [.reg sum, .reg sum, .reg sum]⟩,
    ⟨.vhaddps, [.reg sum, .reg sum, .reg sum]⟩], masm)

/-- `SSE128FloatGenerator::Add` with a memory operand (lines 361-371). -/
def SSE128FloatGenerator.AddMem (aligned_ : Bool) (masm : MacroAssembler) (dst src1 : Nat)
    (src2 : Operand) : List MachineInstruction × MacroAssembler :=
  let move : List MachineInstruction :=
    if dst ≠ src1 then [⟨.movaps, [.reg (xmm dst), .reg (xmm src1)]⟩] else []
  if aligned_ then
    (move ++ [⟨.addps, [.reg (xmm dst), .mem src2]⟩], masm)
  else
    let mem := masm.allocx.1
    let masm1 := masm.allocx.2
    (move ++ [⟨.movups, [.reg mem, .mem src2]⟩, ⟨.addps, [.reg (xmm dst), .reg mem]⟩],
      masm1.releasem mem)

/-- `SSE128FloatGenerator::Mul` (lines 373-383). -/
def SSE128FloatGenerator.Mul (aligned_ : Bool) (masm : MacroAssembler) (dst src1 : Nat)
    (src2 : Operand) : List MachineInstruction × MacroAssembler :=
  let move : List MachineInstruction :=
    if dst ≠ src1 then [⟨.movaps, [.reg (xmm dst), .reg (xmm src1)]⟩] else []
  if aligned_ then
    (move ++ [⟨.mulps, [.reg (xmm dst), .mem src2]⟩], masm)
  else
    let mem := masm.allocx.1
    let masm1 := masm.allocx.2
    (move ++ [⟨.movups, [.reg mem, .mem src2]⟩, ⟨.mulps, [.reg (xmm dst), .reg mem]⟩],
      masm1.releasem mem)

/-- `SSE128FloatGenerator::MulAdd` (lines 385-415). -/
def SSE128FloatGenerator.MulAdd (aligned_ : Bool) (masm : MacroAssembler) (dst src1 : Nat)
    (src2 : Operand) (retain : Bool) : List MachineInstruction × MacroAssembler :=
  if retain then
    if aligned_ then
      let acc := masm.allocx.1
      let masm1 := masm.allocx.2
      ([⟨.movaps, [.reg acc, .reg (xmm src1)]⟩,
        ⟨.mulps, [.reg acc, .mem src2]⟩,
        ⟨.addps, [.reg (xmm dst), .reg acc]⟩], masm1.releasem acc)
    else
      let acc := masm.allocx.1
      let masm1 := masm.allocx.2
      let mem := masm1.allocx.1
      let masm2 := masm1.allocx.2
      ([⟨.movaps, [.reg acc, .reg (xmm src1)]⟩,
        ⟨.movups, [.reg mem, .mem src2]⟩,
        ⟨.mulps, [.reg acc, .reg mem]⟩,
        ⟨.addps, [.reg (xmm dst), .reg acc]⟩], (masm2.releasem acc).releasem mem)
  else
    if aligned_ then
      ([⟨.mulps, [.reg (xmm src1), .mem src2]⟩,
        ⟨.addps, [.reg (xmm dst), .reg (xmm src1)]⟩], masm)
    else
      let mem := masm.allocx.1
      let masm1 := masm.allocx.2
      ([⟨.movups, [.reg mem, .mem src2]⟩,
        ⟨.mulps, [.reg (xmm src1), .reg mem]⟩,
        ⟨.addps, [.reg (xmm dst), .reg (xmm src1)]⟩], masm1.releasem mem)

/-- `SSE128FloatGenerator::Sum` (lines 417-421). -/
def SSE128FloatGenerator.Sum (masm : MacroAssembler) (r : Nat) :
    List MachineInstruction × MacroAssembler :=
  let sum := xmm r
  ([⟨.haddps, [.reg sum, .reg sum]⟩, ⟨.haddps, [.reg sum, .reg sum]⟩], masm)

/-- `AVX512ScalarFloatGenerator::Add` with a memory operand (lines 451-453). -/
def AVX512ScalarFloatGenerator.AddMem (masm : MacroAssembler) (dst src1 : Nat) (src2 : Operand) :
    List MachineInstruction × MacroAssembler :=
  ([⟨.vaddss, [.reg (zmm dst), .reg (zmm src1), .mem src2]⟩], masm)

/-- `AVX512ScalarFloatGenerator::Mul` (lines 455-457). -/
def AVX512ScalarFloatGenerator.Mul (masm : MacroAssembler) (dst src1 : Nat) (src2 : Operand) :
    List MachineInstruction × MacroAssembler :=
  ([⟨.vmulss, [.reg (zmm dst), .reg (zmm src1), .mem src2]⟩], masm)

/-- `AVX512ScalarFloatGenerator::MulAdd` (lines 459-471). -/
def AVX512ScalarFloatGenerator.MulAdd (masm : MacroAssembler) (dst src1 : Nat) (src2 : Operand)
    (retain : Bool) : List MachineInstruction × MacroAssembler :=
  if masm.Enabled .FMA3 then
    ([⟨.vfmadd231ss, [.reg (zmm dst), .reg (zmm src1), .mem src2]⟩], masm)
  else if retain then
    let acc := masm.allocz.1
    let masm1 := masm.allocz.2
    ([⟨.vmulss, [.reg acc, .reg (zmm src1), .mem src2]⟩,
      ⟨.vaddss, [.reg (zmm dst), .reg (zmm dst), .reg acc]⟩], masm1.releasem acc)
  else
    ([⟨.vmulss, [.reg (zmm src1), .reg (zmm src1), .mem src2]⟩,
      ⟨.vaddss, [.reg (zmm dst), .reg (zmm dst), .reg (zmm src1)]⟩], masm)

/-- `AVXScalarFloatGenerator::Add` with a memory operand (lines 504-508). -/
def AVXScalarFloatGenerator.AddMem (masm : MacroAssembler) (dst src1 : Nat) (src2 : Operand) :
    List MachineInstruction × MacroAssembler :=
  ([⟨.vaddss, [.reg (xmm dst), .reg (xmm src1), .mem src2]⟩], masm)

/-- `AVXScalarFloatGenerator::Mul` (lines 510-514). -/
def AVXScalarFloatGenerator.Mul (masm : MacroAssembler) (dst src1 : Nat) (src2 : Operand) :
    List MachineInstruction × MacroAssembler :=
  ([⟨.vmulss, [.reg (xmm dst), .reg (xmm src1), .mem src2]⟩], masm)

/-- `AVXScalarFloatGenerator::MulAdd` (lines 516-530). -/
def AVXScalarFloatGenerator.MulAdd (masm : MacroAssembler) (dst src1 : Nat) (src2 : Operand)
    (retain : Bool) : List MachineInstruction × MacroAssembler :=
  if masm.Enabled .FMA3 then
    ([⟨.vfmadd231ss, [.reg (xmm dst), .reg (xmm src1), .mem src2]⟩], masm)
  else if retain then
    let acc := masm.allocx.1
    let masm1 := masm.allocx.2
    ([⟨.vmulss, [.reg acc, .reg (xmm src1), .mem src2]⟩,
      ⟨.vaddss, [.reg (xmm dst), .reg (xmm dst), .reg acc]⟩], masm1.releasem acc)
  else
    ([⟨.vmulss, [.reg (xmm src1), .reg (xmm src1), .mem src2]⟩,
      ⟨.vaddss, [.reg (xmm dst), .reg (xmm dst), .reg (xmm src1)]⟩], masm)

/-- `SSEScalarFloatGenerator::Add` with a memory operand (lines 561-564). -/
def SSEScalarFloatGenerator.AddMem (masm : MacroAssembler) (dst src1 : Nat) (src2 : Operand) :
    List MachineInstruction × MacroAssembler :=
  let move : List MachineInstruction :=
    if dst ≠ src1 then [⟨.movss, [.reg (xmm dst), .reg (xmm src1)]⟩] else []
  (move ++ [⟨.addss, [.reg (xmm dst), .mem src2]⟩], masm)

/-- `SSEScalarFloatGenerator::Mul` (lines 566-569). -/
def SSEScalarFloatGenerator.Mul (masm : MacroAssembler) (dst src1 : Nat) (src2 : Operand) :
    List MachineInstruction × MacroAssembler :=
  let move : List MachineInstruction :=
    if dst ≠ src1 then [⟨.movss, [.reg (xmm dst), .reg (xmm src1)]⟩] else []
  (move ++ [⟨.mulss, [.reg (xmm dst), .mem src2]⟩], masm)

/-- `SSEScalarFloatGenerator::MulAdd` (lines 571-582). -/
def SSEScalarFloatGenerator.MulAdd (masm : MacroAssembler) (dst src1 : Nat) (src2 : Operand)
    (retain : Bool) : List MachineInstruction × MacroAssembler :=
  if retain then
    let acc := masm.allocx.1
    let masm1 := masm.allocx.2
    ([⟨.movss, [.reg acc, .reg (xmm src1)]⟩,
      ⟨.mulss, [.reg acc, .mem src2]⟩,
      ⟨.addss, [.reg (xmm dst), .reg acc]⟩], masm1.releasem acc)
  else
    ([⟨.mulss, [.reg (xmm src1), .mem src2]⟩,
      ⟨.addss, [.reg (xmm dst), .reg (xmm src1)]⟩], masm)

/-! ### Virtual calls -/

/-- The virtual call `generator->Add(dst, src1, src2)` with a memory operand `src2`: the
machine instructions it emits and the assembler after the call. -/
def SIMDGenerator.callAddMem (g : SIMDGenerator) (masm : MacroAssembler) (dst src1 : Nat)
    (src2 : Operand) : List MachineInstruction × MacroAssembler :=
  match g.cls with
  | .AVX512FloatGenerator => AVX512FloatGenerator.AddMem masm dst src1 src2
  | .AVX256FloatGenerator => AVX256FloatGenerator.AddMem masm dst src1 src2
  | .AVX128FloatGenerator => AVX128FloatGenerator.AddMem masm dst src1 src2
  | .SSE128FloatGenerator => SSE128FloatGenerator.AddMem g.aligned_ masm dst src1 src2
  | .AVX512ScalarFloatGenerator => AVX512ScalarFloatGenerator.AddMem masm dst src1 src2
  | .AVXScalarFloatGenerator => AVXScalarFloatGenerator.AddMem masm dst src1 src2
  | .SSEScalarFloatGenerator => SSEScalarFloatGenerator.AddMem masm dst src1 src2

/-- The virtual call `generator->Mul(dst, src1, src2)`. -/
def SIMDGenerator.callMul (g : SIMDGenerator) (masm : MacroAssembler) (dst src1 : Nat)
    (src2 : Operand) : List MachineInstruction × MacroAssembler :=
  match g.cls with
  | .AVX512FloatGenerator => AVX512FloatGenerator.Mul masm dst src1 src2
  | .AVX256FloatGenerator => AVX256FloatGenerator.Mul masm dst src1 src2
  | .AVX128FloatGenerator => AVX128FloatGenerator.Mul masm dst src1 src2
  | .SSE128FloatGenerator => SSE128FloatGenerator.Mul g.aligned_ masm dst src1 src2
  | .AVX512ScalarFloatGenerator => AVX512ScalarFloatGenerator.Mul masm dst src1 src2
  | .AVXScalarFloatGenerator => AVXScalarFloatGenerator.Mul masm dst src1 src2
  | .SSEScalarFloatGenerator => SSEScalarFloatGenerator.Mul masm dst src1 src2

/-- The virtual call `generator->MulAdd(dst, src1, src2, retain)`. -/
def SIMDGenerator.callMulAdd (g : SIMDGenerator) (masm : MacroAssembler) (dst src1 : Nat)
    (src2 : Operand) (retain : Bool) : List MachineInstruction × MacroAssembler :=
  match g.cls with
  | .AVX512FloatGenerator => AVX512FloatGenerator.MulAdd masm dst src1 src2 retain
  | .AVX256FloatGenerator => AVX256FloatGenerator.MulAdd masm dst src1 src2 retain
  | .AVX128FloatGenerator => AVX128FloatGenerator.MulAdd masm dst src1 src2 retain
  | .SSE128FloatGenerator => SSE128FloatGenerator.MulAdd g.aligned_ masm dst src1 src2 retain
  | .AVX512ScalarFloatGenerator => AVX512ScalarFloatGenerator.MulAdd masm dst src1 src2 retain
  | .AVXScalarFloatGenerator => AVXScalarFloatGenerator.MulAdd masm dst src1 src2 retain
  | .SSEScalarFloatGenerator => SSEScalarFloatGenerator.MulAdd masm dst src1 src2 retain

/-- The virtual call `generator->Sum(r)`: the four vector classes override `Sum`, the
scalar classes inherit `SIMDGenerator::Sum`, which checks `VectorSize() == 1` and emits
nothing (lines 29-32). -/
def SIMDGenerator.callSum (g : SIMDGenerator) (masm : MacroAssembler) (r : Nat) :
    Except Fatal (List MachineInstruction × MacroAssembler) :=
  match g.cls with
  | .AVX512FloatGenerator => .ok (AVX512FloatGenerator.Sum masm r)
  | .AVX256FloatGenerator => .ok (AVX256FloatGenerator.Sum masm r)
  | .AVX128FloatGenerator => .ok (AVX128FloatGenerator.Sum masm r)
  | .SSE128FloatGenerator => .ok (SSE128FloatGenerator.Sum masm r)
  | _ => if g.VectorSize = 1 then .ok ([], masm) else .error .CheckEqVectorSize

/-! ### Lane-wise semantics of the reduction instructions -/

/-- The SIMD register file over exact arithmetic: `rf code lane` is the value of a
32-bit lane of the 512-bit register with the given code. -/
abbrev RegisterFile (R : Type) := Nat → Nat → R

/-- Writes the lanes `v` to the register `dst`. -/
def RegisterFile.set {R : Type} (rf : RegisterFile R) (dst : Nat) (v : Nat → R) :
    RegisterFile R :=
  fun code => if code = dst then v else rf code

/-- The result of a VEX or EVEX encoded instruction with a destination of the given
width: the lanes of that width are written and the upper lanes of the register are
zeroed. -/
def vexLanes {R : Type} [Zero R] (w : RegisterWidth) (v : Nat → R) : Nat → R :=
  fun i => if i < w.lanes then v i else 0

/-- Horizontal add of packed floats: within each 128-bit group of four lanes, the two
low lanes of the result are the sums of the adjacent pairs of the first source and the
two high lanes those of the second source. -/
def haddLanes {R : Type} [Add R] (s1 s2 : Nat → R) : Nat → R :=
  fun i =>
    if i % 4 = 0 then s1 (4 * (i / 4)) + s1 (4 * (i / 4) + 1)
    else if i % 4 = 1 then s1 (4 * (i / 4) + 2) + s1 (4 * (i / 4) + 3)
    else if i % 4 = 2 then s2 (4 * (i / 4)) + s2 (4 * (i / 4) + 1)
    else s2 (4 * (i / 4) + 2) + s2 (4 * (i / 4) + 3)

/-- The 128-bit groups that `vshuff32x4` with a 512-bit destination selects: groups 0
and 1 of the result come from the first source, groups 2 and 3 from the second source,
each chosen by two bits of the immediate. -/
def shuff32x4Lanes {R : Type} (s1 s2 : Nat → R) (imm : Nat) : Nat → R :=
  fun i =>
    if i / 4 = 0 then s1 (4 * (imm % 4) + i % 4)
    else if i / 4 = 1 then s1 (4 * (imm / 4 % 4) + i % 4)
    else if i / 4 = 2 then s2 (4 * (imm / 16 % 4) + i % 4)
    else s2 (4 * (imm / 64 % 4) + i % 4)

/-- One 128-bit half of the result of `vperm2f128` for the four control bits `ctl`:
bit 3 zeroes the half, bit 1 selects the source and bit 0 the half of that source. -/
def perm2f128Half {R : Type} [Zero R] (s1 s2 : Nat → R) (ctl : Nat) (k : Nat) : R :=
  if ctl / 8 % 2 = 1 then 0
  else if ctl / 2 % 2 = 0 then s1 (4 * (ctl % 2) + k)
  else s2 (4 * (ctl % 2) + k)

/-- The lanes of the result of `vperm2f128`: the low half is controlled by the bits 0-3
of the immediate and the high half by the bits 4-7. -/
def perm2f128Lanes {R : Type} [Zero R] (s1 s2 : Nat → R) (imm : Nat) : Nat → R :=
  fun i =>
    if i / 4 = 0 then perm2f128Half s1 s2 (imm % 16) (i % 4)
    else perm2f128Half s1 s2 (imm / 16 % 16) (i % 4)

/-- Lane-wise semantics over a commutative ring of the register-to-register instructions
that the `Sum` methods emit; other instructions and operand shapes are not interpreted. -/
def MachineInstruction.exec {R : Type} [CommRing R] (i : MachineInstruction)
    (rf : RegisterFile R) : Option (RegisterFile R) :=
  match i.mnemonic, i.operands with
  | .vaddps, [.reg d, .reg a, .reg b] =>
    some (rf.set d.code (vexLanes d.width (fun k => rf a.code k + rf b.code k)))
  | .vhaddps, [.reg d, .reg a, .reg b] =>
    if d.width = .zmm then none
    else some (rf.set d.code (vexLanes d.width (haddLanes (rf a.code) (rf b.code))))
  | .haddps, [.reg d, .reg b] =>
    some (rf.set d.code
      (fun k => if k < 4 then haddLanes (rf d.code) (rf b.code) k else rf d.code k))
  | .vshuff32x4, [.reg d, .reg a, .reg b, .imm imm] =>
    if d.width = .zmm then
      some (rf.set d.code (vexLanes d.width (shuff32x4Lanes (rf a.code) (rf b.code) imm)))
    else none
  | .vperm2f128, [.reg d, .reg a, .reg b, .imm imm] =>
    if d.width = .ymm then
      some (rf.set d.code (vexLanes d.width (perm2f128Lanes (rf a.code) (rf b.code) imm)))
    else none
  | _, _ => none

/-- Runs a sequence of machine instructions on a register file. -/
def runMachine {R : Type} [CommRing R] :
    List MachineInstruction → RegisterFile R → Option (RegisterFile R)
  | [], rf => some rf
  | i :: rest, rf =>
    match i.exec rf with
    | some rf1 => runMachine rest rf1
    | none => none

/-- The sum of the first `n` lanes of a register. -/
def laneSum {R : Type} [CommRing R] (n : Nat) (v : Nat → R) : R :=
  ((List.range n).map v).sum

/-- Lane 0 of the register `r` after the code of the virtual call `generator->Sum(r)` has
run on the register file, if the call does not abort and the code is interpreted. -/
def SIMDGenerator.sumLane0 {R : Type} [CommRing R] (g : SIMDGenerator)
    (masm : MacroAssembler) (r : Nat) (rf : RegisterFile R) : Option R :=
  match g.callSum masm r with
  | .ok (code, _) => (runMachine code rf).map (fun rf1 => rf1 r 0)
  | .error _ => none

/-- A register file for examples: lane `i` of register `code` holds `100 * code + i`. -/
def sampleRegisterFile : RegisterFile Int := fun code lane => 100 * code + lane

/-- An assembler for the given CPU features in which the SIMD registers 0 and 1 are
reserved. -/
def reservedAssembler (features : List CpuFeature) : MacroAssembler :=
  { sampleAssembler features with mm := { used := [0, 1] } }

/-! ## Sums of accumulator registers over exact addition -/

/-- Meaning of a call `Add(dst, src1, src2)` with register operands over exact addition:
the value of the register `dst` becomes the sum of the values of `src1` and `src2`, where
the value of a register stands for all its lanes.  Other instructions are not
interpreted. -/
def Instruction.execAdd {R : Type} [AddCommMonoid R] (v : Nat → R) :
    Instruction → Option (Nat → R)
  | .gen _ (.Add dst src1 src2) => some (fun r => if r = dst then v src1 + v src2 else v r)
  | _ => none

/-- Runs a sequence of register additions on the register values `v`. -/
def runAdds {R : Type} [AddCommMonoid R] : List Instruction → (Nat → R) → Option (Nat → R)
  | [], v => some v
  | i :: rest, v =>
    match i.execAdd v with
    | some v1 => runAdds rest v1
    | none => none

/-! ## The scalar float expression generator (`ScalarFltSSEGenerator`) -/

/-- Modelled from the spec: the operation types of `Express` that the generator
distinguishes (class `Express` is declared outside the sources); `OTHER` stands for every
operation type that `Generate` does not name. -/
inductive OpType where
  | MOV
  | ADD
  | SUB
  | MUL
  | DIV
  | MINIMUM
  | MAXIMUM
  | SQRT
  | CMPEQOQ
  | CMPNEUQ
  | CMPLTOQ
  | CMPLEOQ
  | CMPGTOQ
  | CMPGEOQ
  | COND
  | SELECT
  | BITAND
  | BITOR
  | AND
  | OR
  | XOR
  | ANDNOT
  | NOT
  | FLOOR
  | CVTFLTINT
  | CVTINTFLT
  | CVTEXPINT
  | CVTINTEXP
  | SUBINT
  | SUM
  | PRODUCT
  | MIN
  | MAX
  | OTHER
  deriving DecidableEq, Repr

/-- Modelled from the spec: an instruction `Express::Op` of a compiled expression.  The
fields `dst`, `src`, `src2`, `mask` and `acc` are register indices, where -1 means that
the operand is not in a register; `args` are the argument variables and `result` the
result variable, identified by numbers. -/
structure Op where
  type : OpType
  dst : Int
  src : Int
  src2 : Int
  mask : Int
  acc : Int
  args : List Nat
  result : Nat
  deriving DecidableEq, Repr

/-- Modelled from the spec: the compiled expression `instructions_`: its operations and
the number of registers it uses (`NumRegs()`). -/
structure Express where
  ops : List Op
  NumRegs : Int
  deriving DecidableEq, Repr

/-- Modelled from the spec: `Express::Has(type)`, whether the expression contains an
operation of the type. -/
def Express.Has (e : Express) (type : OpType) : Bool := e.ops.any (fun op => op.type = type)

/-- An operand of an instruction of the expression generator, as written in the source:
`xmm(idx)`, `xmmaux(i)`, `aux(i)`, `addr(instr->args[k])` (or `addr(instr->result)`) and
immediates. -/
inductive ExprOperand where
  | xmm (idx : Int)
  | xmmaux (i : Nat)
  | aux (i : Nat)
  | addr (var : Option Nat)
  | imm (v : Int)
  deriving DecidableEq, Repr

/-- The assembler methods named in `scalar-flt-sse.cc`. -/
inductive ExprMnemonic where
  | xorps
  | xorpd
  | addss
  | addsd
  | subss
  | subsd
  | mulss
  | mulsd
  | divss
  | divsd
  | minss
  | minsd
  | maxss
  | maxsd
  | sqrtss
  | sqrtsd
  | cmpss
  | cmpsd
  | roundss
  | roundsd
  | movapd
  | movaps
  | movss
  | movsd
  | pslld
  | psrld
  | psllq
  | psrlq
  | cvttps2dq
  | cvtdq2ps
  | psubd
  | andps
  | orps
  | andnps
  | movl
  | movd
  | movq
  | cvttpd2dq
  | cvtdq2pd
  | psubq
  | andpd
  | orpd
  | andnpd
  | ptest
  deriving DecidableEq, Repr

/-- The two labels of `GenerateConditional` and `GenerateSelect`. -/
inductive ExprLabel where
  | l1
  | l2
  deriving DecidableEq, Repr

/-- The constants passed to the inherited helper `GenerateXMMFltOp`: comparison
predicates and the rounding mode. -/
inductive HelperImmediate where
  | CMP_EQ_OQ
  | CMP_NEQ_UQ
  | CMP_LT_OQ
  | CMP_LE_OQ
  | CMP_GT_OQ
  | CMP_GE_OQ
  | round_down
  deriving DecidableEq, Repr

/-- One item of the code emitted for an operation: an instruction emitted through the
assembler, a jump or label, or a call of one of the helpers inherited from
`ExpressionGenerator` (defined outside the sources), recorded with the instruction
methods and the extra argument that the call passes. -/
inductive ExprInstruction where
  | ins (mnemonic : ExprMnemonic) (operands : List ExprOperand)
  | j_zero (target : ExprLabel)
  | j_not_zero (target : ExprLabel)
  | jmp (target : ExprLabel)
  | bind (label : ExprLabel)
  | GenerateXMMScalarFltMove
  | GenerateXMMFltOp (fltop dblop : ExprMnemonic) (imm : Option HelperImmediate)
      (argnum : Option Nat)
  | GenerateXMMFltAccOp (fltop dblop : ExprMnemonic)
  deriving DecidableEq, Repr

/-- The ways in which the expression generator aborts: the macro `UNSUPPORTED` and a
failing `CHECK`. -/
inductive ExprFatal where
  | Unsupported
  | Check
  deriving DecidableEq, Repr

/-- Modelled from the spec: the register assignment of the index generator, which maps
`xmm(idx)`, `xmmaux(i)` and `aux(i)` to register codes (declared outside the sources). -/
structure IndexGenerator where
  xmm : Int → Nat
  xmmaux : Nat → Nat
  aux : Nat → Nat

/-- The state of a `ScalarFltSSEGenerator` that its methods read: the element type
`type_`, the expression `instructions_` and the index generator `index_`. -/
structure ScalarFltSSEGenerator where
  type_ : Type_
  instructions_ : Express
  index_ : IndexGenerator

/-- The reservations that `Reserve` makes at the index generator: the arguments of
`ReserveXMMRegisters`, `ReserveAuxRegisters` (0 when it is not called) and
`ReserveAuxXMMRegisters`. -/
structure Reservation where
  xmm_registers : Int
  aux_registers : Int
  aux_xmm_registers : Int
  deriving DecidableEq, Repr

/-- The method `ScalarFltSSEGenerator::Reserve` (lines 42-65). -/
def ScalarFltSSEGenerator.Reserve (self : ScalarFltSSEGenerator) : Reservation :=
  let num_mm_aux : Int := 0
  let num_mm_aux :=
    if self.instructions_.Has .BITAND ||
       self.instructions_.Has .BITOR ||
       self.instructions_.Has .AND ||
       self.instructions_.Has .OR ||
       self.instructions_.Has .XOR ||
       self.instructions_.Has .ANDNOT ||
       self.instructions_.Has .CVTFLTINT ||
       self.instructions_.Has .CVTINTFLT ||
       self.instructions_.Has .SUBINT then max num_mm_aux 1
    else num_mm_aux
  if self.instructions_.Has .NOT then
    { xmm_registers := self.instructions_.NumRegs, aux_registers := 1,
      aux_xmm_registers := max num_mm_aux 2 }
  else
    { xmm_registers := self.instructions_.NumRegs, aux_registers := 0,
      aux_xmm_registers := num_mm_aux }

/-- The method `GenerateShift` (lines 218-262). -/
def ScalarFltSSEGenerator.GenerateShift (self : ScalarFltSSEGenerator) (instr : Op)
    (masm : MacroAssembler) (left : Bool) (bits : Int) :
    Except ExprFatal (List ExprInstruction) := do
  -- Move argument to destination register.
  if instr.dst = -1 then throw ExprFatal.Check
  let move ←
    if instr.src ≠ -1 then
      pure [ExprInstruction.ins .movapd [.xmm instr.dst, .xmm instr.src]]
    else
      match self.type_ with
      | .DT_FLOAT => pure [ExprInstruction.ins .movss [.xmm instr.dst, .addr instr.args[0]?]]
      | .DT_DOUBLE => pure [ExprInstruction.ins .movsd [.xmm instr.dst, .addr instr.args[0]?]]
      | _ => throw ExprFatal.Unsupported
  -- Shift xmm register.
  let shift ←
    match self.type_ with
    | .DT_FLOAT =>
      if masm.Enabled .SSE2 then
        if left then pure [ExprInstruction.ins .pslld [.xmm instr.dst, .imm bits]]
        else pure [ExprInstruction.ins .psrld [.xmm instr.dst, .imm bits]]
      else throw ExprFatal.Unsupported
    | .DT_DOUBLE =>
      if masm.Enabled .SSE2 then
        if left then pure [ExprInstruction.ins .psllq [.xmm instr.dst, .imm bits]]
        else pure [ExprInstruction.ins .psrlq [.xmm instr.dst, .imm bits]]
      else throw ExprFatal.Unsupported
    | _ => throw ExprFatal.Unsupported
  pure (move ++ shift)

/-- The method `GenerateCompare` (lines 265-270). -/
def ScalarFltSSEGenerator.GenerateCompare (code : HelperImmediate) : List ExprInstruction :=
  [.GenerateXMMFltOp .cmpss .cmpsd (some code) none]

/-- The method `GenerateRegisterOp` (lines 273-356): a scalar op that loads memory
operands into a register first. -/
def ScalarFltSSEGenerator.GenerateRegisterOp (self : ScalarFltSSEGenerator) (instr : Op) :
    Except ExprFatal (List ExprInstruction) := do
  if instr.dst = -1 then throw ExprFatal.Check
  let dst := ExprOperand.xmm instr.dst
  let dst_code := self.index_.xmm instr.dst
  let src := if instr.src ≠ -1 then ExprOperand.xmm instr.src else ExprOperand.xmmaux 0
  let src_code := if instr.src ≠ -1 then self.index_.xmm instr.src else self.index_.xmmaux 0
  match self.type_ with
  | .DT_FLOAT =>
    let load : List ExprInstruction :=
      if instr.src = -1 then [.ins .movss [src, .addr instr.args[1]?]] else []
    let op ←
      match instr.type with
      | .CVTFLTINT => pure [ExprInstruction.ins .cvttps2dq [dst, src]]
      | .CVTINTFLT => pure [ExprInstruction.ins .cvtdq2ps [dst, src]]
      | .SUBINT => pure [ExprInstruction.ins .psubd [dst, src]]
      | .BITAND => pure [ExprInstruction.ins .andps [dst, src]]
      | .AND => pure [ExprInstruction.ins .andps [dst, src]]
      | .BITOR => pure [ExprInstruction.ins .orps [dst, src]]
      | .OR => pure [ExprInstruction.ins .orps [dst, src]]
      | .XOR => pure [ExprInstruction.ins .xorps [dst, src]]
      | .ANDNOT => pure [ExprInstruction.ins .andnps [dst, src]]
      | .NOT =>
        if dst_code = src_code then
          pure [ExprInstruction.ins .movl [.aux 0, .imm (-1)],
                ExprInstruction.ins .movd [.xmmaux 1, .aux 0],
                ExprInstruction.ins .xorps [dst, .xmmaux 1]]
        else
          pure [ExprInstruction.ins .movl [.aux 0, .imm (-1)],
                ExprInstruction.ins .movd [dst, .aux 0],
                ExprInstruction.ins .xorps [dst, src]]
      | _ => throw ExprFatal.Unsupported
    pure (load ++ op)
  | .DT_DOUBLE =>
    let load : List ExprInstruction :=
      if instr.src = -1 then [.ins .movsd [src, .addr instr.args[1]?]] else []
    let op ←
      match instr.type with
      | .CVTFLTINT => pure [ExprInstruction.ins .cvttpd2dq [dst, src]]
      | .CVTINTFLT => pure [ExprInstruction.ins .cvtdq2pd [dst, src]]
      | .SUBINT => pure [ExprInstruction.ins .psubq [dst, src]]
      | .BITAND => pure [ExprInstruction.ins .andpd [dst, src]]
      | .AND => pure [ExprInstruction.ins .andpd [dst, src]]
      | .BITOR => pure [ExprInstruction.ins .orpd [dst, src]]
      | .OR => pure [ExprInstruction.ins .orpd [dst, src]]
      | .XOR => pure [ExprInstruction.ins .xorpd [dst, src]]
      | .ANDNOT => pure [ExprInstruction.ins .andnpd [dst, src]]
      | .NOT =>
        if dst_code = src_code then
          pure [ExprInstruction.ins .movq [.aux 0, .imm (-1)],
                ExprInstruction.ins .movq [.xmmaux 1, .aux 0],
                ExprInstruction.ins .xorpd [dst, .xmmaux 1]]
        else
          pure [ExprInstruction.ins .movq [.aux 0, .imm (-1)],
                ExprInstruction.ins .movd [dst, .aux 0],
                ExprInstruction.ins .xorpd [dst, src]]
      | _ => throw ExprFatal.Unsupported
    pure (load ++ op)
  | _ => throw ExprFatal.Unsupported

/-- The method `GenerateConditional` (lines 359-379). -/
def ScalarFltSSEGenerator.GenerateConditional (self : ScalarFltSSEGenerator) (instr : Op) :
    Except ExprFatal (List ExprInstruction) := do
  if instr.dst = -1 then throw ExprFatal.Check
  if instr.src = -1 then throw ExprFatal.Check
  if instr.mask = -1 then throw ExprFatal.Check
  let other ←
    if instr.src ≠ -1 then
      pure [ExprInstruction.ins .movaps [.xmm instr.dst, .xmm instr.src2]]
    else if self.type_ = .DT_FLOAT then
      pure [ExprInstruction.ins .movss [.xmm instr.dst, .addr instr.args[2]?]]
    else if self.type_ = .DT_DOUBLE then
      pure [ExprInstruction.ins .movsd [.xmm instr.dst, .addr instr.args[2]?]]
    else throw ExprFatal.Unsupported
  pure ([.ins .ptest [.xmm instr.mask, .xmm instr.mask],
         .j_zero .l1,
         .ins .movaps [.xmm instr.dst, .xmm instr.src],
         .jmp .l2,
         .bind .l1] ++ other ++ [.bind .l2])

/-- The method `GenerateSelect` (lines 382-425). -/
def ScalarFltSSEGenerator.GenerateSelect (self : ScalarFltSSEGenerator) (instr : Op) :
    Except ExprFatal (List ExprInstruction) := do
  if instr.dst = -1 then throw ExprFatal.Check
  if instr.mask = -1 then throw ExprFatal.Check
  match self.type_ with
  | .DT_FLOAT =>
    pure ([ExprInstruction.ins .ptest [.xmm instr.mask, .xmm instr.mask],
           .j_not_zero .l1,
           .ins .xorps [.xmm instr.dst, .xmm instr.dst]] ++
      (if instr.src = instr.dst then [ExprInstruction.bind .l1]
       else [ExprInstruction.jmp .l2, .bind .l1] ++
         (if instr.src ≠ -1 then [ExprInstruction.ins .movaps [.xmm instr.dst, .xmm instr.src]]
          else [ExprInstruction.ins .movss [.xmm instr.dst, .addr instr.args[1]?]])) ++
      [.bind .l2])
  | .DT_DOUBLE =>
    pure ([ExprInstruction.ins .ptest [.xmm instr.mask, .xmm instr.mask],
           .j_not_zero .l1,
           .ins .xorpd [.xmm instr.dst, .xmm instr.dst]] ++
      (if instr.src = instr.dst then [ExprInstruction.bind .l1]
       else [ExprInstruction.jmp .l2, .bind .l1] ++
         (if instr.src ≠ -1 then [ExprInstruction.ins .movaps [.xmm instr.dst, .xmm instr.src]]
          else [ExprInstruction.ins .movsd [.xmm instr.dst, .addr instr.args[1]?]])) ++
      [.bind .l2])
  | _ => throw ExprFatal.Unsupported

/-- The method `ScalarFltSSEGenerator::Generate` (lines 67-215).  `zero_idiom` is the
value of the test `IsLoadZero(instr) && masm->Enabled(ZEROIDIOM)`, whose operands are
defined outside the sources. -/
def ScalarFltSSEGenerator.Generate (self : ScalarFltSSEGenerator) (zero_idiom : Bool)
    (instr : Op) (masm : MacroAssembler) : Except ExprFatal (List ExprInstruction) :=
  match instr.type with
  | .MOV =>
    if zero_idiom then
      match self.type_ with
      | .DT_FLOAT => .ok [.ins .xorps [.xmm instr.dst, .xmm instr.dst]]
      | .DT_DOUBLE => .ok [.ins .xorpd [.xmm instr.dst, .xmm instr.dst]]
      | _ => .error .Unsupported
    else .ok [.GenerateXMMScalarFltMove]
  | .ADD => .ok [.GenerateXMMFltOp .addss .addsd none none]
  | .SUB => .ok [.GenerateXMMFltOp .subss .subsd none none]
  | .MUL => .ok [.GenerateXMMFltOp .mulss .mulsd none none]
  | .DIV => .ok [.GenerateXMMFltOp .divss .divsd none none]
  | .MINIMUM => .ok [.GenerateXMMFltOp .minss .minsd none none]
  | .MAXIMUM => .ok [.GenerateXMMFltOp .maxss .maxsd none none]
  | .SQRT => .ok [.GenerateXMMFltOp .sqrtss .sqrtsd none (some 0)]
  | .CMPEQOQ => .ok (ScalarFltSSEGenerator.GenerateCompare .CMP_EQ_OQ)
  | .CMPNEUQ => .ok (ScalarFltSSEGenerator.GenerateCompare .CMP_NEQ_UQ)
  | .CMPLTOQ => .ok (ScalarFltSSEGenerator.GenerateCompare .CMP_LT_OQ)
  | .CMPLEOQ => .ok (ScalarFltSSEGenerator.GenerateCompare .CMP_LE_OQ)
  | .CMPGTOQ => .ok (ScalarFltSSEGenerator.GenerateCompare .CMP_GT_OQ)
  | .CMPGEOQ => .ok (ScalarFltSSEGenerator.GenerateCompare .CMP_GE_OQ)
  | .COND => self.GenerateConditional instr
  | .SELECT => self.GenerateSelect instr
  | .BITAND => self.GenerateRegisterOp instr
  | .BITOR => self.GenerateRegisterOp instr
  | .AND => self.GenerateRegisterOp instr
  | .OR => self.GenerateRegisterOp instr
  | .XOR => self.GenerateRegisterOp instr
  | .ANDNOT => self.GenerateRegisterOp instr
  | .NOT => self.GenerateRegisterOp instr
  | .FLOOR =>
    if masm.Enabled .SSE4_1 then
      .ok [.GenerateXMMFltOp .roundss .roundsd (some .round_down) none]
    else .error .Unsupported
  | .CVTFLTINT =>
    if masm.Enabled .SSE2 then self.GenerateRegisterOp instr else .error .Unsupported
  | .CVTINTFLT =>
    if masm.Enabled .SSE2 then self.GenerateRegisterOp instr else .error .Unsupported
  | .CVTEXPINT =>
    self.GenerateShift instr masm false (if self.type_ = .DT_FLOAT then 23 else 52)
  | .CVTINTEXP =>
    self.GenerateShift instr masm true (if self.type_ = .DT_FLOAT then 23 else 52)
  | .SUBINT => self.GenerateRegisterOp instr
  | .SUM => .ok [.GenerateXMMFltAccOp .addss .addsd]
  | .PRODUCT => .ok [.GenerateXMMFltAccOp .mulss .mulsd]
  | .MIN => .ok [.GenerateXMMFltAccOp .minss .minsd]
  | .MAX => .ok [.GenerateXMMFltAccOp .maxss .maxsd]
  | .OTHER => .error .Unsupported

/-- The indices `i` of the operands `xmmaux(i)` of an emitted item. -/
def ExprInstruction.xmmauxUsed : ExprInstruction → List Nat
  | .ins _ operands =>
    operands.filterMap (fun o => match o with | .xmmaux i => some i | _ => none)
  | _ => []

/-- The indices `i` of the operands `aux(i)` of an emitted item. -/
def ExprInstruction.auxUsed : ExprInstruction → List Nat
  | .ins _ operands =>
    operands.filterMap (fun o => match o with | .aux i => some i | _ => none)
  | _ => []

/-- Whether an emitted item has a memory operand `addr(...)`. -/
def ExprInstruction.readsMemory : ExprInstruction → Bool
  | .ins _ operands => operands.any (fun o => match o with | .addr _ => true | _ => false)
  | _ => false

/-! ### Bit-level meaning of the straight-line expression code -/

/-- State of the machine for expression code: the 128-bit XMM registers and the 64-bit
general registers by register code, as natural numbers, and the bit patterns of the
elements of the memory variables. -/
structure ExprState where
  xmm : Nat → Nat
  gp : Nat → Nat
  mem : Option Nat → Nat

/-- Writes an XMM register. -/
def ExprState.setXmm (st : ExprState) (code : Nat) (v : Nat) : ExprState :=
  { st with xmm := fun c => if c = code then v else st.xmm c }

/-- Writes a general register. -/
def ExprState.setGp (st : ExprState) (code : Nat) (v : Nat) : ExprState :=
  { st with gp := fun c => if c = code then v else st.gp c }

/-- The register code of an XMM operand. -/
def IndexGenerator.code (index : IndexGenerator) : ExprOperand → Option Nat
  | .xmm idx => some (index.xmm idx)
  | .xmmaux i => some (index.xmmaux i)
  | _ => none

/-- Applies `f` to each of the four 32-bit lanes of a 128-bit value. -/
def packed32 (f : Nat → Nat) (x : Nat) : Nat :=
  f (x % 2 ^ 32) % 2 ^ 32 + 2 ^ 32 * (f (x / 2 ^ 32 % 2 ^ 32) % 2 ^ 32 +
    2 ^ 32 * (f (x / 2 ^ 64 % 2 ^ 32) % 2 ^ 32 + 2 ^ 32 * (f (x / 2 ^ 96 % 2 ^ 32) % 2 ^ 32)))

/-- Applies `f` to each of the two 64-bit lanes of a 128-bit value. -/
def packed64 (f : Nat → Nat) (x : Nat) : Nat :=
  f (x % 2 ^ 64) % 2 ^ 64 + 2 ^ 64 * (f (x / 2 ^ 64 % 2 ^ 64) % 2 ^ 64)

/-- Meaning of the moves, exclusive-ors and shifts that `GenerateRegisterOp` (for `NOT`)
and `GenerateShift` emit, after the instruction set reference: `movl` with an immediate
writes its low 32 bits and clears the upper half of the register, `movq` with an
immediate writes the sign-extended 64 bits, `movd` moves 32 bits and `movq` 64 bits of a
general register into the low part of a cleared XMM register, the scalar loads clear the
rest of the register, and the packed shifts are logical shifts of every lane.  Other
items are not interpreted. -/
def ExprInstruction.exec (index : IndexGenerator) (st : ExprState) :
    ExprInstruction → Option ExprState
  | .ins .movl [.aux i, .imm v] => some (st.setGp (index.aux i) (v % 2 ^ 32).toNat)
  | .ins .movq [.aux i, .imm v] => some (st.setGp (index.aux i) (v % 2 ^ 64).toNat)
  | .ins .movd [x, .aux i] =>
    (index.code x).map (fun d => st.setXmm d (st.gp (index.aux i) % 2 ^ 32))
  | .ins .movq [x, .aux i] =>
    (index.code x).map (fun d => st.setXmm d (st.gp (index.aux i) % 2 ^ 64))
  | .ins .xorps [x, y] =>
    match index.code x, index.code y with
    | some d, some s => some (st.setXmm d (st.xmm d ^^^ st.xmm s))
    | _, _ => none
  | .ins .xorpd [x, y] =>
    match index.code x, index.code y with
    | some d, some s => some (st.setXmm d (st.xmm d ^^^ st.xmm s))
    | _, _ => none
  | .ins .movapd [x, y] =>
    match index.code x, index.code y with
    | some d, some s => some (st.setXmm d (st.xmm s))
    | _, _ => none
  | .ins .movss [x, .addr var] =>
    (index.code x).map (fun d => st.setXmm d (st.mem var % 2 ^ 32))
  | .ins .movsd [x, .addr var] =>
    (index.code x).map (fun d => st.setXmm d (st.mem var % 2 ^ 64))
  | .ins .pslld [x, .imm n] =>
    (index.code x).map (fun d => st.setXmm d (packed32 (fun l => l <<< n.toNat) (st.xmm d)))
  | .ins .psrld [x, .imm n] =>
    (index.code x).map (fun d => st.setXmm d (packed32 (fun l => l >>> n.toNat) (st.xmm d)))
  | .ins .psllq [x, .imm n] =>
    (index.code x).map (fun d => st.setXmm d (packed64 (fun l => l <<< n.toNat) (st.xmm d)))
  | .ins .psrlq [x, .imm n] =>
    (index.code x).map (fun d => st.setXmm d (packed64 (fun l => l >>> n.toNat) (st.xmm d)))
  | _ => none

/-- Runs straight-line expression code. -/
def runExpr (index : IndexGenerator) : List ExprInstruction → ExprState → Option ExprState
  | [], st => some st
  | i :: rest, st =>
    match i.exec index st with
    | some st1 => runExpr index rest st1
    | none => none

/-- Number of bits of an element of the type. -/
def Type_.bits (t : Type_) : Nat := (8 * t.size).toNat

/-- The element of the given type in the low bits of the XMM register `xmm(idx)` after
the code that `Generate` emits for the operation has run, if `Generate` does not abort
and the code is interpreted. -/
def ScalarFltSSEGenerator.result (self : ScalarFltSSEGenerator) (instr : Op)
    (masm : MacroAssembler) (st : ExprState) : Option Nat :=
  match self.Generate false instr masm with
  | .ok code =>
    (runExpr self.index_ code st).map
      (fun st1 => st1.xmm (self.index_.xmm instr.dst) % 2 ^ self.type_.bits)
  | .error _ => none

/-- An arithmetic right shift of a `w`-bit value by `n` bits: the vacated high bits are
filled with copies of the sign bit. -/
def arithmeticShiftRight (w n x : Nat) : Nat :=
  if x < 2 ^ (w - 1) then x >>> n else x >>> n + (2 ^ w - 2 ^ (w - n))

/-- An index generator for examples: `xmm(i)` is register `i`, `xmmaux(i)` is register
`8 + i` and `aux(i)` is general register `i`. -/
def sampleIndex : IndexGenerator :=
  { xmm := fun idx => idx.toNat, xmmaux := fun i => 8 + i, aux := fun i => i }

/-- A state for examples in which every register and memory variable holds `x`. -/
def sampleExprState (x : Nat) : ExprState :=
  { xmm := fun _ => x, gp := fun _ => x, mem := fun _ => x }

/-- A generator for examples for the given element type and operations. -/
def sampleGenerator (type : Type_) (ops : List Op) : ScalarFltSSEGenerator :=
  { type_ := type, instructions_ := { ops := ops, NumRegs := 4 }, index_ := sampleIndex }

/-- An operation for examples with the given type, destination and sources; the mask is
register 2 and the arguments are the variables 0, 1 and 2. -/
def sampleOp (type : OpType) (dst src src2 : Int) : Op :=
  { type := type, dst := dst, src := src, src2 := src2, mask := 2, acc := -1,
    args := [0, 1, 2], result := 3 }

/-- The element that a unary operation reads: the low bits of the source register, or
the memory variable `args[0]` when the source is not in a register. -/
def ScalarFltSSEGenerator.argument (self : ScalarFltSSEGenerator) (instr : Op)
    (st : ExprState) : Nat :=
  (if instr.src ≠ -1 then st.xmm (self.index_.xmm instr.src) else st.mem instr.args[0]?) %
    2 ^ self.type_.bits

/-- Registers for examples of `GenerateVertical`: the general registers 0 to 6 in the
order in which they are reserved, one accumulator register 0 and the register 1 for the
broadcast element. -/
def sampleVerticalRegisters : VerticalRegisters :=
  { a := 0, b := 1, c := 2, a_ofs := 3, b_ptr := 4, col_ofs := 5, sum := [0], elem := 1,
    a_end := 6 }

/-- Whether the shape of the argument is the shape of its tensor, transposed when the
argument is flagged as transposed: the relation that `Init` establishes (lines 42-46) and
`Transpose` maintains. -/
def Arg.consistent (x : Arg) : Bool :=
  decide (x.shape = (Arg.Init x.tensor x.transposed).shape)

/-- The dimension assertion of the loop nest that `Generate` selects for the effective
orders of A and B (lines 252-259): `CHECK_EQ(a.width, b.height)` in `GenerateVertical`
with consecutive A (line 279), `CHECK_EQ(a.width, b.width)` in `GenerateHorizontal`
(line 496), `CHECK_EQ(a.height, b.height)` in `GenerateVertical` with strided A (line 277)
and `CHECK_EQ(a.height, b.width)` in `GenerateColCol` (line 637). -/
def MatMulArgs.nestCheck (args : MatMulArgs) : Bool :=
  let a := args.a_.order
  let b := args.b_.order
  if a = .ROW_MAJOR ∧ b = .ROW_MAJOR then decide (args.a_.width = args.b_.height)
  else if a = .ROW_MAJOR ∧ b = .COLUMN_MAJOR then decide (args.a_.width = args.b_.width)
  else if a = .COLUMN_MAJOR ∧ b = .ROW_MAJOR then decide (args.a_.height = args.b_.height)
  else if a = .COLUMN_MAJOR ∧ b = .COLUMN_MAJOR then decide (args.a_.height = args.b_.width)
  else true

/-- The immediates of the instructions `addq(c, Immediate(...))` in emitted code, in
order. -/
def cAdvances (c : Register) (code : List Instruction) : List Int :=
  code.filterMap (fun i =>
    match i with
    | .addq_imm dst imm => if dst = c then some imm else none
    | _ => none)

/-- The number of bytes by which the code of a phase of `GenerateVertical` moves the C
pointer while one row or column of A is processed: `blksize` in each of the `repeat`
rounds of the loop of a repeated phase (line 386), `blksize` in a residual phase
(line 437) and `masked * dsize` in a masked phase (line 471). -/
def Phase.cBytes (dsize : Int) (p : Phase) : Int :=
  let blksize := p.unrolls * p.generator.VectorSize * dsize
  if p.repeat_ > 1 then p.repeat_ * blksize
  else if p.masked = 0 then blksize
  else p.masked * dsize

/-! ## The broadcast element across the unrolled multiply-adds -/

/-- The vector registers that a generator call may overwrite, by the contract of the
generator methods: its destination, and for `MulAdd` without `retain` also the source
`src1`, which the code without fused instruction uses for the product. -/
def GenOp.writes : GenOp → List Nat
  | .Load dst _ => [dst]
  | .Store _ _ => []
  | .Broadcast dst _ => [dst]
  | .Zero r => [r]
  | .Add dst _ _ => [dst]
  | .AddMem dst _ _ => [dst]
  | .Mul dst _ _ => [dst]
  | .MulAdd dst src1 _ retain => if retain then [dst] else [dst, src1]
  | .Sum r => [r]
  | .SetMask _ => []
  | .MaskedLoad dst _ => [dst]
  | .MaskedStore _ _ => []
  | .MaskedAdd dst _ _ => [dst]
  | .MaskedMul dst _ _ => [dst]
  | .MaskedMulAdd dst _ _ => [dst]

/-- The `retain` arguments of the calls of `MulAdd` in emitted code, in order. -/
def retainFlags (code : List Instruction) : List Bool :=
  code.filterMap (fun i =>
    match i with
    | .gen _ (.MulAdd _ _ _ retain) => some retain
    | _ => none)

/-- One step of the scan that follows the broadcast A element in the register `elem`:
`live` tells whether `elem` holds the element of A loaded from the pointer `a`.  A
broadcast (for a scalar generator: a load) from `a` into `elem` makes it live, a label
makes it unknown (code may arrive by a jump), a call that may overwrite `elem` ends it,
and a `MulAdd` that reads `elem` while it is not live is a violation (`none`). -/
def Instruction.elemStep (a : Register) (elem : Nat) (live : Bool) :
    Instruction → Option Bool
  | .gen _ (.Broadcast dst src) => some (if dst = elem then decide (src.base = a) else live)
  | .gen _ (.Load dst src) => some (if dst = elem then decide (src.base = a) else live)
  | .gen _ (.MulAdd dst src1 src2 retain) =>
    if src1 = elem ∧ live = false then none
    else some (live && !decide (elem ∈ (GenOp.MulAdd dst src1 src2 retain).writes))
  | .gen _ op => some (live && !decide (elem ∈ op.writes))
  | .bind _ => some false
  | _ => some live

/-- The scan of a code sequence: the final value of `live`, or `none` if some `MulAdd`
reads `elem` when it does not hold the broadcast element. -/
def elemScan (a : Register) (elem : Nat) : Bool → List Instruction → Option Bool
  | live, [] => some live
  | live, i :: rest =>
    match i.elemStep a elem live with
    | some live1 => elemScan a elem live1 rest
    | none => none

/-- Registers for examples with two accumulator registers 0 and 2 and the broadcast
element in register 1. -/
def twoSumRegisters : VerticalRegisters :=
  { sampleVerticalRegisters with sum := [0, 2] }

/-- A residual phase of two unrolls of the 4-lane AVX generator at offset 32. -/
def twoUnrollPhase : Phase :=
  { generator := AVX128FloatGenerator true, offset := 32, unrolls := 2, repeat_ := 0,
    masked := 0 }

/-- The code of `GenerateVertical` for `twoUnrollPhase` in the accumulating outer
product. -/
def twoUnrollCode : List Instruction :=
  [.gen (AVX128FloatGenerator true) (.Broadcast 1 { base := 0 }),
   .gen (AVX128FloatGenerator true) (.Load 0 { base := 2 }),
   .gen (AVX128FloatGenerator true) (.MulAdd 0 1 { base := 1, disp := 128 } true),
   .gen (AVX128FloatGenerator true) (.Store { base := 2 } 0),
   .gen (AVX128FloatGenerator true) (.Load 2 { base := 2, disp := 16 }),
   .gen (AVX128FloatGenerator true) (.MulAdd 2 1 { base := 1, disp := 144 } false),
   .gen (AVX128FloatGenerator true) (.Store { base := 2, disp := 16 } 2),
   .addq_imm 2 32]

/-! # Theorems -/

/-! ## Arithmetic of truncating division on non-negative operands -/

theorem tdiv_mul_le_self {a b : Int} (ha : 0 ≤ a) (hb : 0 < b) : a.tdiv b * b ≤ a := by
  rw [Int.tdiv_eq_ediv ha (le_of_lt hb)]
  exact Int.ediv_mul_le a (ne_of_gt hb)

theorem sub_tdiv_mul_lt {a b : Int} (ha : 0 ≤ a) (hb : 0 < b) : a - a.tdiv b * b < b := by
  rw [Int.tdiv_eq_ediv ha (le_of_lt hb)]
  have h1 := Int.emod_add_ediv a b
  have h2 := Int.emod_lt_of_pos a hb
  nlinarith [mul_comm b (a / b)]

theorem one_le_tdiv {a b : Int} (hb : 0 < b) (hab : b ≤ a) : 1 ≤ a.tdiv b := by
  have ha : 0 ≤ a := le_trans (le_of_lt hb) hab
  rw [Int.tdiv_eq_ediv ha (le_of_lt hb)]
  exact (Int.le_ediv_iff_mul_le hb).mpr (by simpa using hab)

theorem bulkUnrolls_eq {V : Int} (hV : 1 ≤ V) (N mu : Int) :
    SIMDStrategy.bulkUnrolls V N mu = min (N.tdiv V) mu := by
  unfold SIMDStrategy.bulkUnrolls
  have hne : V ≠ 0 := by omega
  simp [Int.mul_tdiv_cancel _ hne]

theorem tdiv_nonpos_of_nonpos {a b : Int} (ha : a ≤ 0) (hb : 0 ≤ b) : a.tdiv b ≤ 0 := by
  have h := Int.tdiv_nonneg (neg_nonneg.2 ha) hb
  rw [Int.neg_tdiv] at h
  omega

/-! ## Coverage of the strategy plan -/

theorem coverage_append (ps : List Phase) (p : Phase) :
    coverage (ps ++ [p]) = coverage ps + p.elements := by
  simp [coverage]

theorem coverage_cons (p : Phase) (ps : List Phase) :
    coverage (p :: ps) = p.elements + coverage ps := by
  simp [coverage]

theorem contiguousFrom_append (ps : List Phase) (p : Phase) (start : Int) :
    contiguousFrom start (ps ++ [p]) ↔
      contiguousFrom start ps ∧ p.offset = start + coverage ps := by
  induction ps generalizing start with
  | nil => simp [contiguousFrom, coverage]
  | cons q qs ih =>
    rw [List.cons_append, coverage_cons]
    simp only [contiguousFrom]
    rw [ih]
    constructor
    · rintro ⟨h1, h2, h3⟩
      exact ⟨⟨h1, h2⟩, by rw [h3]; ring⟩
    · rintro ⟨⟨h1, h2⟩, h3⟩
      exact ⟨h1, h2, by rw [h3]; ring⟩

theorem bulk_repeat_ge_one {V N mu : Int} (hV : 1 ≤ V)
    (hU : 0 < SIMDStrategy.bulkUnrolls V N mu) :
    1 ≤ N.tdiv (V * SIMDStrategy.bulkUnrolls V N mu) ∧ 0 ≤ N := by
  have hUeq := bulkUnrolls_eq hV N mu
  have hUle : SIMDStrategy.bulkUnrolls V N mu ≤ N.tdiv V := by
    rw [hUeq]; exact min_le_left _ _
  have hq : 0 < N.tdiv V := lt_of_lt_of_le hU hUle
  have hN : 0 ≤ N := by
    by_contra hneg
    have hle : N ≤ 0 := by omega
    have := tdiv_nonpos_of_nonpos hle (by omega : (0 : Int) ≤ V)
    omega
  have hVU : V * SIMDStrategy.bulkUnrolls V N mu ≤ N := by
    have h1 := tdiv_mul_le_self hN (by omega : (0 : Int) < V)
    nlinarith
  exact ⟨one_le_tdiv (by positivity) hVU, hN⟩

theorem addBulk_pos (main : SIMDGenerator) (N mu : Int)
    (hU : 0 < SIMDStrategy.bulkUnrolls main.VectorSize N mu) :
    SIMDStrategy.addBulk main N mu =
      { phases_ := [Phase.mk main 0 (SIMDStrategy.bulkUnrolls main.VectorSize N mu)
          (N.tdiv (main.VectorSize * SIMDStrategy.bulkUnrolls main.VectorSize N mu)) 0],
        remaining := N -
          N.tdiv (main.VectorSize * SIMDStrategy.bulkUnrolls main.VectorSize N mu) *
            main.VectorSize * SIMDStrategy.bulkUnrolls main.VectorSize N mu,
        offset := 0 +
          N.tdiv (main.VectorSize * SIMDStrategy.bulkUnrolls main.VectorSize N mu) *
            main.VectorSize * SIMDStrategy.bulkUnrolls main.VectorSize N mu } := by
  simp [SIMDStrategy.addBulk, hU]

theorem addBulk_nonpos (main : SIMDGenerator) (N mu : Int)
    (hU : ¬ 0 < SIMDStrategy.bulkUnrolls main.VectorSize N mu) :
    SIMDStrategy.addBulk main N mu = { phases_ := [], remaining := N, offset := 0 } := by
  simp [SIMDStrategy.addBulk, hU]

theorem bulk_elements {N mu : Int} (main : SIMDGenerator) (hV : 1 ≤ main.VectorSize)
    (hU : 0 < SIMDStrategy.bulkUnrolls main.VectorSize N mu) :
    (Phase.mk main 0 (SIMDStrategy.bulkUnrolls main.VectorSize N mu)
        (N.tdiv (main.VectorSize * SIMDStrategy.bulkUnrolls main.VectorSize N mu)) 0).elements =
      N.tdiv (main.VectorSize * SIMDStrategy.bulkUnrolls main.VectorSize N mu) *
        main.VectorSize * SIMDStrategy.bulkUnrolls main.VectorSize N mu := by
  obtain ⟨hrep, -⟩ := bulk_repeat_ge_one hV hU
  simp only [Phase.elements]
  split_ifs with h1
  · ring
  · have : N.tdiv (main.VectorSize * SIMDStrategy.bulkUnrolls main.VectorSize N mu) = 1 := by
      omega
    rw [this]; ring

theorem addBulk_inv (main : SIMDGenerator) (N mu : Int) (hN : 0 ≤ N)
    (hV : 1 ≤ main.VectorSize) : PlanInv N (SIMDStrategy.addBulk main N mu) := by
  by_cases hU : 0 < SIMDStrategy.bulkUnrolls main.VectorSize N mu
  · rw [addBulk_pos main N mu hU]
    have hpos : 0 < main.VectorSize * SIMDStrategy.bulkUnrolls main.VectorSize N mu := by
      positivity
    have hle := tdiv_mul_le_self hN hpos
    refine ⟨?_, ?_, ?_, ?_⟩
    · simp only; nlinarith
    · simp only; ring
    · simp only [coverage, List.map_cons, List.map_nil, List.sum_cons, List.sum_nil]
      rw [bulk_elements main hV hU]; ring
    · simp only [contiguousFrom, and_true]
  · rw [addBulk_nonpos main N mu hU]
    exact ⟨hN, by simp, by simp [coverage], by simp [contiguousFrom]⟩

theorem addResidualPhase_inv (gen : SIMDGenerator) (N : Int) (s : StrategyState)
    (hV : 1 ≤ gen.VectorSize) (h : PlanInv N s) :
    PlanInv N (SIMDStrategy.addResidualPhase gen s) ∧
      (SIMDStrategy.addResidualPhase gen s).remaining < gen.VectorSize := by
  obtain ⟨h0, h1, h2, h3⟩ := h
  have hVpos : (0 : Int) < gen.VectorSize := by omega
  have hle := tdiv_mul_le_self h0 hVpos
  have hlt := sub_tdiv_mul_lt h0 hVpos
  have hn0 := Int.tdiv_nonneg h0 (le_of_lt hVpos)
  unfold SIMDStrategy.addResidualPhase
  simp only
  split_ifs with hn
  · refine ⟨⟨by simp only; omega, by simp only; omega, ?_, ?_⟩, by simp only; omega⟩
    · simp only
      rw [coverage_append, h2]
      simp [Phase.elements]
    · simp only
      rw [contiguousFrom_append]
      exact ⟨h3, by simp [h2]⟩
  · have hz : s.remaining.tdiv gen.VectorSize = 0 := by omega
    rw [hz] at hlt
    exact ⟨⟨h0, h1, h2, h3⟩, by omega⟩

theorem addMaskedPhase_inv (gen : SIMDGenerator) (N : Int) (s : StrategyState)
    (hV : 1 ≤ gen.VectorSize) (h : PlanInv N s) (hlt : s.remaining < gen.VectorSize) :
    PlanInv N (SIMDStrategy.addMaskedPhase gen s) ∧
      (SIMDStrategy.addMaskedPhase gen s).remaining < gen.VectorSize := by
  obtain ⟨a0, a1, a2, a3⟩ := h
  unfold SIMDStrategy.addMaskedPhase
  simp only
  split_ifs with hc
  · simp only [Bool.and_eq_true, decide_eq_true_eq] at hc
    obtain ⟨⟨-, hpos⟩, -⟩ := hc
    refine ⟨⟨le_refl _, by simpa using a1, ?_, ?_⟩, by simp only; omega⟩
    · simp only
      rw [coverage_append, a2]
      simp only [Phase.elements]
      have : ¬ s.remaining = 0 := by omega
      simp [this]
    · simp only
      rw [contiguousFrom_append]
      exact ⟨a3, by simp [a2]⟩
  · exact ⟨⟨a0, a1, a2, a3⟩, hlt⟩

/-- One pass of the residual loop keeps the invariant and leaves fewer elements than
one vector of the generator. -/
theorem addResidual_inv (gen : SIMDGenerator) (N : Int) (s : StrategyState)
    (hV : 1 ≤ gen.VectorSize) (h : PlanInv N s) :
    PlanInv N (SIMDStrategy.addResidual gen s) ∧
      (SIMDStrategy.addResidual gen s).remaining < gen.VectorSize := by
  have h1 := addResidualPhase_inv gen N s hV h
  exact addMaskedPhase_inv gen N _ hV h1.1 h1.2

theorem residuals_inv (cascade : List SIMDGenerator) (N : Int) (s : StrategyState)
    (hV : ∀ g ∈ cascade, 1 ≤ g.VectorSize) (h : PlanInv N s) :
    PlanInv N (SIMDStrategy.residuals cascade s) := by
  induction cascade generalizing s with
  | nil => simpa [SIMDStrategy.residuals] using h
  | cons g rest ih =>
    simp only [SIMDStrategy.residuals]
    split_ifs with h0
    · exact h
    · exact ih _ (fun g' hg' => hV g' (List.mem_cons_of_mem _ hg'))
        (addResidual_inv g N s (hV g (List.mem_cons_self _ _)) h).1

theorem residuals_exhaust (cascade : List SIMDGenerator) (N : Int) (s : StrategyState)
    (hV : ∀ g ∈ cascade, 1 ≤ g.VectorSize)
    (hlast : ∃ g, cascade.getLast? = some g ∧ g.VectorSize = 1) (h : PlanInv N s) :
    (SIMDStrategy.residuals cascade s).remaining = 0 := by
  induction cascade generalizing s with
  | nil => simp at hlast
  | cons g rest ih =>
    simp only [SIMDStrategy.residuals]
    split_ifs with h0
    · exact h0
    · have hg := addResidual_inv g N s (hV g (List.mem_cons_self _ _)) h
      cases rest with
      | nil =>
        obtain ⟨g', hg', hone⟩ := hlast
        simp only [List.getLast?_singleton, Option.some.injEq] at hg'
        subst hg'
        have := hg.1.rem_nonneg
        have := hg.2
        simp only [SIMDStrategy.residuals]
        omega
      | cons g2 rest2 =>
        apply ih _ (fun g' hg' => hV g' (List.mem_cons_of_mem _ hg')) _ hg.1
        obtain ⟨g', hg', hone⟩ := hlast
        exact ⟨g', by simpa [List.getLast?_cons_cons] using hg', hone⟩

theorem contiguousFrom_get (ps : List Phase) (start : Int) (h : contiguousFrom start ps)
    (i : Nat) (hi : i < ps.length) :
    (ps.get ⟨i, hi⟩).offset = start + coverage (ps.take i) := by
  induction ps generalizing start i with
  | nil => simp at hi
  | cons p ps ih =>
    obtain ⟨h1, h2⟩ := h
    cases i with
    | zero => simp [coverage, h1]
    | succ j =>
      have hj : j < ps.length := by simpa using hi
      have := ih _ h2 j hj
      simp only [List.get_eq_getElem, List.getElem_cons_succ, List.take_succ_cons,
        coverage_cons] at this ⊢
      rw [this]; ring

/-- C1: for a span of `N >= 0` elements, a main generator and a cascade whose vector
sizes are at least 1 and whose last generator is scalar, the phases built by
`SIMDStrategy` partition the span: the offset of every phase is the number of elements
covered by the phases before it, and all phases together cover exactly `N` elements
(for every `max_unrolls`). -/
theorem SIMDStrategy.plan_partitions (main : SIMDGenerator) (cascade : List SIMDGenerator)
    (N max_unrolls : Int) (hN : 0 ≤ N) (hmain : 1 ≤ main.VectorSize)
    (hsizes : ∀ g ∈ cascade, 1 ≤ g.VectorSize)
    (hlast : ∃ g, cascade.getLast? = some g ∧ g.VectorSize = 1) :
    (∀ (i : Nat) (hi : i < (SIMDStrategy.plan main cascade N max_unrolls).length),
        ((SIMDStrategy.plan main cascade N max_unrolls).get ⟨i, hi⟩).offset =
          coverage ((SIMDStrategy.plan main cascade N max_unrolls).take i)) ∧
      coverage (SIMDStrategy.plan main cascade N max_unrolls) = N := by
  have hb := addBulk_inv main N max_unrolls hN hmain
  have hr := residuals_inv cascade N _ hsizes hb
  have he := residuals_exhaust cascade N _ hsizes hlast hb
  constructor
  · intro i hi
    have := contiguousFrom_get _ 0 hr.contiguous i hi
    simpa [SIMDStrategy.plan] using this
  · have h1 := hr.covered
    have h2 := hr.split
    rw [he] at h2
    simp only [SIMDStrategy.plan]
    omega

/-- Witness for C1: the AVX cascade (8, 4 and 1 lanes) on a span of 35 elements. -/
theorem SIMDStrategy.plan_partitions_witness :
    (0 : Int) ≤ 35 ∧ 1 ≤ (AVX256FloatGenerator true).VectorSize ∧
      (∀ g ∈ [AVX256FloatGenerator true, AVX128FloatGenerator true,
          AVXScalarFloatGenerator true], 1 ≤ g.VectorSize) ∧
      coverage (SIMDStrategy.plan (AVX256FloatGenerator true)
        [AVX256FloatGenerator true, AVX128FloatGenerator true, AVXScalarFloatGenerator true]
        35 4) = 35 :=
  ⟨by decide, by decide, by decide,
    (SIMDStrategy.plan_partitions (AVX256FloatGenerator true)
      [AVX256FloatGenerator true, AVX128FloatGenerator true, AVXScalarFloatGenerator true]
      35 4 (by decide) (by decide) (by decide) ⟨_, rfl, rfl⟩).2⟩

/-! ## The bulk phase -/

theorem addResidualPhase_appends (gen : SIMDGenerator) (s : StrategyState) :
    ∃ rest, (SIMDStrategy.addResidualPhase gen s).phases_ = s.phases_ ++ rest ∧
      ∀ p ∈ rest, p.repeat_ ≤ 1 := by
  unfold SIMDStrategy.addResidualPhase
  simp only
  split_ifs
  · exact ⟨[_], rfl, by simp⟩
  · exact ⟨[], by simp, by simp⟩

theorem addMaskedPhase_appends (gen : SIMDGenerator) (s : StrategyState) :
    ∃ rest, (SIMDStrategy.addMaskedPhase gen s).phases_ = s.phases_ ++ rest ∧
      ∀ p ∈ rest, p.repeat_ ≤ 1 := by
  unfold SIMDStrategy.addMaskedPhase
  simp only
  split_ifs
  · exact ⟨[_], rfl, by simp⟩
  · exact ⟨[], by simp, by simp⟩

theorem addResidual_appends (gen : SIMDGenerator) (s : StrategyState) :
    ∃ rest, (SIMDStrategy.addResidual gen s).phases_ = s.phases_ ++ rest ∧
      ∀ p ∈ rest, p.repeat_ ≤ 1 := by
  obtain ⟨r1, h1, h1'⟩ := addResidualPhase_appends gen s
  obtain ⟨r2, h2, h2'⟩ := addMaskedPhase_appends gen (SIMDStrategy.addResidualPhase gen s)
  refine ⟨r1 ++ r2, by rw [SIMDStrategy.addResidual, h2, h1, List.append_assoc], ?_⟩
  intro p hp
  rcases List.mem_append.1 hp with hp | hp
  · exact h1' p hp
  · exact h2' p hp

theorem residuals_appends (cascade : List SIMDGenerator) (s : StrategyState) :
    ∃ rest, (SIMDStrategy.residuals cascade s).phases_ = s.phases_ ++ rest ∧
      ∀ p ∈ rest, p.repeat_ ≤ 1 := by
  induction cascade generalizing s with
  | nil => exact ⟨[], by simp [SIMDStrategy.residuals], by simp⟩
  | cons g rest ih =>
    simp only [SIMDStrategy.residuals]
    split_ifs with h0
    · exact ⟨[], by simp, by simp⟩
    · obtain ⟨r1, h1, h1'⟩ := addResidual_appends g s
      obtain ⟨r2, h2, h2'⟩ := ih (SIMDStrategy.addResidual g s)
      refine ⟨r1 ++ r2, by rw [h2, h1, List.append_assoc], ?_⟩
      intro p hp
      rcases List.mem_append.1 hp with hp | hp
      · exact h1' p hp
      · exact h2' p hp

/-- C10: with `V >= 1` the main vector size and `U = min (N / V) max_unrolls`, a bulk
phase is emitted iff `U > 0`.  If `U > 0` the plan starts with the phase
`(generator = main, offset = 0, unrolls = U, repeat = N / (V * U))`, its repeat count is
at least 1, and no later phase is repeated (`repeat > 1`); if `U <= 0` no phase of the
plan is repeated. -/
theorem SIMDStrategy.bulk_phase (main : SIMDGenerator) (cascade : List SIMDGenerator)
    (N max_unrolls : Int) (hV : 1 ≤ main.VectorSize) :
    (0 < min (N.tdiv main.VectorSize) max_unrolls →
      1 ≤ N.tdiv (main.VectorSize * min (N.tdiv main.VectorSize) max_unrolls) ∧
      ∃ rest, SIMDStrategy.plan main cascade N max_unrolls =
          Phase.mk main 0 (min (N.tdiv main.VectorSize) max_unrolls)
            (N.tdiv (main.VectorSize * min (N.tdiv main.VectorSize) max_unrolls)) 0 :: rest ∧
        ∀ p ∈ rest, p.repeat_ ≤ 1) ∧
    (¬ 0 < min (N.tdiv main.VectorSize) max_unrolls →
      ∀ p ∈ SIMDStrategy.plan main cascade N max_unrolls, p.repeat_ ≤ 1) := by
  have hU := bulkUnrolls_eq hV N max_unrolls
  constructor
  · intro hpos
    rw [← hU] at hpos ⊢
    refine ⟨(bulk_repeat_ge_one hV hpos).1, ?_⟩
    obtain ⟨rest, h1, h2⟩ := residuals_appends cascade (SIMDStrategy.addBulk main N max_unrolls)
    refine ⟨rest, ?_, h2⟩
    rw [SIMDStrategy.plan, h1, addBulk_pos main N max_unrolls hpos]
    rfl
  · intro hneg
    rw [← hU] at hneg
    obtain ⟨rest, h1, h2⟩ := residuals_appends cascade (SIMDStrategy.addBulk main N max_unrolls)
    rw [SIMDStrategy.plan, h1, addBulk_nonpos main N max_unrolls hneg]
    simpa using h2

/-- Witness for C10: `V = 8`, `max_unrolls = 4`, `N = 35` gives a bulk phase with
`unrolls = 4` and `repeat = 1`, which covers 32 elements. -/
theorem SIMDStrategy.bulk_phase_witness :
    1 ≤ (AVX256FloatGenerator true).VectorSize ∧
      (∃ rest, SIMDStrategy.plan (AVX256FloatGenerator true)
          [AVX256FloatGenerator true, AVX128FloatGenerator true, AVXScalarFloatGenerator true]
          35 4 = Phase.mk (AVX256FloatGenerator true) 0 4 1 0 :: rest ∧
        ∀ p ∈ rest, p.repeat_ ≤ 1) ∧
      (Phase.mk (AVX256FloatGenerator true) 0 4 1 0).elements = 32 :=
  ⟨by decide,
    ((SIMDStrategy.bulk_phase (AVX256FloatGenerator true)
      [AVX256FloatGenerator true, AVX128FloatGenerator true, AVXScalarFloatGenerator true]
      35 4 (by decide)).1 (by decide)).2,
    by decide⟩

/-! ## Effective order of an argument -/

/-- C9: `Arg::order()` is the tensor order XOR the transposed flag.  It is ROW_MAJOR
for (ROW_MAJOR, not transposed) and (COLUMN_MAJOR, transposed), COLUMN_MAJOR for
(COLUMN_MAJOR, not transposed) and (ROW_MAJOR, transposed), and the tensor order ANY
is returned unchanged for either flag; `Transpose()` exchanges the effective orders
ROW_MAJOR and COLUMN_MAJOR (and leaves ANY). -/
theorem Arg.order_xor_transposed (t : Tensor) (s : Shape) (flag : Bool) (x : Arg) :
    (Arg.mk { t with order := .ROW_MAJOR } s false).order = .ROW_MAJOR ∧
    (Arg.mk { t with order := .COLUMN_MAJOR } s true).order = .ROW_MAJOR ∧
    (Arg.mk { t with order := .COLUMN_MAJOR } s false).order = .COLUMN_MAJOR ∧
    (Arg.mk { t with order := .ROW_MAJOR } s true).order = .COLUMN_MAJOR ∧
    (Arg.mk { t with order := .ANY_ORDER } s flag).order = .ANY_ORDER ∧
    x.Transpose.order =
      (match x.order with
        | .ROW_MAJOR => .COLUMN_MAJOR
        | .COLUMN_MAJOR => .ROW_MAJOR
        | .ANY_ORDER => .ANY_ORDER) := by
  refine ⟨rfl, rfl, rfl, rfl, rfl, ?_⟩
  obtain ⟨tensor, shape, transposed⟩ := x
  cases h : tensor.order <;> cases transposed <;> simp [Arg.order, Arg.Transpose, h]

/-! ## `EnsureOutputOrder` -/

theorem EnsureOutputOrder_of_transform (args : MatMulArgs) (order : Order)
    (h : args.transform order = true) :
    args.EnsureOutputOrder order =
      (args.c_.tensor.SupportsOrder args.c_.tensor.order,
        { args with a_ := args.b_.Transpose, b_ := args.a_.Transpose,
                    c_ := args.c_.Transpose }) := by
  simp [MatMulArgs.EnsureOutputOrder, h, Arg.Transpose]

theorem EnsureOutputOrder_of_not_transform (args : MatMulArgs) (order : Order)
    (h : args.transform order = false) :
    args.EnsureOutputOrder order =
      (args.c_.tensor.SupportsOrder args.c_.tensor.order, args) := by
  simp [MatMulArgs.EnsureOutputOrder, h]

theorem Shape.rank_two (s : Shape) (h : s.rank = 2) : ∃ x y, s.dims = [x, y] := by
  obtain ⟨dims⟩ := s
  simp only [Shape.rank] at h
  match dims, h with
  | [x, y], _ => exact ⟨x, y, rfl⟩

theorem CheckShapes_dims (args : MatMulArgs) (h : args.CheckShapes = true) :
    ∃ m k n : Int, args.a_.shape.dims = [m, k] ∧ args.b_.shape.dims = [k, n] ∧
      args.c_.shape.dims = [m, n] := by
  unfold MatMulArgs.CheckShapes at h
  split_ifs at h with h1 h2 h3 h4 h5 h6
  push_neg at h1 h2 h3 h4 h5 h6
  obtain ⟨a0, a1, ha⟩ := Shape.rank_two _ h1
  obtain ⟨b0, b1, hb⟩ := Shape.rank_two _ h2
  obtain ⟨c0, c1, hc⟩ := Shape.rank_two _ h3
  simp only [Shape.dim, ha, hb, hc, List.getD_cons_zero, List.getD_cons_succ] at h4 h5 h6
  subst h4 h5 h6
  exact ⟨_, _, _, ha, hb, hc⟩

/-- C2: when `EnsureOutputOrder` applies its transformation to arguments that satisfy
`CheckShapes`, the new triple is (a, b, c) = (transpose of b, transpose of a, transpose
of c), it satisfies `CheckShapes` again, and over every commutative ring, if the
arguments denoted `C = A * B` before, they denote a matrix product again afterwards
(the identity `C^T = B^T * A^T`). -/
theorem MatMulArgs.EnsureOutputOrder_transposes (args : MatMulArgs) (order : Order)
    (hshapes : args.CheckShapes = true) (htransform : args.transform order = true) :
    (args.EnsureOutputOrder order).2.a_ = args.b_.Transpose ∧
    (args.EnsureOutputOrder order).2.b_ = args.a_.Transpose ∧
    (args.EnsureOutputOrder order).2.c_ = args.c_.Transpose ∧
    (args.EnsureOutputOrder order).2.CheckShapes = true ∧
    ∀ (R : Type) [CommRing R] (val : Tensor → Nat → Nat → R),
      args.IsProduct val → (args.EnsureOutputOrder order).2.IsProduct val := by
  rw [EnsureOutputOrder_of_transform args order htransform]
  obtain ⟨m, k, n, ha, hb, hc⟩ := CheckShapes_dims args hshapes
  refine ⟨rfl, rfl, rfl, ?_, ?_⟩
  · simp [MatMulArgs.CheckShapes, Arg.Transpose, Shape.transpose, Shape.rank, Shape.dim,
      ha, hb, hc]
  · intro R _ val hprod i j hi hj
    simp only [Arg.Transpose, Shape.transpose, Shape.dim, ha, hb, hc, List.reverse_cons,
      List.reverse_nil, List.nil_append, List.singleton_append, List.getD_cons_zero,
      List.getD_cons_succ] at hi hj ⊢
    have h := hprod j i (by simpa [Shape.dim, hc] using hj) (by simpa [Shape.dim, hc] using hi)
    simp only [Shape.dim, ha, List.getD_cons_zero, List.getD_cons_succ] at h
    have key : ∀ (x : Arg) (sh : Shape) (p q : Nat),
        Arg.matrix val ⟨x.tensor, sh, !x.transposed⟩ p q = x.matrix val q p := by
      intro x sh p q
      cases hx : x.transposed <;> simp [Arg.matrix, hx]
    rw [key, h]
    apply Finset.sum_congr rfl
    intro l _
    rw [key, key, mul_comm]

/-- Witness for C2: a 2x3 by 3x2 product with a column-major output is transformed
when a row-major output is requested. -/
theorem MatMulArgs.EnsureOutputOrder_transposes_witness :
    columnMajorOutputArgs.CheckShapes = true ∧
    columnMajorOutputArgs.transform .ROW_MAJOR = true ∧
    (columnMajorOutputArgs.EnsureOutputOrder .ROW_MAJOR).2.CheckShapes = true :=
  ⟨by decide, by decide,
    (MatMulArgs.EnsureOutputOrder_transposes columnMajorOutputArgs .ROW_MAJOR
      (by decide) (by decide)).2.2.2.1⟩

/-- Counterexample to C7 as stated: for a column-major output tensor that supports its
order, `EnsureOutputOrder(ROW_MAJOR)` returns true and the order of the output tensor
is still COLUMN_MAJOR. -/
theorem MatMulArgs.EnsureOutputOrder_tensor_order_counterexample :
    ¬ ((columnMajorOutputArgs.EnsureOutputOrder .ROW_MAJOR).2.c_.tensor.order = .ROW_MAJOR ∨
        (columnMajorOutputArgs.EnsureOutputOrder .ROW_MAJOR).1 = false) := by
  decide

/-- C7 (amended): if the output argument is not flagged as transposed and its tensor
order is ROW_MAJOR or COLUMN_MAJOR, then after `EnsureOutputOrder(ROW_MAJOR)` the
effective order `c_.order()` of the output argument is ROW_MAJOR; the order of the
output tensor itself is left as it was. -/
theorem MatMulArgs.EnsureOutputOrder_row_major (args : MatMulArgs)
    (hflag : args.c_.transposed = false) (horder : args.c_.tensor.order ≠ .ANY_ORDER) :
    (args.EnsureOutputOrder .ROW_MAJOR).2.c_.order = .ROW_MAJOR ∧
    (args.EnsureOutputOrder .ROW_MAJOR).2.c_.tensor.order = args.c_.tensor.order := by
  cases h : args.c_.tensor.order with
  | ANY_ORDER => exact absurd h horder
  | ROW_MAJOR =>
    simp [MatMulArgs.EnsureOutputOrder, MatMulArgs.transform, Arg.order, h, hflag]
  | COLUMN_MAJOR =>
    simp [MatMulArgs.EnsureOutputOrder, MatMulArgs.transform, Arg.order, Arg.Transpose, h,
      hflag]

/-- Witness for C7 (amended): the column-major output of `columnMajorOutputArgs`. -/
theorem MatMulArgs.EnsureOutputOrder_row_major_witness :
    columnMajorOutputArgs.c_.transposed = false ∧
    columnMajorOutputArgs.c_.tensor.order ≠ .ANY_ORDER ∧
    (columnMajorOutputArgs.EnsureOutputOrder .ROW_MAJOR).2.c_.order = .ROW_MAJOR :=
  ⟨by decide, by decide,
    (MatMulArgs.EnsureOutputOrder_row_major columnMajorOutputArgs (by decide) (by decide)).1⟩

/-- Counterexample to C8 as stated: the output tensor already has the desired order
ROW_MAJOR, but it does not support that order and `EnsureOutputOrder(ROW_MAJOR)`
returns false. -/
theorem MatMulArgs.EnsureOutputOrder_same_order_counterexample :
    conflictingOutputArgs.c_.tensor.order = .ROW_MAJOR ∧
    (conflictingOutputArgs.EnsureOutputOrder .ROW_MAJOR).1 = false := by
  decide

/-- C8 (amended): if the order of the output tensor already equals the desired order,
`EnsureOutputOrder(desired)` leaves the arguments unchanged and returns whether the
output tensor supports that order. -/
theorem MatMulArgs.EnsureOutputOrder_same_order (args : MatMulArgs) (desired : Order)
    (h : args.c_.tensor.order = desired) :
    args.EnsureOutputOrder desired = (args.c_.tensor.SupportsOrder desired, args) := by
  have ht : args.transform desired = false := by
    subst h
    cases h' : args.c_.tensor.order <;> simp [MatMulArgs.transform, h']
  rw [EnsureOutputOrder_of_not_transform args desired ht, h]

/-- Witness for C8 (amended): an output tensor that is row-major already. -/
theorem MatMulArgs.EnsureOutputOrder_same_order_witness :
    conflictingOutputArgs.c_.tensor.order = .ROW_MAJOR ∧
    conflictingOutputArgs.EnsureOutputOrder .ROW_MAJOR =
      (conflictingOutputArgs.c_.tensor.SupportsOrder .ROW_MAJOR, conflictingOutputArgs) :=
  ⟨by decide, MatMulArgs.EnsureOutputOrder_same_order conflictingOutputArgs .ROW_MAJOR
    (by decide)⟩

/-! ## End-to-end behaviour of the emitted code -/

/-- The code emitted for the scenario `A = [[1,2,3],[4,5,6]]`, `B = [[1,0],[0,1],[1,1]]`
(both row-major) computes `C = [[4,5],[10,11]]`, as the reference does, with the AVX
cascade and with the AVX-512 cascade. -/
theorem scenario_output :
    (SIMDMatMul.mk false).output avxFeatures scenarioStep
        (sampleMachine [7, 7, 7, 7] [1, 2, 3, 4, 5, 6] [1, 0, 0, 1, 1, 1]) 4 =
      some [4, 5, 10, 11] ∧
    (SIMDMatMul.mk false).output avx512Features scenarioStep
        (sampleMachine [7, 7, 7, 7] [1, 2, 3, 4, 5, 6] [1, 0, 0, 1, 1, 1]) 4 =
      some [4, 5, 10, 11] ∧
    referenceMatMul 2 3 2 [1, 2, 3, 4, 5, 6] [1, 0, 0, 1, 1, 1] [7, 7, 7, 7] false =
      [4, 5, 10, 11] := by
  refine ⟨by decide, by decide, by decide⟩

/-- C3 (failing input): with AVX-512F, the accumulating kernel on `A = [[2]]`,
`B = [[1,2,3]]` and initial `C = [[10,20,30]]` (all row-major) is supported, and the
code that `Generate` emits leaves `C = [[10,40,90]]`, whatever the value of A is, where
the reference computes `C + A * B = [[12,24,36]]`; the same step with the AVX cascade
gives the reference result. -/
theorem masked_accumulate_output :
    (SIMDMatMul.mk true).Supports outerProductAccStep = true ∧
    (SIMDMatMul.mk true).output avx512Features outerProductAccStep
        (sampleMachine [10, 20, 30] [2] [1, 2, 3]) 3 = some [10, 40, 90] ∧
    (SIMDMatMul.mk true).output avx512Features outerProductAccStep
        (sampleMachine [10, 20, 30] [5] [1, 2, 3]) 3 = some [10, 40, 90] ∧
    referenceMatMul 1 1 3 [2] [1, 2, 3] [10, 20, 30] true = [12, 24, 36] ∧
    (SIMDMatMul.mk true).output avxFeatures outerProductAccStep
        (sampleMachine [10, 20, 30] [2] [1, 2, 3]) 3 = some [12, 24, 36] := by
  refine ⟨by decide, by decide, by decide, by decide, by decide⟩

/-- C4 (failing input): for the accumulating 1x1 by 1x3 product with AVX-512F the
emitted code is a single masked phase in which the content of C is loaded into the
register `elem` (vector register 1, which held the broadcast A element) and multiplied
with B, while the register stored to C is `sum[0]` (vector register 0), to which no
content of C has been added.  With the AVX cascade the same step is a residual phase,
which loads each block of C into `sum[i]` before the multiply-add into `sum[i]`. -/
theorem masked_accumulate_code :
    (SIMDMatMul.mk true).emitted avx512Features outerProductAccStep =
      some [.gen (AVX512FloatGenerator false 0) (.SetMask 3),
        .LoadTensorAddress 0 (sampleTensor 1 .ROW_MAJOR 1 1),
        .LoadTensorAddress 1 (sampleTensor 2 .ROW_MAJOR 1 3),
        .LoadTensorAddress 2 (sampleTensor 0 .ROW_MAJOR 1 3),
        .gen (AVX512FloatGenerator false 0) (.Broadcast 1 { base := 0 }),
        .gen (AVX512FloatGenerator false 0) (.MaskedLoad 1 { base := 2 }),
        .gen (AVX512FloatGenerator false 0) (.MaskedMulAdd 0 1 { base := 1 }),
        .gen (AVX512FloatGenerator false 0) (.MaskedStore { base := 2 } 0),
        .addq_imm 2 12] ∧
    (SIMDMatMul.mk true).emitted avxFeatures outerProductAccStep =
      some [.LoadTensorAddress 0 (sampleTensor 1 .ROW_MAJOR 1 1),
        .LoadTensorAddress 1 (sampleTensor 2 .ROW_MAJOR 1 3),
        .LoadTensorAddress 2 (sampleTensor 0 .ROW_MAJOR 1 3),
        .gen (AVXScalarFloatGenerator false) (.Load 3 { base := 0 }),
        .gen (AVXScalarFloatGenerator false) (.Load 0 { base := 2 }),
        .gen (AVXScalarFloatGenerator false) (.MulAdd 0 3 { base := 1 } true),
        .gen (AVXScalarFloatGenerator false) (.Store { base := 2 } 0),
        .gen (AVXScalarFloatGenerator false) (.Load 1 { base := 2, disp := 4 }),
        .gen (AVXScalarFloatGenerator false) (.MulAdd 1 3 { base := 1, disp := 4 } true),
        .gen (AVXScalarFloatGenerator false) (.Store { base := 2, disp := 4 } 1),
        .gen (AVXScalarFloatGenerator false) (.Load 2 { base := 2, disp := 8 }),
        .gen (AVXScalarFloatGenerator false) (.MulAdd 2 3 { base := 1, disp := 8 } false),
        .gen (AVXScalarFloatGenerator false) (.Store { base := 2, disp := 8 } 2),
        .addq_imm 2 12] := by
  constructor <;> decide

/-! ## `Supports` and the choice of the loop nest -/

theorem Arg.order_ne_any (x : Arg) (h : x.tensor.order ≠ .ANY_ORDER) :
    x.order = .ROW_MAJOR ∨ x.order = .COLUMN_MAJOR := by
  obtain ⟨tensor, shape, transposed⟩ := x
  cases ht : tensor.order <;> cases transposed <;> simp_all [Arg.order]

theorem EnsureOutputOrder_input_orders (args : MatMulArgs) (order : Order)
    (ha : args.a_.tensor.order ≠ .ANY_ORDER) (hb : args.b_.tensor.order ≠ .ANY_ORDER) :
    (args.EnsureOutputOrder order).2.a_.tensor.order ≠ .ANY_ORDER ∧
    (args.EnsureOutputOrder order).2.b_.tensor.order ≠ .ANY_ORDER := by
  cases ht : args.transform order
  · rw [EnsureOutputOrder_of_not_transform args order ht]
    exact ⟨ha, hb⟩
  · rw [EnsureOutputOrder_of_transform args order ht]
    exact ⟨hb, ha⟩

theorem selectNest_of_orders (step : Step) (args0 : MatMulArgs)
    (h0 : MatMulArgs.new step = .ok args0)
    (h1 : (args0.EnsureOutputOrder .ROW_MAJOR).1 = true) :
    (((args0.EnsureOutputOrder .ROW_MAJOR).2.a_.order = .ROW_MAJOR ∧
        (args0.EnsureOutputOrder .ROW_MAJOR).2.b_.order = .ROW_MAJOR) →
      SIMDMatMul.selectNest step =
        .ok ((args0.EnsureOutputOrder .ROW_MAJOR).2, .Vertical false)) ∧
    (((args0.EnsureOutputOrder .ROW_MAJOR).2.a_.order = .COLUMN_MAJOR ∧
        (args0.EnsureOutputOrder .ROW_MAJOR).2.b_.order = .ROW_MAJOR) →
      SIMDMatMul.selectNest step =
        .ok ((args0.EnsureOutputOrder .ROW_MAJOR).2, .Vertical true)) ∧
    (((args0.EnsureOutputOrder .ROW_MAJOR).2.a_.order = .ROW_MAJOR ∧
        (args0.EnsureOutputOrder .ROW_MAJOR).2.b_.order = .COLUMN_MAJOR) →
      SIMDMatMul.selectNest step =
        .ok ((args0.EnsureOutputOrder .ROW_MAJOR).2, .Horizontal)) ∧
    (((args0.EnsureOutputOrder .ROW_MAJOR).2.a_.order = .COLUMN_MAJOR ∧
        (args0.EnsureOutputOrder .ROW_MAJOR).2.b_.order = .COLUMN_MAJOR) →
      SIMDMatMul.selectNest step =
        .ok ((args0.EnsureOutputOrder .ROW_MAJOR).2, .ColCol)) := by
  have hsel : SIMDMatMul.selectNest step =
      (if (args0.EnsureOutputOrder .ROW_MAJOR).2.a_.order = .ROW_MAJOR ∧
          (args0.EnsureOutputOrder .ROW_MAJOR).2.b_.order = .ROW_MAJOR then
        .ok ((args0.EnsureOutputOrder .ROW_MAJOR).2, .Vertical false)
      else if (args0.EnsureOutputOrder .ROW_MAJOR).2.a_.order = .ROW_MAJOR ∧
          (args0.EnsureOutputOrder .ROW_MAJOR).2.b_.order = .COLUMN_MAJOR then
        .ok ((args0.EnsureOutputOrder .ROW_MAJOR).2, .Horizontal)
      else if (args0.EnsureOutputOrder .ROW_MAJOR).2.a_.order = .COLUMN_MAJOR ∧
          (args0.EnsureOutputOrder .ROW_MAJOR).2.b_.order = .ROW_MAJOR then
        .ok ((args0.EnsureOutputOrder .ROW_MAJOR).2, .Vertical true)
      else if (args0.EnsureOutputOrder .ROW_MAJOR).2.a_.order = .COLUMN_MAJOR ∧
          (args0.EnsureOutputOrder .ROW_MAJOR).2.b_.order = .COLUMN_MAJOR then
        .ok ((args0.EnsureOutputOrder .ROW_MAJOR).2, .ColCol)
      else .error .UnsupportedElementOrder) := by
    unfold SIMDMatMul.selectNest
    rw [h0]
    simp only [bind, Except.bind, h1, Bool.not_true, Bool.false_eq_true, if_false, pure,
      Except.pure]
    rfl
  rw [hsel]
  refine ⟨?_, ?_, ?_, ?_⟩ <;> rintro ⟨ha, hb⟩ <;> simp [ha, hb]

theorem Supports_args (self : SIMDMatMul) (step : Step) (hs : self.Supports step = true) :
    ∃ args0, MatMulArgs.new step = .ok args0 ∧
      (args0.EnsureOutputOrder .ROW_MAJOR).1 = true := by
  unfold SIMDMatMul.Supports at hs
  split_ifs at hs with hvalid
  cases hnew : MatMulArgs.new step with
  | error e => simp [hnew] at hs
  | ok args0 =>
    refine ⟨args0, rfl, ?_⟩
    simp only [hnew] at hs
    split_ifs at hs with h1 h2 h3
    simpa using h3

theorem Generate_of_selectNest (self : SIMDMatMul) (step : Step) (masm : MacroAssembler)
    (args : MatMulArgs) (nest : LoopNest)
    (h : SIMDMatMul.selectNest step = .ok (args, nest)) :
    self.Generate step masm = self.runNest step masm args nest := by
  unfold SIMDMatMul.Generate
  rw [h]
  rfl

/-- Counterexample to C5 as stated: the step with a 2x3 input A of tensor order ANY is
supported, and `Generate` aborts in its branch "Unsupported element order". -/
theorem SIMDMatMul.Supports_any_order_counterexample :
    (SIMDMatMul.mk false).Supports anyOrderStep = true ∧
    (SIMDMatMul.mk false).Generate anyOrderStep (sampleAssembler avxFeatures) =
      .error .UnsupportedElementOrder :=
  ⟨by decide, rfl⟩

/-- C5 (amended): for every step for which `Supports` returns true, the arguments can
be built and the `CHECK` of `Generate` on `EnsureOutputOrder(ROW_MAJOR)` holds; if
moreover the tensors of A and B have the order ROW_MAJOR or COLUMN_MAJOR, the element
orders choose one of the four loop nests and `Generate` runs that emitter, so the
branch "Unsupported element order" is not reached. -/
theorem SIMDMatMul.Supports_reaches_nest (self : SIMDMatMul) (step : Step)
    (hs : self.Supports step = true) :
    ∃ args0, MatMulArgs.new step = .ok args0 ∧
      (args0.EnsureOutputOrder .ROW_MAJOR).1 = true ∧
      (args0.a_.tensor.order ≠ .ANY_ORDER → args0.b_.tensor.order ≠ .ANY_ORDER →
        ∃ nest, SIMDMatMul.selectNest step =
            .ok ((args0.EnsureOutputOrder .ROW_MAJOR).2, nest) ∧
          ∀ masm, self.Generate step masm =
            self.runNest step masm (args0.EnsureOutputOrder .ROW_MAJOR).2 nest) := by
  obtain ⟨args0, h0, h1⟩ := Supports_args self step hs
  refine ⟨args0, h0, h1, ?_⟩
  intro ha hb
  obtain ⟨ha', hb'⟩ := EnsureOutputOrder_input_orders args0 .ROW_MAJOR ha hb
  obtain ⟨t1, t2, t3, t4⟩ := selectNest_of_orders step args0 h0 h1
  have hsel : ∃ nest, SIMDMatMul.selectNest step =
      .ok ((args0.EnsureOutputOrder .ROW_MAJOR).2, nest) := by
    rcases Arg.order_ne_any _ ha' with oa | oa <;> rcases Arg.order_ne_any _ hb' with ob | ob
    · exact ⟨_, t1 ⟨oa, ob⟩⟩
    · exact ⟨_, t3 ⟨oa, ob⟩⟩
    · exact ⟨_, t2 ⟨oa, ob⟩⟩
    · exact ⟨_, t4 ⟨oa, ob⟩⟩
  obtain ⟨nest, hnest⟩ := hsel
  exact ⟨nest, hnest, fun masm => Generate_of_selectNest self step masm _ nest hnest⟩

/-- Witness for C5 (amended): the supported 2x3 by 3x2 step. -/
theorem SIMDMatMul.Supports_reaches_nest_witness :
    (SIMDMatMul.mk false).Supports scenarioStep = true ∧
    ∃ args0, MatMulArgs.new scenarioStep = .ok args0 ∧
      (args0.EnsureOutputOrder .ROW_MAJOR).1 = true :=
  ⟨by decide,
    let ⟨args0, h0, h1, _⟩ :=
      SIMDMatMul.Supports_reaches_nest (SIMDMatMul.mk false) scenarioStep (by decide)
    ⟨args0, h0, h1⟩⟩

theorem SIMDAssembler.new_float (masm : MacroAssembler) (aligned : Bool) :
    ∃ sasm masm1, SIMDAssembler.new masm .DT_FLOAT aligned = .ok (sasm, masm1) := by
  unfold SIMDAssembler.new
  simp only
  split_ifs <;> exact ⟨_, _, rfl⟩

theorem GenerateVertical_eq (self : SIMDMatMul) (step : Step) (masm masm1 : MacroAssembler)
    (args : MatMulArgs) (strided : Bool) (sasm : SIMDAssembler)
    (h : SIMDAssembler.new masm args.c_.tensor.type
      (args.Aligned (SIMDAssembler.VectorBytes masm args.c_.type)) = .ok (sasm, masm1)) :
    self.GenerateVertical step masm args strided =
      (self.verticalBody sasm masm1 args strided).map
        (fun m => (step.set_variant (sasm.name ++ (if strided then "CR" else "RR")), m)) := by
  unfold SIMDMatMul.GenerateVertical
  simp only [h, bind, Except.bind]
  cases self.verticalBody sasm masm1 args strided <;> rfl

theorem GenerateHorizontal_eq (self : SIMDMatMul) (step : Step) (masm masm1 : MacroAssembler)
    (args : MatMulArgs) (sasm : SIMDAssembler)
    (h : SIMDAssembler.new masm args.c_.tensor.type
      (args.Aligned (SIMDAssembler.VectorBytes masm args.c_.type)) = .ok (sasm, masm1)) :
    self.GenerateHorizontal step masm args =
      (self.horizontalBody sasm masm1 args).map
        (fun m => (step.set_variant (sasm.name ++ "RC"), m)) := by
  unfold SIMDMatMul.GenerateHorizontal
  simp only [h, bind, Except.bind]
  cases self.horizontalBody sasm masm1 args <;> rfl

theorem GenerateColCol_eq (self : SIMDMatMul) (step : Step) (masm masm1 : MacroAssembler)
    (args : MatMulArgs) (sasm : SIMDAssembler)
    (h : SIMDAssembler.new masm args.c_.tensor.type true = .ok (sasm, masm1)) :
    self.GenerateColCol step masm args =
      (self.colColBody sasm masm1 args).map
        (fun m => (step.set_variant (sasm.name ++ "CC"), m)) := by
  unfold SIMDMatMul.GenerateColCol
  simp only [h, bind, Except.bind]
  cases self.colColBody sasm masm1 args <;> rfl

/-- C6: after the arguments have been normalised by `EnsureOutputOrder(ROW_MAJOR)`
(which returned true, for a float output), `Generate` chooses the loop nest from the
effective orders of A and B: (row-major, row-major) runs the vertical nest with
consecutive A, (column-major, row-major) the vertical nest with strided A, (row-major,
column-major) the horizontal nest and (column-major, column-major) the ColCol nest; in
each case the step that results has as variant the name of the cascade followed by
RR, CR, RC and CC respectively. -/
theorem SIMDMatMul.Generate_nest_variant (self : SIMDMatMul) (step : Step)
    (masm : MacroAssembler) (args0 : MatMulArgs)
    (h0 : MatMulArgs.new step = .ok args0)
    (h1 : (args0.EnsureOutputOrder .ROW_MAJOR).1 = true)
    (hty : (args0.EnsureOutputOrder .ROW_MAJOR).2.c_.tensor.type = .DT_FLOAT) :
    ∃ sasm masm1 sasmCC masm2,
      SIMDAssembler.new masm .DT_FLOAT
        ((args0.EnsureOutputOrder .ROW_MAJOR).2.Aligned
          (SIMDAssembler.VectorBytes masm .DT_FLOAT)) = .ok (sasm, masm1) ∧
      SIMDAssembler.new masm .DT_FLOAT true = .ok (sasmCC, masm2) ∧
      (((args0.EnsureOutputOrder .ROW_MAJOR).2.a_.order = .ROW_MAJOR ∧
          (args0.EnsureOutputOrder .ROW_MAJOR).2.b_.order = .ROW_MAJOR) →
        self.Generate step masm =
          (self.verticalBody sasm masm1 (args0.EnsureOutputOrder .ROW_MAJOR).2 false).map
            (fun m => (step.set_variant (sasm.name ++ "RR"), m))) ∧
      (((args0.EnsureOutputOrder .ROW_MAJOR).2.a_.order = .COLUMN_MAJOR ∧
          (args0.EnsureOutputOrder .ROW_MAJOR).2.b_.order = .ROW_MAJOR) →
        self.Generate step masm =
          (self.verticalBody sasm masm1 (args0.EnsureOutputOrder .ROW_MAJOR).2 true).map
            (fun m => (step.set_variant (sasm.name ++ "CR"), m))) ∧
      (((args0.EnsureOutputOrder .ROW_MAJOR).2.a_.order = .ROW_MAJOR ∧
          (args0.EnsureOutputOrder .ROW_MAJOR).2.b_.order = .COLUMN_MAJOR) →
        self.Generate step masm =
          (self.horizontalBody sasm masm1 (args0.EnsureOutputOrder .ROW_MAJOR).2).map
            (fun m => (step.set_variant (sasm.name ++ "RC"), m))) ∧
      (((args0.EnsureOutputOrder .ROW_MAJOR).2.a_.order = .COLUMN_MAJOR ∧
          (args0.EnsureOutputOrder .ROW_MAJOR).2.b_.order = .COLUMN_MAJOR) →
        self.Generate step masm =
          (self.colColBody sasmCC masm2 (args0.EnsureOutputOrder .ROW_MAJOR).2).map
            (fun m => (step.set_variant (sasmCC.name ++ "CC"), m))) := by
  obtain ⟨sasm, masm1, hs⟩ := SIMDAssembler.new_float masm
    ((args0.EnsureOutputOrder .ROW_MAJOR).2.Aligned (SIMDAssembler.VectorBytes masm .DT_FLOAT))
  obtain ⟨sasmCC, masm2, hcc⟩ := SIMDAssembler.new_float masm true
  obtain ⟨t1, t2, t3, t4⟩ := selectNest_of_orders step args0 h0 h1
  have hs' : SIMDAssembler.new masm (args0.EnsureOutputOrder .ROW_MAJOR).2.c_.tensor.type
      ((args0.EnsureOutputOrder .ROW_MAJOR).2.Aligned
        (SIMDAssembler.VectorBytes masm (args0.EnsureOutputOrder .ROW_MAJOR).2.c_.type)) =
      .ok (sasm, masm1) := by
    rw [Arg.type, hty]; exact hs
  have hcc' : SIMDAssembler.new masm (args0.EnsureOutputOrder .ROW_MAJOR).2.c_.tensor.type
      true = .ok (sasmCC, masm2) := by
    rw [hty]; exact hcc
  refine ⟨sasm, masm1, sasmCC, masm2, hs, hcc, ?_, ?_, ?_, ?_⟩
  · intro h
    rw [Generate_of_selectNest self step masm _ _ (t1 h), SIMDMatMul.runNest,
      GenerateVertical_eq self step masm masm1 _ false sasm hs']
    rfl
  · intro h
    rw [Generate_of_selectNest self step masm _ _ (t2 h), SIMDMatMul.runNest,
      GenerateVertical_eq self step masm masm1 _ true sasm hs']
    rfl
  · intro h
    rw [Generate_of_selectNest self step masm _ _ (t3 h), SIMDMatMul.runNest,
      GenerateHorizontal_eq self step masm masm1 _ sasm hs']
  · intro h
    rw [Generate_of_selectNest self step masm _ _ (t4 h), SIMDMatMul.runNest,
      GenerateColCol_eq self step masm masm2 _ sasmCC hcc']

/-- Witness for C6: A 8x1 column-major and B 1x8 row-major run the vertical nest with
strided A, and with the AVX cascade the variant is "AVXFltCR". -/
theorem SIMDMatMul.Generate_nest_variant_witness :
    MatMulArgs.new outerProductStep = .ok outerProductArgs ∧
    (outerProductArgs.EnsureOutputOrder .ROW_MAJOR).1 = true ∧
    (outerProductArgs.EnsureOutputOrder .ROW_MAJOR).2.c_.tensor.type = .DT_FLOAT ∧
    (∃ sasm masm1,
      (SIMDMatMul.mk false).Generate outerProductStep (sampleAssembler avxFeatures) =
        ((SIMDMatMul.mk false).verticalBody sasm masm1
          (outerProductArgs.EnsureOutputOrder .ROW_MAJOR).2 true).map
          (fun m => (outerProductStep.set_variant (sasm.name ++ "CR"), m))) ∧
    (SIMDMatMul.mk false).variantSet avxFeatures outerProductStep = some "AVXFltCR" :=
  ⟨rfl, by decide, by decide,
    let ⟨sasm, masm1, _, _, _, _, _, hcr, _, _⟩ :=
      SIMDMatMul.Generate_nest_variant (SIMDMatMul.mk false) outerProductStep
        (sampleAssembler avxFeatures) outerProductArgs rfl (by decide) (by decide)
    ⟨sasm, masm1, hcr ⟨by decide, by decide⟩⟩,
    by decide⟩

/-! ## Order of the residual phases -/

theorem residualGenerators_append (ps qs : List Phase) :
    residualGenerators (ps ++ qs) = residualGenerators ps ++ residualGenerators qs := by
  simp [residualGenerators]

theorem addResidualPhase_residuals (gen : SIMDGenerator) (s : StrategyState) :
    ∃ rest, (SIMDStrategy.addResidualPhase gen s).phases_ = s.phases_ ++ rest ∧
      (residualGenerators rest).Sublist [gen] := by
  unfold SIMDStrategy.addResidualPhase
  simp only
  split_ifs
  · exact ⟨[_], rfl, by simp [residualGenerators]⟩
  · exact ⟨[], by simp, by simp [residualGenerators]⟩

theorem addMaskedPhase_residuals (gen : SIMDGenerator) (s : StrategyState) :
    ∃ rest, (SIMDStrategy.addMaskedPhase gen s).phases_ = s.phases_ ++ rest ∧
      residualGenerators rest = [] := by
  unfold SIMDStrategy.addMaskedPhase
  simp only
  split_ifs with hc
  · simp only [Bool.and_eq_true, decide_eq_true_eq] at hc
    refine ⟨[_], rfl, ?_⟩
    have : ¬ s.remaining = 0 := by omega
    simp [residualGenerators, this]
  · exact ⟨[], by simp, by simp [residualGenerators]⟩

theorem residuals_residualGenerators (cascade : List SIMDGenerator) (s : StrategyState) :
    ∃ rest, (SIMDStrategy.residuals cascade s).phases_ = s.phases_ ++ rest ∧
      (residualGenerators rest).Sublist cascade := by
  induction cascade generalizing s with
  | nil => exact ⟨[], by simp [SIMDStrategy.residuals], by simp [residualGenerators]⟩
  | cons g rest ih =>
    simp only [SIMDStrategy.residuals]
    split_ifs with h0
    · exact ⟨[], by simp, by simp [residualGenerators]⟩
    · obtain ⟨r1, h1, s1⟩ := addResidualPhase_residuals g s
      obtain ⟨r2, h2, s2⟩ := addMaskedPhase_residuals g (SIMDStrategy.addResidualPhase g s)
      obtain ⟨r3, h3, s3⟩ := ih (SIMDStrategy.addResidual g s)
      refine ⟨r1 ++ r2 ++ r3, ?_, ?_⟩
      · rw [h3, SIMDStrategy.addResidual, h2, h1]
        simp [List.append_assoc]
      · rw [residualGenerators_append, residualGenerators_append, s2, List.append_nil]
        exact List.Sublist.append s1 s3

/-- C11: for every span length, every `max_unrolls` and every cascade whose vector
sizes descend strictly, the bulk phase (the first phase, present iff the number of bulk
unrolls is positive) uses the main generator, and the vector sizes of the residual
(non-bulk, non-masked) phases descend strictly in plan order. -/
theorem SIMDStrategy.residual_sizes_descend (main : SIMDGenerator)
    (cascade : List SIMDGenerator) (N max_unrolls : Int)
    (hdesc : (cascade.map (fun g => g.VectorSize)).Pairwise (fun x y => x > y)) :
    (0 < SIMDStrategy.bulkUnrolls main.VectorSize N max_unrolls →
      ∃ bulk rest, SIMDStrategy.plan main cascade N max_unrolls = bulk :: rest ∧
        bulk.generator = main ∧
        bulk.unrolls = SIMDStrategy.bulkUnrolls main.VectorSize N max_unrolls ∧
        (residualVectorSizes rest).Pairwise (fun x y => x > y)) ∧
    (¬ 0 < SIMDStrategy.bulkUnrolls main.VectorSize N max_unrolls →
      (residualVectorSizes (SIMDStrategy.plan main cascade N max_unrolls)).Pairwise
        (fun x y => x > y)) := by
  obtain ⟨rest, h1, h2⟩ :=
    residuals_residualGenerators cascade (SIMDStrategy.addBulk main N max_unrolls)
  have hsizes : (residualVectorSizes rest).Pairwise (fun x y => x > y) :=
    List.Pairwise.sublist (List.Sublist.map _ h2) hdesc
  constructor
  · intro hU
    refine ⟨Phase.mk main 0 (SIMDStrategy.bulkUnrolls main.VectorSize N max_unrolls)
      (N.tdiv (main.VectorSize * SIMDStrategy.bulkUnrolls main.VectorSize N max_unrolls)) 0,
      rest, ?_, rfl, rfl, hsizes⟩
    rw [SIMDStrategy.plan, h1, addBulk_pos main N max_unrolls hU]
    rfl
  · intro hU
    rw [SIMDStrategy.plan, h1, addBulk_nonpos main N max_unrolls hU]
    simpa using hsizes

/-- Witness for C11: the AVX cascade (8, 4 and 1 lanes) on a span of 47 elements gives a
bulk phase of 8 lanes followed by residual phases of 8, 4 and 1 lanes. -/
theorem SIMDStrategy.residual_sizes_descend_witness :
    ([AVX256FloatGenerator true, AVX128FloatGenerator true,
        AVXScalarFloatGenerator true].map (fun g => g.VectorSize)).Pairwise
      (fun x y => x > y) ∧
    (∃ bulk rest, SIMDStrategy.plan (AVX256FloatGenerator true)
        [AVX256FloatGenerator true, AVX128FloatGenerator true, AVXScalarFloatGenerator true]
        47 4 = bulk :: rest ∧
      bulk.generator = AVX256FloatGenerator true ∧
      bulk.unrolls = SIMDStrategy.bulkUnrolls (AVX256FloatGenerator true).VectorSize 47 4 ∧
      (residualVectorSizes rest).Pairwise (fun x y => x > y)) ∧
    residualVectorSizes (SIMDStrategy.plan (AVX256FloatGenerator true)
        [AVX256FloatGenerator true, AVX128FloatGenerator true, AVXScalarFloatGenerator true]
        47 4) = [8, 8, 4, 1] :=
  ⟨by decide,
    (SIMDStrategy.residual_sizes_descend (AVX256FloatGenerator true)
      [AVX256FloatGenerator true, AVX128FloatGenerator true, AVXScalarFloatGenerator true]
      47 4 (by decide)).1 (by decide),
    by decide⟩

/-! ## The masked phase -/

theorem MaskedLast.of_unmasked (s : StrategyState) (h : ∀ p ∈ s.phases_, p.masked = 0) :
    MaskedLast s :=
  ⟨fun _ => h, fun p hp => h p (List.mem_of_mem_dropLast hp),
    fun p hp hm => absurd (h p hp) hm⟩

theorem addResidualPhase_unmasked (gen : SIMDGenerator) (s : StrategyState)
    (h : ∀ p ∈ s.phases_, p.masked = 0) :
    ∀ p ∈ (SIMDStrategy.addResidualPhase gen s).phases_, p.masked = 0 := by
  unfold SIMDStrategy.addResidualPhase
  simp only
  split_ifs
  · intro p hp
    rcases List.mem_append.1 hp with hp | hp
    · exact h p hp
    · simp only [List.mem_singleton] at hp
      rw [hp]
  · exact h

theorem addMaskedPhase_maskedLast (gen : SIMDGenerator) (s : StrategyState)
    (h : ∀ p ∈ s.phases_, p.masked = 0) : MaskedLast (SIMDStrategy.addMaskedPhase gen s) := by
  unfold SIMDStrategy.addMaskedPhase
  simp only
  split_ifs with hc
  · simp only [Bool.and_eq_true, decide_eq_true_eq] at hc
    obtain ⟨⟨hsup, hpos⟩, hlt⟩ := hc
    refine ⟨fun hne => absurd rfl hne, ?_, ?_⟩
    · simpa [List.dropLast_concat] using h
    · intro p hp hm
      rcases List.mem_append.1 hp with hp | hp
      · exact absurd (h p hp) hm
      · simp only [List.mem_singleton] at hp
        subst hp
        exact ⟨hsup, hpos, hlt⟩
  · exact MaskedLast.of_unmasked s h

theorem addResidual_maskedLast (gen : SIMDGenerator) (s : StrategyState)
    (h : MaskedLast s) (hrem : s.remaining ≠ 0) :
    MaskedLast (SIMDStrategy.addResidual gen s) :=
  addMaskedPhase_maskedLast gen _
    (addResidualPhase_unmasked gen s (h.none_while_remaining hrem))

theorem residuals_maskedLast (cascade : List SIMDGenerator) (s : StrategyState)
    (h : MaskedLast s) : MaskedLast (SIMDStrategy.residuals cascade s) := by
  induction cascade generalizing s with
  | nil => simpa [SIMDStrategy.residuals] using h
  | cons g rest ih =>
    simp only [SIMDStrategy.residuals]
    split_ifs with h0
    · exact h
    · exact ih _ (addResidual_maskedLast g s h h0)

theorem addBulk_maskedLast (main : SIMDGenerator) (N mu : Int) :
    MaskedLast (SIMDStrategy.addBulk main N mu) := by
  apply MaskedLast.of_unmasked
  unfold SIMDStrategy.addBulk
  simp only
  split_ifs <;> simp

theorem plan_maskedLast (main : SIMDGenerator) (cascade : List SIMDGenerator) (N mu : Int) :
    MaskedLast (SIMDStrategy.residuals cascade (SIMDStrategy.addBulk main N mu)) :=
  residuals_maskedLast cascade _ (addBulk_maskedLast main N mu)

theorem addResidualPhase_generators (gen : SIMDGenerator) (s : StrategyState) :
    ∃ rest, (SIMDStrategy.addResidualPhase gen s).phases_ = s.phases_ ++ rest ∧
      ∀ p ∈ rest, p.generator = gen := by
  unfold SIMDStrategy.addResidualPhase
  simp only
  split_ifs
  · exact ⟨[_], rfl, by simp⟩
  · exact ⟨[], by simp, by simp⟩

theorem addMaskedPhase_generators (gen : SIMDGenerator) (s : StrategyState) :
    ∃ rest, (SIMDStrategy.addMaskedPhase gen s).phases_ = s.phases_ ++ rest ∧
      ∀ p ∈ rest, p.generator = gen := by
  unfold SIMDStrategy.addMaskedPhase
  simp only
  split_ifs
  · exact ⟨[_], rfl, by simp⟩
  · exact ⟨[], by simp, by simp⟩

theorem addResidual_generators (gen : SIMDGenerator) (s : StrategyState) :
    ∃ rest, (SIMDStrategy.addResidual gen s).phases_ = s.phases_ ++ rest ∧
      ∀ p ∈ rest, p.generator = gen := by
  obtain ⟨r1, h1, g1⟩ := addResidualPhase_generators gen s
  obtain ⟨r2, h2, g2⟩ := addMaskedPhase_generators gen (SIMDStrategy.addResidualPhase gen s)
  refine ⟨r1 ++ r2, by rw [SIMDStrategy.addResidual, h2, h1, List.append_assoc], ?_⟩
  intro p hp
  rcases List.mem_append.1 hp with hp | hp
  · exact g1 p hp
  · exact g2 p hp

theorem residuals_generators (cascade : List SIMDGenerator) (s : StrategyState) :
    ∃ rest, (SIMDStrategy.residuals cascade s).phases_ = s.phases_ ++ rest ∧
      ∀ p ∈ rest, p.generator ∈ cascade := by
  induction cascade generalizing s with
  | nil => exact ⟨[], by simp [SIMDStrategy.residuals], by simp⟩
  | cons g rest ih =>
    simp only [SIMDStrategy.residuals]
    split_ifs with h0
    · exact ⟨[], by simp, by simp⟩
    · obtain ⟨r1, h1, g1⟩ := addResidual_generators g s
      obtain ⟨r2, h2, g2⟩ := ih (SIMDStrategy.addResidual g s)
      refine ⟨r1 ++ r2, by rw [h2, h1, List.append_assoc], ?_⟩
      intro p hp
      rcases List.mem_append.1 hp with hp | hp
      · rw [g1 p hp]; exact List.mem_cons_self _ _
      · exact List.mem_cons_of_mem _ (g2 p hp)

theorem preloadMasks_ok (ps : List Phase)
    (h : ∀ p ∈ ps, p.masked ≠ 0 → p.generator.cls = .AVX512FloatGenerator) :
    ∃ code, SIMDStrategy.preloadMasks ps = .ok code := by
  induction ps with
  | nil => exact ⟨[], rfl⟩
  | cons p ps ih =>
    obtain ⟨rest, hrest⟩ := ih (fun q hq => h q (List.mem_cons_of_mem _ hq))
    by_cases hm : p.masked = 0
    · exact ⟨[] ++ rest, by simp [SIMDStrategy.preloadMasks, hm, hrest, bind, Except.bind, pure,
        Except.pure]⟩
    · have hcls := h p (List.mem_cons_self _ _) hm
      exact ⟨[.gen p.generator (.SetMask p.masked)] ++ rest, by
        simp [SIMDStrategy.preloadMasks, hm, hrest, SIMDGenerator.masked, hcls, bind,
          Except.bind, pure, Except.pure]⟩

/-- C12: every plan built by `SIMDStrategy` has at most one masked phase; a masked phase
is the last phase, its generator supports masking and `0 < masked < VectorSize`.  Hence
`PreloadMasks` calls `SetMask` only on generators that support masking, and it does not
abort when the generators of the cascade that support masking are of the class
`AVX512FloatGenerator` (the only class that overrides `SetMask`). -/
theorem SIMDStrategy.masked_phase_last (main : SIMDGenerator) (cascade : List SIMDGenerator)
    (N max_unrolls : Int) :
    ((SIMDStrategy.plan main cascade N max_unrolls).filter
        (fun p => decide (p.masked ≠ 0))).length ≤ 1 ∧
    (∀ (i : Nat) (hi : i < (SIMDStrategy.plan main cascade N max_unrolls).length),
      ((SIMDStrategy.plan main cascade N max_unrolls).get ⟨i, hi⟩).masked ≠ 0 →
        i + 1 = (SIMDStrategy.plan main cascade N max_unrolls).length ∧
        ((SIMDStrategy.plan main cascade N max_unrolls).get ⟨i, hi⟩).generator.SupportsMasking
          = true ∧
        0 < ((SIMDStrategy.plan main cascade N max_unrolls).get ⟨i, hi⟩).masked ∧
        ((SIMDStrategy.plan main cascade N max_unrolls).get ⟨i, hi⟩).masked <
          ((SIMDStrategy.plan main cascade N max_unrolls).get ⟨i, hi⟩).generator.VectorSize) ∧
    ((∀ g ∈ cascade, g.SupportsMasking = true → g.cls = .AVX512FloatGenerator) →
      ∃ code, SIMDStrategy.preloadMasks (SIMDStrategy.plan main cascade N max_unrolls) =
        .ok code) := by
  have hinv := plan_maskedLast main cascade N max_unrolls
  obtain ⟨h1, h2, h3⟩ := hinv
  refine ⟨?_, ?_, ?_⟩
  · by_cases hnil : SIMDStrategy.plan main cascade N max_unrolls = []
    · simp [hnil]
    · rw [← List.dropLast_append_getLast hnil, List.filter_append]
      have hdrop : (SIMDStrategy.plan main cascade N max_unrolls).dropLast.filter
          (fun p => decide (p.masked ≠ 0)) = [] := by
        rw [List.filter_eq_nil_iff]
        intro p hp
        simpa using h2 p hp
      rw [hdrop, List.nil_append]
      exact le_trans (List.length_filter_le _ _) (by simp)
  · intro i hi hm
    have hmem : (SIMDStrategy.plan main cascade N max_unrolls).get ⟨i, hi⟩ ∈
        SIMDStrategy.plan main cascade N max_unrolls := List.get_mem _ _ _
    refine ⟨?_, h3 _ hmem hm⟩
    by_contra hne
    have hlt : i < (SIMDStrategy.plan main cascade N max_unrolls).dropLast.length := by
      rw [List.length_dropLast]; omega
    have heq := List.getElem_dropLast (SIMDStrategy.plan main cascade N max_unrolls) i hlt
    have hzero := h2 _ (List.getElem_mem hlt)
    rw [heq] at hzero
    exact hm (by simpa using hzero)
  · intro hcls
    apply preloadMasks_ok
    intro p hp hm
    obtain ⟨rest, hrest, hgen⟩ :=
      residuals_generators cascade (SIMDStrategy.addBulk main N max_unrolls)
    have hp' : p ∈ (SIMDStrategy.addBulk main N max_unrolls).phases_ ++ rest := by
      rw [← hrest]; exact hp
    rcases List.mem_append.1 hp' with hb | hr
    · exact absurd ((addBulk_maskedLast main N max_unrolls).none_while_remaining
        (by
          intro h0
          exact hm (by
            have := (addBulk_maskedLast main N max_unrolls).bounds p hb hm
            exact absurd this.2.1 (by
              have hall : ∀ q ∈ (SIMDStrategy.addBulk main N max_unrolls).phases_,
                  q.masked = 0 := by
                unfold SIMDStrategy.addBulk
                simp only
                split_ifs <;> simp
              rw [hall p hb]; decide))) p hb) hm
    · exact hcls _ (hgen p hr) (h3 p hp hm).1

/-- Witness for C12: the AVX-512 cascade on a span of 35 elements gives a plan whose only
masked phase is the last one, and `PreloadMasks` emits one `SetMask(3)`. -/
theorem SIMDStrategy.masked_phase_last_witness :
    (∀ g ∈ [AVX512FloatGenerator true 0, AVX512ScalarFloatGenerator true],
      g.SupportsMasking = true → g.cls = .AVX512FloatGenerator) ∧
    (∃ code, SIMDStrategy.preloadMasks (SIMDStrategy.plan (AVX512FloatGenerator true 0)
        [AVX512FloatGenerator true 0, AVX512ScalarFloatGenerator true] 35 4) = .ok code) ∧
    (SIMDStrategy.plan (AVX512FloatGenerator true 0)
        [AVX512FloatGenerator true 0, AVX512ScalarFloatGenerator true] 35 4).map
      (fun p => p.masked) = [0, 3] :=
  ⟨by decide,
    (SIMDStrategy.masked_phase_last (AVX512FloatGenerator true 0)
      [AVX512FloatGenerator true 0, AVX512ScalarFloatGenerator true] 35 4).2.2 (by decide),
    by decide⟩

/-! ## The AVX-512 plan for a span of 35 elements -/

theorem planned_avx512_35 :
    SIMDStrategy.planned avx512Features true 35 4 =
      some [{ generator := AVX512FloatGenerator true 0, offset := 0, unrolls := 2,
              repeat_ := 1, masked := 0 },
            { generator := AVX512FloatGenerator true 0, offset := 32, unrolls := 1,
              repeat_ := 0, masked := 3 }] := by
  decide

/-- C13 (as stated, refuted): with AVX-512, `max_unrolls = 4` and `N = 35` the plan is not
a bulk phase with `repeat = 2`, `unrolls = 1` over 16 lanes followed by a scalar residual
phase. -/
theorem SIMDStrategy.avx512_span35_counterexample :
    ¬ ∃ bulk residual : Phase,
        SIMDStrategy.planned avx512Features true 35 4 = some [bulk, residual] ∧
        bulk.generator.VectorSize = 16 ∧ bulk.repeat_ = 2 ∧ bulk.unrolls = 1 ∧
        residual.generator.VectorSize = 1 := by
  rintro ⟨bulk, residual, h, -, hrep, -, -⟩
  rw [planned_avx512_35] at h
  simp only [Option.some.injEq, List.cons.injEq, and_true] at h
  obtain ⟨hb, -⟩ := h
  rw [← hb] at hrep
  exact absurd hrep (by decide)

/-- C13 (amended): with AVX-512, `max_unrolls = 4` and `N = 35` the plan is a bulk phase of
the 16-lane main generator with `unrolls = 2` and `repeat = 1` covering 32 elements,
followed by a masked phase of the same generator at offset 32 with `masked = 3` covering
the remaining 3 elements; the scalar generator gets no phase. -/
theorem SIMDStrategy.avx512_span35_plan :
    ∃ bulk tail_ : Phase,
      SIMDStrategy.planned avx512Features true 35 4 = some [bulk, tail_] ∧
      bulk.generator = AVX512FloatGenerator true 0 ∧ bulk.generator.VectorSize = 16 ∧
      bulk.offset = 0 ∧ bulk.unrolls = 2 ∧ bulk.repeat_ = 1 ∧ bulk.masked = 0 ∧
      bulk.elements = 32 ∧
      tail_.generator = AVX512FloatGenerator true 0 ∧ tail_.offset = 32 ∧
      tail_.unrolls = 1 ∧ tail_.repeat_ = 0 ∧ tail_.masked = 3 ∧ tail_.elements = 3 :=
  ⟨_, _, planned_avx512_35, by decide⟩

/-! ## `MaxUnrolls` -/

theorem foldl_max_ge (ps : List Phase) (init : Int) :
    init ≤ ps.foldl (fun unrolls p => max unrolls p.unrolls) init ∧
    ∀ p ∈ ps, p.unrolls ≤ ps.foldl (fun unrolls p => max unrolls p.unrolls) init := by
  induction ps generalizing init with
  | nil => simp
  | cons q ps ih =>
    simp only [List.foldl_cons, List.mem_cons, forall_eq_or_imp]
    obtain ⟨h1, h2⟩ := ih (max init q.unrolls)
    exact ⟨le_trans (le_max_left _ _) h1, le_trans (le_max_right _ _) h1, h2⟩

theorem foldl_max_mem (ps : List Phase) (init : Int) :
    ps.foldl (fun unrolls p => max unrolls p.unrolls) init = init ∨
    ∃ p ∈ ps, ps.foldl (fun unrolls p => max unrolls p.unrolls) init = p.unrolls := by
  induction ps generalizing init with
  | nil => simp
  | cons q ps ih =>
    simp only [List.foldl_cons, List.mem_cons, exists_eq_or_imp]
    rcases ih (max init q.unrolls) with h | ⟨p, hp, h⟩
    · rcases max_cases init q.unrolls with ⟨hm, -⟩ | ⟨hm, -⟩
      · left; rw [h, hm]
      · right; left; rw [h, hm]
    · right; right; exact ⟨p, hp, h⟩

theorem addResidual_unrolls (gen : SIMDGenerator) (s : StrategyState)
    (h : ∀ p ∈ s.phases_, 1 ≤ p.unrolls) :
    ∀ p ∈ (SIMDStrategy.addResidual gen s).phases_, 1 ≤ p.unrolls := by
  have h1 : ∀ p ∈ (SIMDStrategy.addResidualPhase gen s).phases_, 1 ≤ p.unrolls := by
    unfold SIMDStrategy.addResidualPhase
    simp only
    split_ifs with hn
    · intro p hp
      simp only [List.mem_append, List.mem_singleton] at hp
      rcases hp with hp | hp
      · exact h p hp
      · subst hp; simp only; omega
    · exact h
  unfold SIMDStrategy.addResidual SIMDStrategy.addMaskedPhase
  simp only
  split_ifs
  · intro p hp
    simp only [List.mem_append, List.mem_singleton] at hp
    rcases hp with hp | hp
    · exact h1 p hp
    · subst hp; simp
  · exact h1

theorem residuals_unrolls (cascade : List SIMDGenerator) (s : StrategyState)
    (h : ∀ p ∈ s.phases_, 1 ≤ p.unrolls) :
    ∀ p ∈ (SIMDStrategy.residuals cascade s).phases_, 1 ≤ p.unrolls := by
  induction cascade generalizing s with
  | nil => exact h
  | cons gen rest ih =>
    unfold SIMDStrategy.residuals
    split_ifs
    · exact h
    · exact ih _ (addResidual_unrolls gen s h)

theorem plan_unrolls (main : SIMDGenerator) (cascade : List SIMDGenerator)
    (N max_unrolls : Int) :
    ∀ p ∈ SIMDStrategy.plan main cascade N max_unrolls, 1 ≤ p.unrolls := by
  apply residuals_unrolls
  unfold SIMDStrategy.addBulk
  simp only
  split_ifs with hU
  · intro p hp
    simp only [List.mem_singleton] at hp
    subst hp; simp only; omega
  · simp

theorem allocN_length (sasm : SIMDAssembler) (n : Nat) (masm : MacroAssembler) :
    (sasm.allocN n masm).1.length = n := by
  induction n generalizing masm with
  | zero => rfl
  | succ n ih =>
    simp only [SIMDAssembler.allocN, List.length_cons, ih]

/-- C14: for every strategy built by the constructor, `MaxUnrolls()` is 1 for an empty
plan and otherwise the `unrolls` of one of its phases; it is at least the `unrolls` of
every phase, so the list of accumulator registers `sasm.alloc(MaxUnrolls())` has an
entry `sum[i]` for every index `i < phase.unrolls` of every phase. -/
theorem SIMDStrategy.MaxUnrolls_largest (sasm : SIMDAssembler) (size max_unrolls : Int)
    (strategy : SIMDStrategy) (masm : MacroAssembler)
    (h : SIMDStrategy.new sasm size max_unrolls = .ok strategy) :
    (strategy.phases_ = [] → strategy.MaxUnrolls = 1) ∧
    (strategy.phases_ ≠ [] → ∃ p ∈ strategy.phases_, strategy.MaxUnrolls = p.unrolls) ∧
    (∀ p ∈ strategy.phases_, p.unrolls ≤ strategy.MaxUnrolls) ∧
    (∀ p ∈ strategy.phases_, ∀ i ∈ unrollIndices p.unrolls,
      i < (sasm.allocN strategy.MaxUnrolls.toNat masm).1.length) := by
  have hone : ∀ p ∈ strategy.phases_, 1 ≤ p.unrolls := by
    unfold SIMDStrategy.new at h
    cases hm : sasm.main with
    | none => simp [hm] at h
    | some main =>
      simp only [hm, Except.ok.injEq] at h
      subst h
      exact plan_unrolls main sasm.cascade size max_unrolls
  have hge := foldl_max_ge strategy.phases_ 1
  have hmem := foldl_max_mem strategy.phases_ 1
  refine ⟨?_, ?_, hge.2, ?_⟩
  · intro hnil
    simp [SIMDStrategy.MaxUnrolls, hnil]
  · intro hne
    rcases hmem with h1 | h1
    · obtain ⟨p, hp⟩ := List.exists_mem_of_ne_nil _ hne
      refine ⟨p, hp, ?_⟩
      have := hge.2 p hp
      have := hone p hp
      unfold SIMDStrategy.MaxUnrolls
      omega
    · exact h1
  · intro p hp i hi
    rw [allocN_length]
    have := hge.2 p hp
    simp only [unrollIndices, List.mem_range] at hi
    unfold SIMDStrategy.MaxUnrolls
    omega

/-- Witness for C14: the strategy for a span of 47 elements with the AVX cascade. -/
theorem SIMDStrategy.MaxUnrolls_largest_witness :
    SIMDStrategy.new { name_ := "AVXFlt", cascade_ := [AVX256FloatGenerator true,
        AVX128FloatGenerator true, AVXScalarFloatGenerator true] } 47 4 =
      .ok (SIMDStrategy.mk (SIMDStrategy.plan (AVX256FloatGenerator true)
        [AVX256FloatGenerator true, AVX128FloatGenerator true, AVXScalarFloatGenerator true]
        47 4)) ∧
    ∀ p ∈ SIMDStrategy.plan (AVX256FloatGenerator true)
        [AVX256FloatGenerator true, AVX128FloatGenerator true, AVXScalarFloatGenerator true]
        47 4,
      p.unrolls ≤ (SIMDStrategy.mk (SIMDStrategy.plan (AVX256FloatGenerator true)
        [AVX256FloatGenerator true, AVX128FloatGenerator true, AVXScalarFloatGenerator true]
        47 4)).MaxUnrolls :=
  ⟨rfl, (SIMDStrategy.MaxUnrolls_largest
    { name_ := "AVXFlt", cascade_ := [AVX256FloatGenerator true,
        AVX128FloatGenerator true, AVXScalarFloatGenerator true] } 47 4
    (SIMDStrategy.mk (SIMDStrategy.plan (AVX256FloatGenerator true)
        [AVX256FloatGenerator true, AVX128FloatGenerator true, AVXScalarFloatGenerator true]
        47 4)) (sampleAssembler avxFeatures) rfl).2.2.1⟩

/-! ## The generators selected by `SIMDAssembler` -/

/-- C15: for `DT_FLOAT` the constructor of `SIMDAssembler` selects the generators by the
priority AVX512F > AVX > SSE.  With AVX512F the name is "AVX512Flt", the main generator
is the AVX-512 generator (16 lanes, 64 bytes) and the generators after it are the AVX-512
scalar generator; with AVX and no AVX512F the name is "AVXFlt", the main generator is the
256-bit AVX generator (8 lanes, 32 bytes) and the generators after it are the 128-bit AVX
generator (4 lanes) and the AVX scalar generator; with SSE only the name is "SSEFlt", the
main generator is the SSE generator (4 lanes, 16 bytes) and the generator after it is the
SSE scalar generator.  In each case the vector sizes strictly descend along the cascade,
so `main()` is the widest generator, and the last generator has vector size 1. -/
theorem SIMDAssembler.new_float_cascade (masm : MacroAssembler) (aligned : Bool) :
    (masm.Enabled .AVX512F = true →
      ∃ sasm masm1, SIMDAssembler.new masm .DT_FLOAT aligned = .ok (sasm, masm1) ∧
        sasm.name = "AVX512Flt" ∧
        sasm.main = some (AVX512FloatGenerator aligned masm.kk.alloc.1) ∧
        (AVX512FloatGenerator aligned masm.kk.alloc.1).VectorSize = 16 ∧
        (AVX512FloatGenerator aligned masm.kk.alloc.1).VectorBytes = 64 ∧
        sasm.cascade.tail = [AVX512ScalarFloatGenerator aligned]) ∧
    (masm.Enabled .AVX512F = false → masm.Enabled .AVX = true →
      ∃ sasm masm1, SIMDAssembler.new masm .DT_FLOAT aligned = .ok (sasm, masm1) ∧
        sasm.name = "AVXFlt" ∧
        sasm.main = some (AVX256FloatGenerator aligned) ∧
        (AVX256FloatGenerator aligned).VectorSize = 8 ∧
        (AVX256FloatGenerator aligned).VectorBytes = 32 ∧
        sasm.cascade.tail = [AVX128FloatGenerator aligned, AVXScalarFloatGenerator aligned] ∧
        (AVX128FloatGenerator aligned).VectorSize = 4) ∧
    (masm.Enabled .AVX512F = false → masm.Enabled .AVX = false → masm.Enabled .SSE = true →
      ∃ sasm masm1, SIMDAssembler.new masm .DT_FLOAT aligned = .ok (sasm, masm1) ∧
        sasm.name = "SSEFlt" ∧
        sasm.main = some (SSE128FloatGenerator aligned) ∧
        (SSE128FloatGenerator aligned).VectorSize = 4 ∧
        (SSE128FloatGenerator aligned).VectorBytes = 16 ∧
        sasm.cascade.tail = [SSEScalarFloatGenerator aligned]) ∧
    ((masm.Enabled .AVX512F || masm.Enabled .AVX || masm.Enabled .SSE) = true →
      ∃ sasm masm1 main scalar, SIMDAssembler.new masm .DT_FLOAT aligned = .ok (sasm, masm1) ∧
        (sasm.cascade.map (fun g => g.VectorSize)).Pairwise (fun x y => x > y) ∧
        sasm.main = some main ∧ (∀ g ∈ sasm.cascade, g.VectorSize ≤ main.VectorSize) ∧
        sasm.scalar = some scalar ∧ scalar.VectorSize = 1) := by
  refine ⟨?_, ?_, ?_, ?_⟩
  · intro h1
    refine ⟨{ name_ := "AVX512Flt",
              cascade_ := [AVX512FloatGenerator aligned masm.kk.alloc.1,
                           AVX512ScalarFloatGenerator aligned] },
      { masm with kk := masm.kk.alloc.2 }, ?_, rfl, rfl, rfl, rfl, rfl⟩
    unfold SIMDAssembler.new
    simp only [h1, if_true]
  · intro h1 h2
    refine ⟨{ name_ := "AVXFlt",
              cascade_ := [AVX256FloatGenerator aligned, AVX128FloatGenerator aligned,
                           AVXScalarFloatGenerator aligned] },
      masm, ?_, rfl, rfl, rfl, rfl, rfl, rfl⟩
    unfold SIMDAssembler.new
    simp only [h1, h2, if_true, Bool.false_eq_true, if_false]
  · intro h1 h2 h3
    refine ⟨{ name_ := "SSEFlt",
              cascade_ := [SSE128FloatGenerator aligned, SSEScalarFloatGenerator aligned] },
      masm, ?_, rfl, rfl, rfl, rfl, rfl⟩
    unfold SIMDAssembler.new
    simp only [h1, h2, h3, if_true, Bool.false_eq_true, if_false]
  · intro h
    unfold SIMDAssembler.new
    simp only
    split_ifs with h1 h2 h3
    · refine ⟨_, _, _, _, rfl, ?_, rfl, ?_, rfl, rfl⟩
      · simp [SIMDAssembler.cascade, AVX512FloatGenerator, AVX512ScalarFloatGenerator]
      · simp [SIMDAssembler.cascade, AVX512FloatGenerator, AVX512ScalarFloatGenerator]
    · refine ⟨_, _, _, _, rfl, ?_, rfl, ?_, rfl, rfl⟩
      · simp [SIMDAssembler.cascade, AVX256FloatGenerator, AVX128FloatGenerator,
          AVXScalarFloatGenerator]
      · simp [SIMDAssembler.cascade, AVX256FloatGenerator, AVX128FloatGenerator,
          AVXScalarFloatGenerator]
    · refine ⟨_, _, _, _, rfl, ?_, rfl, ?_, rfl, rfl⟩
      · simp [SIMDAssembler.cascade, SSE128FloatGenerator, SSEScalarFloatGenerator]
      · simp [SIMDAssembler.cascade, SSE128FloatGenerator, SSEScalarFloatGenerator]
    · simp [h1, h2, h3] at h

/-- Witness for C15: a CPU with AVX and FMA3 but without AVX-512F gets the cascade
AVX 256-bit, AVX 128-bit, AVX scalar under the name "AVXFlt". -/
theorem SIMDAssembler.new_float_cascade_witness :
    (sampleAssembler avxFeatures).Enabled .AVX512F = false ∧
    (sampleAssembler avxFeatures).Enabled .AVX = true ∧
    ∃ sasm masm1,
      SIMDAssembler.new (sampleAssembler avxFeatures) .DT_FLOAT true = .ok (sasm, masm1) ∧
        sasm.name = "AVXFlt" ∧
        sasm.main = some (AVX256FloatGenerator true) ∧
        (AVX256FloatGenerator true).VectorSize = 8 ∧
        (AVX256FloatGenerator true).VectorBytes = 32 ∧
        sasm.cascade.tail = [AVX128FloatGenerator true, AVXScalarFloatGenerator true] ∧
        (AVX128FloatGenerator true).VectorSize = 4 :=
  ⟨by decide, by decide,
    (SIMDAssembler.new_float_cascade (sampleAssembler avxFeatures) true).2.1
      (by decide) (by decide)⟩

/-! ## A CPU without SSE, AVX and AVX-512F -/

/-- C16 (the code at the failing input): for `DT_FLOAT` on a CPU on which none of
AVX512F, AVX and SSE is enabled the constructor of `SIMDAssembler` does not abort: it
returns an assembler with the empty name and no generators, for which `main()` and
`scalar()` have no value, although `Supports(DT_FLOAT)` is true. -/
theorem SIMDAssembler.new_without_features :
    SIMDAssembler.new (sampleAssembler []) .DT_FLOAT true =
      .ok ({ name_ := "", cascade_ := [] }, sampleAssembler []) ∧
    SIMDAssembler.Supports .DT_FLOAT = true ∧
    SIMDAssembler.main { name_ := "", cascade_ := [] } = none ∧
    SIMDAssembler.scalar { name_ := "", cascade_ := [] } = none ∧
    SIMDAssembler.new (sampleAssembler []) .DT_INT32 true = .error .UnsupportedType :=
  ⟨rfl, rfl, rfl, rfl, rfl⟩

/-! ## The register pool -/

theorem Registers.alloc_not_mem (pool : Registers) : pool.alloc.1 ∉ pool.used := by
  unfold Registers.alloc
  simp only
  cases hf : (List.range (pool.used.length + 1)).find? (fun r => !pool.used.contains r) with
  | some r =>
    have := List.find?_some hf
    simpa using this
  | none =>
    exfalso
    rw [List.find?_eq_none] at hf
    have hsub : List.range (pool.used.length + 1) ⊆ pool.used := by
      intro r hr
      have := hf r hr
      simpa using this
    have hle := ((List.nodup_range (pool.used.length + 1)).subperm hsub).length_le
    simp at hle

theorem Registers.release_alloc (pool : Registers) :
    pool.alloc.2.release pool.alloc.1 = pool := by
  cases pool with
  | mk used => simp [Registers.alloc, Registers.release]

theorem MacroAssembler.releasem_allocx (masm : MacroAssembler) :
    masm.allocx.2.releasem masm.allocx.1 = masm := by
  cases masm with
  | mk features rr mm kk code =>
    simp only [MacroAssembler.allocx, MacroAssembler.releasem, xmm]
    rw [Registers.release_alloc]

theorem MacroAssembler.releasem_allocy (masm : MacroAssembler) :
    masm.allocy.2.releasem masm.allocy.1 = masm := by
  cases masm with
  | mk features rr mm kk code =>
    simp only [MacroAssembler.allocy, MacroAssembler.releasem, ymm]
    rw [Registers.release_alloc]

theorem MacroAssembler.releasem_allocz (masm : MacroAssembler) :
    masm.allocz.2.releasem masm.allocz.1 = masm := by
  cases masm with
  | mk features rr mm kk code =>
    simp only [MacroAssembler.allocz, MacroAssembler.releasem, zmm]
    rw [Registers.release_alloc]

theorem MacroAssembler.releasem_ymm (masm : MacroAssembler) (r : SIMDRegister) :
    masm.releasem r.ymm = masm.releasem r := rfl

theorem MacroAssembler.releasem_allocx_allocx (masm : MacroAssembler) :
    (masm.allocx.2.allocx.2.releasem masm.allocx.1).releasem masm.allocx.2.allocx.1 =
      masm := by
  have hne : masm.allocx.2.mm.alloc.1 ≠ masm.mm.alloc.1 := by
    intro h
    have := Registers.alloc_not_mem masm.allocx.2.mm
    rw [h] at this
    exact this (by simp [MacroAssembler.allocx, Registers.alloc])
  cases masm with
  | mk features rr mm kk code =>
    cases mm with
    | mk used =>
      simp only [MacroAssembler.allocx, MacroAssembler.releasem, xmm] at hne ⊢
      simp only [Registers.release]
      have h1 : (Registers.mk used).alloc.2.alloc.2.used =
          (Registers.mk used).alloc.2.alloc.1 :: (Registers.mk used).alloc.1 :: used := rfl
      rw [h1, List.erase_cons_tail (by simpa using hne), List.erase_cons_head,
        List.erase_cons_head]

/-! ## `MulAdd` with FMA3 -/

/-- C17 (as stated, refuted): it is not the case that every generator emits exactly one
instruction, a fused multiply-add, for `MulAdd` when FMA3 is enabled: the SSE scalar
generator emits `mulss` and `addss`. -/
theorem SIMDGenerator.callMulAdd_sse_counterexample :
    ¬ ∀ (g : SIMDGenerator) (masm : MacroAssembler) (dst a : Nat) (mem : Operand)
        (retain : Bool), masm.Enabled .FMA3 = true →
        ∃ i, (g.callMulAdd masm dst a mem retain).1 = [i] ∧ i.isFused = true := by
  intro h
  obtain ⟨i, hi, -⟩ := h (SSEScalarFloatGenerator true) (sampleAssembler [.SSE, .FMA3]) 0 1
    { base := 2 } false (by decide)
  have hlen : ((SSEScalarFloatGenerator true).callMulAdd (sampleAssembler [.SSE, .FMA3]) 0 1
      { base := 2 } false).1.length = 2 := by decide
  rw [hi] at hlen
  simp at hlen

/-- C17 (amended): for each generator of the five classes encoded with VEX or EVEX (AVX-512,
AVX 256-bit, AVX 128-bit, AVX-512 scalar and AVX scalar), when FMA3 is enabled
`MulAdd(dst, a, mem, retain)` emits exactly one instruction for either value of `retain`:
a fused multiply-add (`vfmadd231ps` or `vfmadd231ss`) with destination `dst` and sources
`a` and `mem`; it reserves no register. -/
theorem SIMDGenerator.callMulAdd_fused (g : SIMDGenerator) (masm : MacroAssembler)
    (dst a : Nat) (mem : Operand) (retain : Bool)
    (hfma : masm.Enabled .FMA3 = true)
    (hsse128 : g.cls ≠ .SSE128FloatGenerator) (hsse : g.cls ≠ .SSEScalarFloatGenerator) :
    ∃ i w, g.callMulAdd masm dst a mem retain = ([i], masm) ∧ i.isFused = true ∧
      i.written = some dst ∧
      i.operands = [.reg { width := w, code := dst }, .reg { width := w, code := a },
        .mem mem] := by
  obtain ⟨cls, al, vb, vs, sm, mk⟩ := g
  cases cls
  · refine ⟨⟨.vfmadd231ps, [.reg (zmm dst), .reg (zmm a), .mem mem]⟩, .zmm, ?_, rfl, rfl, rfl⟩
    simp [SIMDGenerator.callMulAdd, AVX512FloatGenerator.MulAdd, hfma]
  · refine ⟨⟨.vfmadd231ps, [.reg (ymm dst), .reg (ymm a), .mem mem]⟩, .ymm, ?_, rfl, rfl, rfl⟩
    simp [SIMDGenerator.callMulAdd, AVX256FloatGenerator.MulAdd, hfma]
  · refine ⟨⟨.vfmadd231ps, [.reg (xmm dst), .reg (xmm a), .mem mem]⟩, .xmm, ?_, rfl, rfl, rfl⟩
    simp [SIMDGenerator.callMulAdd, AVX128FloatGenerator.MulAdd, hfma]
  · exact absurd rfl hsse128
  · refine ⟨⟨.vfmadd231ss, [.reg (zmm dst), .reg (zmm a), .mem mem]⟩, .zmm, ?_, rfl, rfl, rfl⟩
    simp [SIMDGenerator.callMulAdd, AVX512ScalarFloatGenerator.MulAdd, hfma]
  · refine ⟨⟨.vfmadd231ss, [.reg (xmm dst), .reg (xmm a), .mem mem]⟩, .xmm, ?_, rfl, rfl, rfl⟩
    simp [SIMDGenerator.callMulAdd, AVXScalarFloatGenerator.MulAdd, hfma]
  · exact absurd rfl hsse

/-- Witness for C17 (amended): the 256-bit AVX generator on a CPU with FMA3. -/
theorem SIMDGenerator.callMulAdd_fused_witness :
    (sampleAssembler avxFeatures).Enabled .FMA3 = true ∧
    ∃ i w, (AVX256FloatGenerator true).callMulAdd (sampleAssembler avxFeatures) 0 1
        { base := 2 } true = ([i], sampleAssembler avxFeatures) ∧ i.isFused = true ∧
      i.written = some 0 ∧
      i.operands = [.reg { width := w, code := 0 }, .reg { width := w, code := 1 },
        .mem { base := 2 }] :=
  ⟨by decide, SIMDGenerator.callMulAdd_fused (AVX256FloatGenerator true)
    (sampleAssembler avxFeatures) 0 1 { base := 2 } true (by decide) (by decide) (by decide)⟩

/-! ## `MulAdd` without the fused instruction -/

theorem MacroAssembler.allocx_fst (masm : MacroAssembler) :
    masm.allocx.1 = xmm masm.mm.alloc.1 := rfl

theorem MacroAssembler.allocy_fst (masm : MacroAssembler) :
    masm.allocy.1 = ymm masm.mm.alloc.1 := rfl

theorem MacroAssembler.allocz_fst (masm : MacroAssembler) :
    masm.allocz.1 = zmm masm.mm.alloc.1 := rfl

theorem MacroAssembler.releasem_allocx_code (masm : MacroAssembler) (w : RegisterWidth) :
    masm.allocx.2.releasem { width := w, code := masm.mm.alloc.1 } = masm :=
  MacroAssembler.releasem_allocx masm

theorem MacroAssembler.releasem_allocy_code (masm : MacroAssembler) (w : RegisterWidth) :
    masm.allocy.2.releasem { width := w, code := masm.mm.alloc.1 } = masm :=
  MacroAssembler.releasem_allocy masm

theorem MacroAssembler.releasem_allocz_code (masm : MacroAssembler) (w : RegisterWidth) :
    masm.allocz.2.releasem { width := w, code := masm.mm.alloc.1 } = masm :=
  MacroAssembler.releasem_allocz masm

theorem MacroAssembler.releasem_allocx_allocx_code (masm : MacroAssembler)
    (w1 w2 : RegisterWidth) :
    (masm.allocx.2.allocx.2.releasem { width := w1, code := masm.mm.alloc.1 }).releasem
      { width := w2, code := masm.allocx.2.mm.alloc.1 } = masm :=
  MacroAssembler.releasem_allocx_allocx masm

theorem alloc_ne_of_mem (pool : Registers) (a : Nat) (ha : a ∈ pool.used) :
    pool.alloc.1 ≠ a :=
  fun h => Registers.alloc_not_mem pool (h ▸ ha)

theorem allocx_alloc_ne_of_mem (masm : MacroAssembler) (a : Nat) (ha : a ∈ masm.mm.used) :
    masm.allocx.2.mm.alloc.1 ≠ a := by
  apply alloc_ne_of_mem
  simp [MacroAssembler.allocx, Registers.alloc, ha]

/-- C18: for every generator, when `MulAdd(dst, a, mem, true)` with `dst != a` on a
reserved register `a` emits no fused instruction, no instruction it emits writes `a`: the
product is written to the register that the call reserves from the pool, which was
unreserved before, and the assembler (with its register pool) is the same after the call
as before; when `MulAdd(dst, a, mem, false)` emits no fused instruction, its multiply
writes `a`. -/
theorem SIMDGenerator.callMulAdd_retain (g : SIMDGenerator) (masm : MacroAssembler)
    (dst a : Nat) (mem : Operand) (hda : dst ≠ a) (ha : a ∈ masm.mm.used) :
    ((∀ i ∈ (g.callMulAdd masm dst a mem true).1, i.isFused = false) →
      (∀ i ∈ (g.callMulAdd masm dst a mem true).1, i.written ≠ some a) ∧
      (∃ i ∈ (g.callMulAdd masm dst a mem true).1,
        i.isMul = true ∧ i.written = some masm.mm.alloc.1) ∧
      masm.mm.alloc.1 ∉ masm.mm.used ∧
      (g.callMulAdd masm dst a mem true).2 = masm) ∧
    ((∀ i ∈ (g.callMulAdd masm dst a mem false).1, i.isFused = false) →
      ∃ i ∈ (g.callMulAdd masm dst a mem false).1, i.isMul = true ∧ i.written = some a) := by
  have ht := alloc_ne_of_mem masm.mm a ha
  have ht2 := allocx_alloc_ne_of_mem masm a ha
  have hnm := Registers.alloc_not_mem masm.mm
  obtain ⟨cls, al, vb, vs, sm, mk⟩ := g
  cases cls
  · by_cases hf : masm.Enabled .FMA3 = true
    · simp [SIMDGenerator.callMulAdd, AVX512FloatGenerator.MulAdd, hf, MachineInstruction.isFused]
    · simp [SIMDGenerator.callMulAdd, AVX512FloatGenerator.MulAdd, hf,
        MachineInstruction.isFused, MachineInstruction.isMul, MachineInstruction.written,
        MacroAssembler.releasem_allocz_code, MacroAssembler.allocz_fst, zmm, ht, hda, hnm]
  · by_cases hf : masm.Enabled .FMA3 = true
    · simp [SIMDGenerator.callMulAdd, AVX256FloatGenerator.MulAdd, hf, MachineInstruction.isFused]
    · simp [SIMDGenerator.callMulAdd, AVX256FloatGenerator.MulAdd, hf,
        MachineInstruction.isFused, MachineInstruction.isMul, MachineInstruction.written,
        MacroAssembler.releasem_allocy_code, MacroAssembler.allocy_fst, ymm, ht, hda, hnm]
  · by_cases hf : masm.Enabled .FMA3 = true
    · simp [SIMDGenerator.callMulAdd, AVX128FloatGenerator.MulAdd, hf, MachineInstruction.isFused]
    · simp [SIMDGenerator.callMulAdd, AVX128FloatGenerator.MulAdd, hf,
        MachineInstruction.isFused, MachineInstruction.isMul, MachineInstruction.written,
        MacroAssembler.releasem_allocx_code, MacroAssembler.allocx_fst, xmm, ht, hda, hnm]
  · cases al
    · simp [SIMDGenerator.callMulAdd, SSE128FloatGenerator.MulAdd,
        MachineInstruction.isFused, MachineInstruction.isMul, MachineInstruction.written,
        MacroAssembler.releasem_allocx_code, MacroAssembler.releasem_allocx_allocx_code,
        MacroAssembler.allocx_fst, xmm, ht, ht2, hda, hnm]
    · simp [SIMDGenerator.callMulAdd, SSE128FloatGenerator.MulAdd,
        MachineInstruction.isFused, MachineInstruction.isMul, MachineInstruction.written,
        MacroAssembler.releasem_allocx_code, MacroAssembler.allocx_fst, xmm, ht, hda, hnm]
  · by_cases hf : masm.Enabled .FMA3 = true
    · simp [SIMDGenerator.callMulAdd, AVX512ScalarFloatGenerator.MulAdd, hf, MachineInstruction.isFused]
    · simp [SIMDGenerator.callMulAdd, AVX512ScalarFloatGenerator.MulAdd, hf,
        MachineInstruction.isFused, MachineInstruction.isMul, MachineInstruction.written,
        MacroAssembler.releasem_allocz_code, MacroAssembler.allocz_fst, zmm, ht, hda, hnm]
  · by_cases hf : masm.Enabled .FMA3 = true
    · simp [SIMDGenerator.callMulAdd, AVXScalarFloatGenerator.MulAdd, hf, MachineInstruction.isFused]
    · simp [SIMDGenerator.callMulAdd, AVXScalarFloatGenerator.MulAdd, hf,
        MachineInstruction.isFused, MachineInstruction.isMul, MachineInstruction.written,
        MacroAssembler.releasem_allocx_code, MacroAssembler.allocx_fst, xmm, ht, hda, hnm]
  · simp [SIMDGenerator.callMulAdd, SSEScalarFloatGenerator.MulAdd,
      MachineInstruction.isFused, MachineInstruction.isMul, MachineInstruction.written,
      MacroAssembler.releasem_allocx_code, MacroAssembler.allocx_fst, xmm, ht, hda, hnm]

/-- Witness for C18: the 256-bit AVX generator on a CPU without FMA3, with the registers
0 (`dst`) and 1 (`a`) reserved. -/
theorem SIMDGenerator.callMulAdd_retain_witness :
    (0 : Nat) ≠ 1 ∧ 1 ∈ (reservedAssembler [.SSE, .AVX]).mm.used ∧
    (∀ i ∈ ((AVX256FloatGenerator true).callMulAdd (reservedAssembler [.SSE, .AVX]) 0 1
      { base := 2 } true).1, i.isFused = false) ∧
    ((∀ i ∈ ((AVX256FloatGenerator true).callMulAdd (reservedAssembler [.SSE, .AVX]) 0 1
        { base := 2 } true).1, i.written ≠ some 1) ∧
      (∃ i ∈ ((AVX256FloatGenerator true).callMulAdd (reservedAssembler [.SSE, .AVX]) 0 1
        { base := 2 } true).1,
        i.isMul = true ∧ i.written = some (reservedAssembler [.SSE, .AVX]).mm.alloc.1) ∧
      (reservedAssembler [.SSE, .AVX]).mm.alloc.1 ∉ (reservedAssembler [.SSE, .AVX]).mm.used ∧
      ((AVX256FloatGenerator true).callMulAdd (reservedAssembler [.SSE, .AVX]) 0 1
        { base := 2 } true).2 = reservedAssembler [.SSE, .AVX]) :=
  ⟨by decide, by decide, by decide,
    (SIMDGenerator.callMulAdd_retain (AVX256FloatGenerator true)
      (reservedAssembler [.SSE, .AVX]) 0 1 { base := 2 } (by decide) (by decide)).1
      (by decide)⟩

/-! ## Memory operands of the unaligned SSE generator -/

/-- C19: for the SSE 128-bit generator constructed unaligned, each of `Add`, `Mul` and
`MulAdd` with the memory operand `src2` emits that operand once, as the source of a
`movups` into a register that was unreserved before the call; no other instruction has a
memory operand, in particular no `addps` or `mulps`; and the assembler (with its register
pool) is the same after the call as before, so the temporary has been released. -/
theorem SSE128_unaligned_spill (masm : MacroAssembler) (dst src1 : Nat) (src2 : Operand)
    (retain : Bool) :
    ∀ out ∈ [(SSE128FloatGenerator false).callAddMem masm dst src1 src2,
             (SSE128FloatGenerator false).callMul masm dst src1 src2,
             (SSE128FloatGenerator false).callMulAdd masm dst src1 src2 retain],
      out.2 = masm ∧
      (∃ t, t ∉ masm.mm.used ∧
        (out.1.filter (fun i => decide (i.memoryOperands ≠ []))) =
          [⟨.movups, [.reg (xmm t), .mem src2]⟩]) ∧
      (∀ i ∈ out.1, i.mnemonic = .addps ∨ i.mnemonic = .mulps → i.memoryOperands = []) := by
  have hnm := Registers.alloc_not_mem masm.mm
  have hnm2 : masm.allocx.2.mm.alloc.1 ∉ masm.mm.used := by
    intro h
    have hmem : masm.allocx.2.mm.alloc.1 ∈ masm.mm.alloc.1 :: masm.mm.used :=
      List.mem_cons_of_mem _ h
    exact Registers.alloc_not_mem masm.allocx.2.mm hmem
  intro out hout
  simp only [List.mem_cons, List.mem_singleton, List.not_mem_nil, or_false] at hout
  rcases hout with rfl | rfl | rfl
  · refine ⟨?_, ⟨masm.mm.alloc.1, hnm, ?_⟩, ?_⟩
    · simp [SIMDGenerator.callAddMem, SSE128FloatGenerator, SSE128FloatGenerator.AddMem,
        MacroAssembler.releasem_allocx]
    · by_cases hd : dst = src1 <;>
        simp [SIMDGenerator.callAddMem, SSE128FloatGenerator, SSE128FloatGenerator.AddMem,
          MachineInstruction.memoryOperands, MachineOperand.isMem, MacroAssembler.allocx_fst, hd]
    · by_cases hd : dst = src1 <;>
        simp [SIMDGenerator.callAddMem, SSE128FloatGenerator, SSE128FloatGenerator.AddMem,
          MachineInstruction.memoryOperands, MachineOperand.isMem, MacroAssembler.allocx_fst, hd]
  · refine ⟨?_, ⟨masm.mm.alloc.1, hnm, ?_⟩, ?_⟩
    · simp [SIMDGenerator.callMul, SSE128FloatGenerator, SSE128FloatGenerator.Mul,
        MacroAssembler.releasem_allocx]
    · by_cases hd : dst = src1 <;>
        simp [SIMDGenerator.callMul, SSE128FloatGenerator, SSE128FloatGenerator.Mul,
          MachineInstruction.memoryOperands, MachineOperand.isMem, MacroAssembler.allocx_fst, hd]
    · by_cases hd : dst = src1 <;>
        simp [SIMDGenerator.callMul, SSE128FloatGenerator, SSE128FloatGenerator.Mul,
          MachineInstruction.memoryOperands, MachineOperand.isMem, MacroAssembler.allocx_fst, hd]
  · cases retain
    · refine ⟨?_, ⟨masm.mm.alloc.1, hnm, ?_⟩, ?_⟩
      · simp [SIMDGenerator.callMulAdd, SSE128FloatGenerator, SSE128FloatGenerator.MulAdd,
          MacroAssembler.releasem_allocx]
      · simp [SIMDGenerator.callMulAdd, SSE128FloatGenerator, SSE128FloatGenerator.MulAdd,
          MachineInstruction.memoryOperands, MachineOperand.isMem, MacroAssembler.allocx_fst]
      · simp [SIMDGenerator.callMulAdd, SSE128FloatGenerator, SSE128FloatGenerator.MulAdd,
          MachineInstruction.memoryOperands, MachineOperand.isMem, MacroAssembler.allocx_fst]
    · refine ⟨?_, ⟨masm.allocx.2.mm.alloc.1, hnm2, ?_⟩, ?_⟩
      · simp [SIMDGenerator.callMulAdd, SSE128FloatGenerator, SSE128FloatGenerator.MulAdd,
          MacroAssembler.releasem_allocx_allocx]
      · simp [SIMDGenerator.callMulAdd, SSE128FloatGenerator, SSE128FloatGenerator.MulAdd,
          MachineInstruction.memoryOperands, MachineOperand.isMem, MacroAssembler.allocx_fst]
      · simp [SIMDGenerator.callMulAdd, SSE128FloatGenerator, SSE128FloatGenerator.MulAdd,
          MachineInstruction.memoryOperands, MachineOperand.isMem, MacroAssembler.allocx_fst]

/-- Witness for C19: `MulAdd` with `retain` of the unaligned SSE generator, with the
registers 0 and 1 reserved, moves the memory operand into register 3 and restores the
assembler. -/
theorem SSE128_unaligned_spill_witness :
    ((SSE128FloatGenerator false).callMulAdd (reservedAssembler [.SSE]) 0 1 { base := 2 } true
      ∈ [(SSE128FloatGenerator false).callAddMem (reservedAssembler [.SSE]) 0 1 { base := 2 },
         (SSE128FloatGenerator false).callMul (reservedAssembler [.SSE]) 0 1 { base := 2 },
         (SSE128FloatGenerator false).callMulAdd (reservedAssembler [.SSE]) 0 1 { base := 2 }
           true]) ∧
    ((SSE128FloatGenerator false).callMulAdd (reservedAssembler [.SSE]) 0 1 { base := 2 }
      true).1.filter (fun i => decide (i.memoryOperands ≠ [])) =
        [⟨.movups, [.reg (xmm 3), .mem { base := 2 }]⟩] ∧
    ((SSE128FloatGenerator false).callMulAdd (reservedAssembler [.SSE]) 0 1 { base := 2 }
      true).2 = reservedAssembler [.SSE] :=
  ⟨by simp, by decide,
    (SSE128_unaligned_spill (reservedAssembler [.SSE]) 0 1 { base := 2 } true _
      (by simp)).1⟩

/-! ## The reduction `Sum` -/

theorem laneSum_four {R : Type} [CommRing R] (v : Nat → R) :
    laneSum 4 v = v 0 + v 1 + v 2 + v 3 := by
  unfold laneSum
  rw [show List.range 4 = [0, 1, 2, 3] from rfl]
  simp [add_assoc]

theorem laneSum_eight {R : Type} [CommRing R] (v : Nat → R) :
    laneSum 8 v = v 0 + v 1 + v 2 + v 3 + v 4 + v 5 + v 6 + v 7 := by
  unfold laneSum
  rw [show List.range 8 = [0, 1, 2, 3, 4, 5, 6, 7] from rfl]
  simp [add_assoc]

theorem laneSum_sixteen {R : Type} [CommRing R] (v : Nat → R) :
    laneSum 16 v = v 0 + v 1 + v 2 + v 3 + v 4 + v 5 + v 6 + v 7 + v 8 + v 9 + v 10 + v 11 +
      v 12 + v 13 + v 14 + v 15 := by
  unfold laneSum
  rw [show List.range 16 = [0, 1, 2, 3, 4, 5, 6, 7, 8, 9, 10, 11, 12, 13, 14, 15] from rfl]
  simp [add_assoc]

theorem sumLane0_sse128 {R : Type} [CommRing R] (masm : MacroAssembler) (r : Nat)
    (rf : RegisterFile R) (aligned : Bool) :
    (SSE128FloatGenerator aligned).sumLane0 masm r rf = some (laneSum 4 (rf r)) := by
  rw [laneSum_four]
  simp [SIMDGenerator.sumLane0, SIMDGenerator.callSum, SSE128FloatGenerator,
    SSE128FloatGenerator.Sum, runMachine, MachineInstruction.exec, RegisterFile.set,
    haddLanes, xmm, add_assoc]

theorem sumLane0_avx128 {R : Type} [CommRing R] (masm : MacroAssembler) (r : Nat)
    (rf : RegisterFile R) (aligned : Bool) :
    (AVX128FloatGenerator aligned).sumLane0 masm r rf = some (laneSum 4 (rf r)) := by
  rw [laneSum_four]
  simp [SIMDGenerator.sumLane0, SIMDGenerator.callSum, AVX128FloatGenerator,
    AVX128FloatGenerator.Sum, runMachine, MachineInstruction.exec, RegisterFile.set,
    haddLanes, vexLanes, RegisterWidth.lanes, xmm, add_assoc]

theorem sumLane0_avx256 {R : Type} [CommRing R] (masm : MacroAssembler) (r : Nat)
    (rf : RegisterFile R) (aligned : Bool) (hr : r ∈ masm.mm.used) :
    (AVX256FloatGenerator aligned).sumLane0 masm r rf = some (laneSum 8 (rf r)) := by
  have hacc : masm.mm.alloc.1 ≠ r := alloc_ne_of_mem masm.mm r hr
  have hacc2 : r ≠ masm.mm.alloc.1 := fun h => hacc h.symm
  rw [laneSum_eight]
  simp [SIMDGenerator.sumLane0, SIMDGenerator.callSum, AVX256FloatGenerator,
    AVX256FloatGenerator.Sum, runMachine, MachineInstruction.exec, RegisterFile.set,
    haddLanes, vexLanes, perm2f128Lanes, perm2f128Half, RegisterWidth.lanes, ymm,
    MacroAssembler.allocy_fst, hacc, hacc2]
  ring

theorem sumLane0_avx512 {R : Type} [CommRing R] (masm : MacroAssembler) (r : Nat)
    (rf : RegisterFile R) (aligned : Bool) (mask : Nat) (hr : r ∈ masm.mm.used) :
    (AVX512FloatGenerator aligned mask).sumLane0 masm r rf = some (laneSum 16 (rf r)) := by
  have hacc : masm.mm.alloc.1 ≠ r := alloc_ne_of_mem masm.mm r hr
  have hacc2 : r ≠ masm.mm.alloc.1 := fun h => hacc h.symm
  rw [laneSum_sixteen]
  simp [SIMDGenerator.sumLane0, SIMDGenerator.callSum, AVX512FloatGenerator,
    AVX512FloatGenerator.Sum, runMachine, MachineInstruction.exec, RegisterFile.set,
    haddLanes, vexLanes, perm2f128Lanes, perm2f128Half, shuff32x4Lanes, RegisterWidth.lanes,
    zmm, SIMDRegister.ymm, MacroAssembler.allocz_fst, hacc, hacc2]
  ring

/-- C20: for each vector generator (AVX-512 with 16 lanes, AVX 256-bit with 8 lanes, AVX
128-bit and SSE 128-bit with 4 lanes) the instructions emitted by `Sum(r)` on a reserved
register `r`, run with lane-wise semantics over a commutative ring, leave in lane 0 of `r`
the sum of the `VectorSize` lanes that `r` held before; for the three scalar generators
`Sum` emits no instruction. -/
theorem SIMDGenerator.callSum_reduces {R : Type} [CommRing R] (masm : MacroAssembler)
    (r : Nat) (rf : RegisterFile R) (aligned : Bool) (mask : Nat)
    (hr : r ∈ masm.mm.used) :
    (AVX512FloatGenerator aligned mask).sumLane0 masm r rf =
      some (laneSum (AVX512FloatGenerator aligned mask).VectorSize.toNat (rf r)) ∧
    (AVX256FloatGenerator aligned).sumLane0 masm r rf =
      some (laneSum (AVX256FloatGenerator aligned).VectorSize.toNat (rf r)) ∧
    (AVX128FloatGenerator aligned).sumLane0 masm r rf =
      some (laneSum (AVX128FloatGenerator aligned).VectorSize.toNat (rf r)) ∧
    (SSE128FloatGenerator aligned).sumLane0 masm r rf =
      some (laneSum (SSE128FloatGenerator aligned).VectorSize.toNat (rf r)) ∧
    (AVX512ScalarFloatGenerator aligned).callSum masm r = .ok ([], masm) ∧
    (AVXScalarFloatGenerator aligned).callSum masm r = .ok ([], masm) ∧
    (SSEScalarFloatGenerator aligned).callSum masm r = .ok ([], masm) :=
  ⟨sumLane0_avx512 masm r rf aligned mask hr, sumLane0_avx256 masm r rf aligned hr,
    sumLane0_avx128 masm r rf aligned, sumLane0_sse128 masm r rf aligned,
    by simp [SIMDGenerator.callSum, AVX512ScalarFloatGenerator],
    by simp [SIMDGenerator.callSum, AVXScalarFloatGenerator],
    by simp [SIMDGenerator.callSum, SSEScalarFloatGenerator]⟩

/-- Witness for C20: with the registers 0 and 1 reserved and lane `i` of register 1
holding `100 + i`, `Sum(1)` of the AVX-512 generator leaves 1720 in lane 0. -/
theorem SIMDGenerator.callSum_reduces_witness :
    1 ∈ (reservedAssembler avx512Features).mm.used ∧
    (AVX512FloatGenerator true 0).sumLane0 (reservedAssembler avx512Features) 1
      sampleRegisterFile =
      some (laneSum (AVX512FloatGenerator true 0).VectorSize.toNat (sampleRegisterFile 1)) ∧
    laneSum (AVX512FloatGenerator true 0).VectorSize.toNat (sampleRegisterFile 1) = 1720 :=
  ⟨by decide,
    (SIMDGenerator.callSum_reduces (reservedAssembler avx512Features) 1 sampleRegisterFile
      true 0 (by decide)).1,
    by decide⟩

/-! ## `SIMDAssembler::Sum` -/

theorem map_getD_range' (f : Nat → Instruction) (r0 : Nat) (rest : List Nat) :
    (List.range' 1 rest.length).map (fun n => f ((r0 :: rest).getD n 0)) = rest.map f := by
  apply List.ext_getElem
  · simp
  · intro i h1 h2
    simp only [List.length_map, List.length_range'] at h1
    simp [List.getElem_range', Nat.add_comm 1 i, List.getD_eq_getElem?_getD, h1]

theorem Sum_fold (main : SIMDGenerator) (r0 : Nat) (rest : List Nat)
    (h : (r0 :: rest).length ≠ 4) :
    SIMDAssembler.Sum main (r0 :: rest) =
      rest.map (fun rn => Instruction.gen main (.Add r0 r0 rn)) := by
  unfold SIMDAssembler.Sum
  rw [if_neg h]
  exact map_getD_range' (fun rn => Instruction.gen main (.Add r0 r0 rn)) r0 rest

theorem runAdds_fold {R : Type} [AddCommMonoid R] (main : SIMDGenerator) (r0 : Nat)
    (rest : List Nat) (v : Nat → R) (h : r0 ∉ rest) :
    ∃ v1, runAdds (rest.map (fun rn => Instruction.gen main (.Add r0 r0 rn))) v = some v1 ∧
      v1 r0 = v r0 + (rest.map v).sum ∧ ∀ r, r ≠ r0 → v1 r = v r := by
  induction rest generalizing v with
  | nil => exact ⟨v, rfl, by simp, fun _ _ => rfl⟩
  | cons x xs ih =>
    have hx : x ≠ r0 := fun hx => h (by simp [hx])
    have hxs : r0 ∉ xs := fun hxs => h (by simp [hxs])
    obtain ⟨v1, hrun, hsum, hrest⟩ :=
      ih (fun r => if r = r0 then v r0 + v x else v r) hxs
    refine ⟨v1, ?_, ?_, ?_⟩
    · simpa [runAdds, Instruction.execAdd] using hrun
    · rw [hsum]
      have hmap : xs.map (fun r => if r = r0 then v r0 + v x else v r) = xs.map v := by
        apply List.map_congr_left
        intro r hr
        have : r ≠ r0 := fun hr0 => hxs (hr0 ▸ hr)
        simp [this]
      simp [hmap, add_assoc]
    · intro r hr
      rw [hrest r hr]
      simp [hr]

/-- C21: `SIMDAssembler::Sum(regs)` emits for exactly four registers the three additions
`r0 += r2`, `r1 += r3`, `r0 += r1`, for any other number of registers the left fold
`r0 += r_n` for `n = 1..k-1`, and nothing for no register; for pairwise distinct
registers and exact addition, `r0` holds afterwards the sum of the initial values of all
registers. -/
theorem SIMDAssembler.Sum_reduces {R : Type} [AddCommMonoid R] (main : SIMDGenerator)
    (r0 : Nat) (rest : List Nat) (v : Nat → R) (hd : (r0 :: rest).Nodup) :
    (∀ r1 r2 r3, rest = [r1, r2, r3] →
      SIMDAssembler.Sum main (r0 :: rest) =
        [.gen main (.Add r0 r0 r2), .gen main (.Add r1 r1 r3), .gen main (.Add r0 r0 r1)]) ∧
    (rest.length ≠ 3 →
      SIMDAssembler.Sum main (r0 :: rest) =
        rest.map (fun rn => Instruction.gen main (.Add r0 r0 rn))) ∧
    SIMDAssembler.Sum main [] = [] ∧
    ∃ v1, runAdds (SIMDAssembler.Sum main (r0 :: rest)) v = some v1 ∧
      v1 r0 = ((r0 :: rest).map v).sum := by
  refine ⟨?_, ?_, rfl, ?_⟩
  · rintro r1 r2 r3 rfl
    rfl
  · intro h
    exact Sum_fold main r0 rest (by simpa using h)
  · by_cases h4 : rest.length = 3
    · obtain ⟨r1, r2, r3, rfl⟩ : ∃ r1 r2 r3, rest = [r1, r2, r3] := by
        match rest, h4 with
        | [r1, r2, r3], _ => exact ⟨r1, r2, r3, rfl⟩
      simp only [List.nodup_cons, List.mem_cons, List.mem_singleton, List.not_mem_nil,
        or_false, not_or, List.nodup_nil, and_true] at hd
      obtain ⟨⟨h01, h02, h03⟩, ⟨h12, h13⟩, h23⟩ := hd
      refine ⟨_, rfl, ?_⟩
      have h10 := Ne.symm h01
      have h30 := Ne.symm h03
      have h31 := Ne.symm h13
      simp only [h01, h10, h30, h31, List.getD_cons_zero, List.getD_cons_succ, if_true,
        if_false, List.map_cons, List.map_nil, List.sum_cons, List.sum_nil, add_zero,
        ne_eq, not_false_eq_true, ite_true, ite_false]
      abel
    · obtain ⟨v1, hrun, hsum, -⟩ := runAdds_fold main r0 rest v (List.nodup_cons.1 hd).1
      refine ⟨v1, ?_, ?_⟩
      · rw [Sum_fold main r0 rest (by simpa using h4)]
        exact hrun
      · simpa using hsum

/-- Witness for C21: four distinct registers holding 1, 10, 100 and 1000. -/
theorem SIMDAssembler.Sum_reduces_witness :
    ([0, 1, 2, 3] : List Nat).Nodup ∧
    ∃ v1, runAdds (SIMDAssembler.Sum (AVX256FloatGenerator true) [0, 1, 2, 3])
        (fun r => (10 : Int) ^ r) = some v1 ∧
      v1 0 = (([0, 1, 2, 3] : List Nat).map (fun r => (10 : Int) ^ r)).sum :=
  ⟨by decide, (SIMDAssembler.Sum_reduces (AVX256FloatGenerator true) 0 [1, 2, 3]
    (fun r => (10 : Int) ^ r) (by decide)).2.2.2⟩

/-! ## `COND` with the second source in memory -/

/-- C22 (the code at the failing input): for a `COND` operation on floats whose second
source is in memory (`src2 = -1`) the code emitted for the mask-zero path is
`movaps xmm(dst), xmm(-1)`: no emitted instruction reads memory, in particular there is no
`movss` from `args[2]`.  The test that guards the memory case reads `instr->src`, which the
`CHECK` above it has shown to differ from -1. -/
theorem ScalarFltSSEGenerator.GenerateConditional_memory_source :
    (sampleGenerator .DT_FLOAT []).Generate false (sampleOp .COND 0 1 (-1))
        (sampleAssembler avxFeatures) =
      .ok [.ins .ptest [.xmm 2, .xmm 2],
           .j_zero .l1,
           .ins .movaps [.xmm 0, .xmm 1],
           .jmp .l2,
           .bind .l1,
           .ins .movaps [.xmm 0, .xmm (-1)],
           .bind .l2] ∧
    (∀ (self : ScalarFltSSEGenerator) (instr : Op) (code : List ExprInstruction),
      self.GenerateConditional instr = .ok code → ∀ item ∈ code, item.readsMemory = false) := by
  refine ⟨rfl, ?_⟩
  intro self instr code h
  unfold ScalarFltSSEGenerator.GenerateConditional at h
  by_cases h1 : instr.dst = -1
  · simp [h1, bind, Except.bind, throw, throwThe, MonadExceptOf.throw, pure, Except.pure] at h
  by_cases h2 : instr.src = -1
  · simp [h1, h2, bind, Except.bind, throw, throwThe, MonadExceptOf.throw, pure,
      Except.pure] at h
  by_cases h3 : instr.mask = -1
  · simp [h1, h2, h3, bind, Except.bind, throw, throwThe, MonadExceptOf.throw, pure,
      Except.pure] at h
  simp [h1, h2, h3, bind, Except.bind, pure, Except.pure] at h
  subst h
  intro item hitem
  simp at hitem
  rcases hitem with rfl | rfl | rfl | rfl | rfl | rfl | rfl <;> rfl

/-! ## `NOT` on doubles -/

/-- C23 (the code at the failing input): for a `NOT` operation on doubles with
`src != dst` the all-ones value is moved into `dst` with `movd`, which moves 32 bits: with
5 in the source register, `dst` ends as 5 XOR 0x00000000FFFFFFFF = 4294967290, not as
5 XOR 0xFFFFFFFFFFFFFFFF.  With `src == dst` (`movq` into the auxiliary register) and for
floats the result is the source XORed with all-ones over the element width. -/
theorem ScalarFltSSEGenerator.NOT_double_distinct_registers :
    (sampleGenerator .DT_DOUBLE []).Generate false (sampleOp .NOT 0 1 (-1))
        (sampleAssembler avxFeatures) =
      .ok [.ins .movq [.aux 0, .imm (-1)],
           .ins .movd [.xmm 0, .aux 0],
           .ins .xorpd [.xmm 0, .xmm 1]] ∧
    (sampleGenerator .DT_DOUBLE []).result (sampleOp .NOT 0 1 (-1))
      (sampleAssembler avxFeatures) (sampleExprState 5) = some (5 ^^^ (2 ^ 32 - 1)) ∧
    (5 ^^^ (2 ^ 32 - 1) : Nat) ≠ 5 ^^^ (2 ^ 64 - 1) ∧
    (sampleGenerator .DT_DOUBLE []).result (sampleOp .NOT 0 0 (-1))
      (sampleAssembler avxFeatures) (sampleExprState 5) = some (5 ^^^ (2 ^ 64 - 1)) ∧
    (sampleGenerator .DT_FLOAT []).result (sampleOp .NOT 0 1 (-1))
      (sampleAssembler avxFeatures) (sampleExprState 5) = some (5 ^^^ (2 ^ 32 - 1)) ∧
    (sampleGenerator .DT_FLOAT []).result (sampleOp .NOT 0 0 (-1))
      (sampleAssembler avxFeatures) (sampleExprState 5) = some (5 ^^^ (2 ^ 32 - 1)) := by
  refine ⟨rfl, ?_, ?_, ?_, ?_, ?_⟩ <;> decide

/-! ## Auxiliary registers of the expression generator -/

theorem Express.Has_of_mem (e : Express) (instr : Op) (h : instr ∈ e.ops) :
    e.Has instr.type = true := by
  unfold Express.Has
  rw [List.any_eq_true]
  exact ⟨instr, h, by simp⟩

set_option maxHeartbeats 1600000 in
theorem GenerateRegisterOp_aux (self : ScalarFltSSEGenerator) (instr : Op)
    (code : List ExprInstruction) (h : self.GenerateRegisterOp instr = .ok code) :
    ∀ item ∈ code,
      (∀ i ∈ item.xmmauxUsed, i < (if instr.type = .NOT then 2 else 1)) ∧
      (∀ i ∈ item.auxUsed, i = 0 ∧ instr.type = .NOT) := by
  obtain ⟨type_, instructions_, index_⟩ := self
  obtain ⟨type, dst, src, src2, mask, acc, args, result⟩ := instr
  by_cases h1 : dst = -1
  · simp [ScalarFltSSEGenerator.GenerateRegisterOp, h1, bind, Except.bind, throw, throwThe,
      MonadExceptOf.throw, pure, Except.pure] at h
  by_cases h2 : src = -1
  · cases type_ <;> cases type <;>
      simp [ScalarFltSSEGenerator.GenerateRegisterOp, h1, h2, bind, Except.bind, throw,
        throwThe, MonadExceptOf.throw, pure, Except.pure] at h <;>
      (try split_ifs at h) <;>
      (try simp only [Except.ok.injEq] at h) <;>
      (try subst h) <;>
      simp [ExprInstruction.xmmauxUsed, ExprInstruction.auxUsed]
  · cases type_ <;> cases type <;>
      simp [ScalarFltSSEGenerator.GenerateRegisterOp, h1, h2, bind, Except.bind, throw,
        throwThe, MonadExceptOf.throw, pure, Except.pure] at h <;>
      (try split_ifs at h) <;>
      (try simp only [Except.ok.injEq] at h) <;>
      (try subst h) <;>
      simp [ExprInstruction.xmmauxUsed, ExprInstruction.auxUsed]

theorem GenerateShift_aux (self : ScalarFltSSEGenerator) (instr : Op) (masm : MacroAssembler)
    (left : Bool) (bits : Int) (code : List ExprInstruction)
    (h : self.GenerateShift instr masm left bits = .ok code) :
    ∀ item ∈ code, item.xmmauxUsed = [] ∧ item.auxUsed = [] := by
  obtain ⟨type_, instructions_, index_⟩ := self
  by_cases h1 : instr.dst = -1
  · simp [ScalarFltSSEGenerator.GenerateShift, h1, bind, Except.bind, throw, throwThe,
      MonadExceptOf.throw, pure, Except.pure] at h
  by_cases h2 : instr.src = -1 <;> cases type_ <;> cases left <;>
    by_cases h3 : masm.Enabled .SSE2 = true <;>
    simp [ScalarFltSSEGenerator.GenerateShift, h1, h2, h3, bind, Except.bind, throw,
      throwThe, MonadExceptOf.throw, pure, Except.pure] at h <;>
    (try subst h) <;>
    simp [ExprInstruction.xmmauxUsed, ExprInstruction.auxUsed]

theorem GenerateConditional_aux (self : ScalarFltSSEGenerator) (instr : Op)
    (code : List ExprInstruction) (h : self.GenerateConditional instr = .ok code) :
    ∀ item ∈ code, item.xmmauxUsed = [] ∧ item.auxUsed = [] := by
  by_cases h1 : instr.dst = -1
  · simp [ScalarFltSSEGenerator.GenerateConditional, h1, bind, Except.bind, throw, throwThe,
      MonadExceptOf.throw, pure, Except.pure] at h
  by_cases h2 : instr.src = -1
  · simp [ScalarFltSSEGenerator.GenerateConditional, h1, h2, bind, Except.bind, throw,
      throwThe, MonadExceptOf.throw, pure, Except.pure] at h
  by_cases h3 : instr.mask = -1
  · simp [ScalarFltSSEGenerator.GenerateConditional, h1, h2, h3, bind, Except.bind, throw,
      throwThe, MonadExceptOf.throw, pure, Except.pure] at h
  simp [ScalarFltSSEGenerator.GenerateConditional, h1, h2, h3, bind, Except.bind, pure,
    Except.pure] at h
  subst h
  simp [ExprInstruction.xmmauxUsed, ExprInstruction.auxUsed]

theorem GenerateSelect_aux (self : ScalarFltSSEGenerator) (instr : Op)
    (code : List ExprInstruction) (h : self.GenerateSelect instr = .ok code) :
    ∀ item ∈ code, item.xmmauxUsed = [] ∧ item.auxUsed = [] := by
  obtain ⟨type_, instructions_, index_⟩ := self
  by_cases h1 : instr.dst = -1
  · simp [ScalarFltSSEGenerator.GenerateSelect, h1, bind, Except.bind, throw, throwThe,
      MonadExceptOf.throw, pure, Except.pure] at h
  by_cases h2 : instr.mask = -1
  · simp [ScalarFltSSEGenerator.GenerateSelect, h1, h2, bind, Except.bind, throw, throwThe,
      MonadExceptOf.throw, pure, Except.pure] at h
  have h5 : ¬ (-1 : Int) = instr.dst := fun h => h1 h.symm
  cases type_ <;>
    simp [ScalarFltSSEGenerator.GenerateSelect, h1, h2, bind, Except.bind, throw, throwThe,
      MonadExceptOf.throw, pure, Except.pure] at h <;>
    (try subst h) <;>
    by_cases h3 : instr.src = instr.dst <;> by_cases h4 : instr.src = -1 <;>
    simp [h3, h4, h5, ExprInstruction.xmmauxUsed, ExprInstruction.auxUsed]

theorem Reserve_not (self : ScalarFltSSEGenerator) (h : self.instructions_.Has .NOT = true) :
    self.Reserve.aux_xmm_registers = 2 ∧ self.Reserve.aux_registers = 1 := by
  unfold ScalarFltSSEGenerator.Reserve
  simp only [h, if_true]
  split_ifs <;> simp

theorem Reserve_register_op (self : ScalarFltSSEGenerator)
    (h : (self.instructions_.Has .BITAND || self.instructions_.Has .BITOR ||
        self.instructions_.Has .AND || self.instructions_.Has .OR ||
        self.instructions_.Has .XOR || self.instructions_.Has .ANDNOT ||
        self.instructions_.Has .CVTFLTINT || self.instructions_.Has .CVTINTFLT ||
        self.instructions_.Has .SUBINT) = true) :
    1 ≤ self.Reserve.aux_xmm_registers := by
  unfold ScalarFltSSEGenerator.Reserve
  simp only [h, if_true]
  split_ifs <;> simp

/-- C24: `Reserve` reserves 2 auxiliary XMM registers and 1 general auxiliary register
when the expression contains `NOT`; otherwise 1 auxiliary XMM register and no general one
when it contains one of `BITAND`, `BITOR`, `AND`, `OR`, `XOR`, `ANDNOT`, `CVTFLTINT`,
`CVTINTFLT`, `SUBINT`; otherwise none.  These reservations suffice: for every operation
of the expression, every index `i` of an operand `xmmaux(i)` or `aux(i)` in the code that
`Generate` emits is below the reserved number. -/
theorem ScalarFltSSEGenerator.Reserve_suffices (self : ScalarFltSSEGenerator) :
    (self.instructions_.Has .NOT = true →
      self.Reserve.aux_xmm_registers = 2 ∧ self.Reserve.aux_registers = 1) ∧
    (self.instructions_.Has .NOT = false →
      (self.instructions_.Has .BITAND || self.instructions_.Has .BITOR ||
        self.instructions_.Has .AND || self.instructions_.Has .OR ||
        self.instructions_.Has .XOR || self.instructions_.Has .ANDNOT ||
        self.instructions_.Has .CVTFLTINT || self.instructions_.Has .CVTINTFLT ||
        self.instructions_.Has .SUBINT) = true →
      self.Reserve.aux_xmm_registers = 1 ∧ self.Reserve.aux_registers = 0) ∧
    (self.instructions_.Has .NOT = false →
      (self.instructions_.Has .BITAND || self.instructions_.Has .BITOR ||
        self.instructions_.Has .AND || self.instructions_.Has .OR ||
        self.instructions_.Has .XOR || self.instructions_.Has .ANDNOT ||
        self.instructions_.Has .CVTFLTINT || self.instructions_.Has .CVTINTFLT ||
        self.instructions_.Has .SUBINT) = false →
      self.Reserve.aux_xmm_registers = 0 ∧ self.Reserve.aux_registers = 0) ∧
    self.Reserve.xmm_registers = self.instructions_.NumRegs ∧
    (∀ instr ∈ self.instructions_.ops, ∀ (zero_idiom : Bool) (masm : MacroAssembler)
        (code : List ExprInstruction), self.Generate zero_idiom instr masm = .ok code →
      ∀ item ∈ code,
        (∀ i ∈ item.xmmauxUsed, (i : Int) < self.Reserve.aux_xmm_registers) ∧
        (∀ i ∈ item.auxUsed, (i : Int) < self.Reserve.aux_registers)) := by
  refine ⟨Reserve_not self, ?_, ?_, ?_, ?_⟩
  · intro h1 h2
    unfold ScalarFltSSEGenerator.Reserve
    simp only [h1, h2, if_true]
    simp
  · intro h1 h2
    unfold ScalarFltSSEGenerator.Reserve
    simp only [h1, h2]
    simp
  · unfold ScalarFltSSEGenerator.Reserve
    split_ifs <;> rfl
  · intro instr hmem zero_idiom masm code hgen item hitem
    have hhas := Express.Has_of_mem self.instructions_ instr hmem
    have none_used : (∀ item ∈ code, item.xmmauxUsed = [] ∧ item.auxUsed = []) →
        (∀ i ∈ item.xmmauxUsed, (i : Int) < self.Reserve.aux_xmm_registers) ∧
        (∀ i ∈ item.auxUsed, (i : Int) < self.Reserve.aux_registers) := by
      intro hnone
      rw [(hnone item hitem).1, (hnone item hitem).2]
      simp
    have register_op : self.GenerateRegisterOp instr = .ok code →
        (instr.type ≠ .NOT → 1 ≤ self.Reserve.aux_xmm_registers) →
        (∀ i ∈ item.xmmauxUsed, (i : Int) < self.Reserve.aux_xmm_registers) ∧
        (∀ i ∈ item.auxUsed, (i : Int) < self.Reserve.aux_registers) := by
      intro hop hone
      obtain ⟨hx, ha⟩ := GenerateRegisterOp_aux self instr code hop item hitem
      by_cases hnot : instr.type = .NOT
      · obtain ⟨h2, h1⟩ := Reserve_not self (hnot ▸ hhas)
        rw [h2, h1]
        refine ⟨fun i hi => ?_, fun i hi => ?_⟩
        · have := hx i hi
          simp only [hnot, if_true] at this
          omega
        · have := (ha i hi).1
          omega
      · refine ⟨fun i hi => ?_, fun i hi => absurd (ha i hi).2 hnot⟩
        have := hx i hi
        simp only [hnot, if_false] at this
        have := hone hnot
        omega
    unfold ScalarFltSSEGenerator.Generate at hgen
    cases hop : instr.type <;> simp only [hop] at hgen hhas
    case COND => exact none_used (GenerateConditional_aux self instr code hgen)
    case SELECT => exact none_used (GenerateSelect_aux self instr code hgen)
    case CVTEXPINT => exact none_used (GenerateShift_aux self instr masm _ _ code hgen)
    case CVTINTEXP => exact none_used (GenerateShift_aux self instr masm _ _ code hgen)
    case BITAND => exact register_op hgen (fun _ => Reserve_register_op self (by simp [hhas]))
    case BITOR => exact register_op hgen (fun _ => Reserve_register_op self (by simp [hhas]))
    case AND => exact register_op hgen (fun _ => Reserve_register_op self (by simp [hhas]))
    case OR => exact register_op hgen (fun _ => Reserve_register_op self (by simp [hhas]))
    case XOR => exact register_op hgen (fun _ => Reserve_register_op self (by simp [hhas]))
    case ANDNOT => exact register_op hgen (fun _ => Reserve_register_op self (by simp [hhas]))
    case SUBINT => exact register_op hgen (fun _ => Reserve_register_op self (by simp [hhas]))
    case NOT => exact register_op hgen (fun h => absurd hop h)
    case CVTFLTINT =>
      split_ifs at hgen
      exact register_op hgen (fun _ => Reserve_register_op self (by simp [hhas]))
    case CVTINTFLT =>
      split_ifs at hgen
      exact register_op hgen (fun _ => Reserve_register_op self (by simp [hhas]))
    all_goals
      apply none_used
      (try split_ifs at hgen)
      all_goals (try (cases htype : self.type_ <;> simp only [htype] at hgen))
      all_goals (try simp only [Except.ok.injEq, ScalarFltSSEGenerator.GenerateCompare] at hgen)
      all_goals (try subst hgen)
      all_goals (try simp [ExprInstruction.xmmauxUsed, ExprInstruction.auxUsed])
      all_goals (try (exact absurd hgen (by simp)))

/-- Witness for C24: an expression with a `NOT` and an `AND` reserves two auxiliary XMM
registers and one general auxiliary register. -/
theorem ScalarFltSSEGenerator.Reserve_suffices_witness :
    (sampleGenerator .DT_FLOAT [sampleOp .NOT 0 0 (-1), sampleOp .AND 0 (-1) (-1)]).instructions_.Has
      .NOT = true ∧
    (sampleGenerator .DT_FLOAT [sampleOp .NOT 0 0 (-1), sampleOp .AND 0 (-1) (-1)]).Reserve.aux_xmm_registers
      = 2 ∧
    (sampleGenerator .DT_FLOAT [sampleOp .NOT 0 0 (-1), sampleOp .AND 0 (-1) (-1)]).Reserve.aux_registers
      = 1 :=
  ⟨by decide, (ScalarFltSSEGenerator.Reserve_suffices
    (sampleGenerator .DT_FLOAT [sampleOp .NOT 0 0 (-1), sampleOp .AND 0 (-1) (-1)])).1
    (by decide)⟩

/-! ## The exponent shifts `CVTEXPINT` and `CVTINTEXP` -/

theorem packed32_mod (f : Nat → Nat) (x : Nat) :
    packed32 f x % 2 ^ 32 = f (x % 2 ^ 32) % 2 ^ 32 := by
  unfold packed32
  rw [Nat.add_mul_mod_self_left, Nat.mod_mod]

theorem packed64_mod (f : Nat → Nat) (x : Nat) :
    packed64 f x % 2 ^ 64 = f (x % 2 ^ 64) % 2 ^ 64 := by
  unfold packed64
  rw [Nat.add_mul_mod_self_left, Nat.mod_mod]

theorem packed32_mod_lit (f : Nat → Nat) (x : Nat) :
    packed32 f x % 4294967296 = f (x % 4294967296) % 4294967296 :=
  packed32_mod f x

theorem packed64_mod_lit (f : Nat → Nat) (x : Nat) :
    packed64 f x % 18446744073709551616 = f (x % 18446744073709551616) % 18446744073709551616 :=
  packed64_mod f x

theorem shiftRight_mod_of_lt (x n w : Nat) (h : x < 2 ^ w) : (x >>> n) % 2 ^ w = x / 2 ^ n := by
  rw [Nat.shiftRight_eq_div_pow]
  exact Nat.mod_eq_of_lt (lt_of_le_of_lt (Nat.div_le_self _ _) h)

/-- C25 (as stated, refuted): the right shift emitted for `CVTEXPINT` is not an arithmetic
shift: on the float -1.0 (0xBF800000) the code leaves 0x17F in `dst`, where an arithmetic
shift by 23 bits gives 0xFFFFFF7F. -/
theorem ScalarFltSSEGenerator.CVTEXPINT_arithmetic_counterexample :
    ¬ ∀ x : Nat, x < 2 ^ 32 →
      (sampleGenerator .DT_FLOAT []).result (sampleOp .CVTEXPINT 0 1 (-1))
        (sampleAssembler avxFeatures) (sampleExprState x) =
          some (arithmeticShiftRight 32 23 x) := by
  intro h
  have h1 := h 0xBF800000 (by norm_num)
  revert h1
  decide

theorem Type_.bits_float : Type_.bits .DT_FLOAT = 32 := rfl

theorem Type_.bits_double : Type_.bits .DT_DOUBLE = 64 := rfl

theorem GenerateShift_float (self : ScalarFltSSEGenerator) (instr : Op) (masm : MacroAssembler)
    (left : Bool) (bits : Int) (hdst : instr.dst ≠ -1) (hsse2 : masm.Enabled .SSE2 = true)
    (ht : self.type_ = .DT_FLOAT) :
    self.GenerateShift instr masm left bits =
      .ok ((if instr.src ≠ -1 then [.ins .movapd [.xmm instr.dst, .xmm instr.src]]
            else [.ins .movss [.xmm instr.dst, .addr instr.args[0]?]]) ++
        [.ins (if left then .pslld else .psrld) [.xmm instr.dst, .imm bits]]) := by
  unfold ScalarFltSSEGenerator.GenerateShift
  by_cases hsrc : instr.src = -1 <;> cases left <;>
    simp [ht, hdst, hsse2, hsrc, bind, Except.bind, pure, Except.pure]

theorem GenerateShift_double (self : ScalarFltSSEGenerator) (instr : Op) (masm : MacroAssembler)
    (left : Bool) (bits : Int) (hdst : instr.dst ≠ -1) (hsse2 : masm.Enabled .SSE2 = true)
    (ht : self.type_ = .DT_DOUBLE) :
    self.GenerateShift instr masm left bits =
      .ok ((if instr.src ≠ -1 then [.ins .movapd [.xmm instr.dst, .xmm instr.src]]
            else [.ins .movsd [.xmm instr.dst, .addr instr.args[0]?]]) ++
        [.ins (if left then .psllq else .psrlq) [.xmm instr.dst, .imm bits]]) := by
  unfold ScalarFltSSEGenerator.GenerateShift
  by_cases hsrc : instr.src = -1 <;> cases left <;>
    simp [ht, hdst, hsse2, hsrc, bind, Except.bind, pure, Except.pure]

theorem result_shift_float (self : ScalarFltSSEGenerator) (instr : Op) (masm : MacroAssembler)
    (st : ExprState) (left : Bool) (bits : Nat)
    (ht : self.type_ = .DT_FLOAT)
    (hgen : self.Generate false instr masm =
      .ok ((if instr.src ≠ -1 then [.ins .movapd [.xmm instr.dst, .xmm instr.src]]
            else [.ins .movss [.xmm instr.dst, .addr instr.args[0]?]]) ++
        [.ins (if left then .pslld else .psrld) [.xmm instr.dst, .imm bits]])) :
    self.result instr masm st =
      some ((if left then self.argument instr st <<< bits
             else self.argument instr st >>> bits) % 2 ^ 32) := by
  unfold ScalarFltSSEGenerator.result
  rw [hgen]
  by_cases hsrc : instr.src = -1 <;> cases left <;>
    simp [hsrc, runExpr, ExprInstruction.exec, IndexGenerator.code, ExprState.setXmm,
      ScalarFltSSEGenerator.argument, ht, Type_.bits_float, packed32_mod_lit]

theorem result_shift_double (self : ScalarFltSSEGenerator) (instr : Op) (masm : MacroAssembler)
    (st : ExprState) (left : Bool) (bits : Nat)
    (ht : self.type_ = .DT_DOUBLE)
    (hgen : self.Generate false instr masm =
      .ok ((if instr.src ≠ -1 then [.ins .movapd [.xmm instr.dst, .xmm instr.src]]
            else [.ins .movsd [.xmm instr.dst, .addr instr.args[0]?]]) ++
        [.ins (if left then .psllq else .psrlq) [.xmm instr.dst, .imm bits]])) :
    self.result instr masm st =
      some ((if left then self.argument instr st <<< bits
             else self.argument instr st >>> bits) % 2 ^ 64) := by
  unfold ScalarFltSSEGenerator.result
  rw [hgen]
  by_cases hsrc : instr.src = -1 <;> cases left <;>
    simp [hsrc, runExpr, ExprInstruction.exec, IndexGenerator.code, ExprState.setXmm,
      ScalarFltSSEGenerator.argument, ht, Type_.bits_double, packed64_mod_lit]

/-- C25 (amended): with SSE2 enabled and `dst` in a register, the code emitted for
`CVTEXPINT` is the move of the argument into `dst` followed by a logical right shift of
`dst` (`psrld` by 23 bits for floats, `psrlq` by 52 bits for doubles), which leaves the
argument divided by 2^23 or 2^52 (sign bit and exponent field) in the element; the code
for `CVTINTEXP` is the move followed by a left shift by the same count (`pslld`,
`psllq`), which leaves the argument times 2^23 or 2^52 modulo the element width. -/
theorem ScalarFltSSEGenerator.exponent_shift (self : ScalarFltSSEGenerator) (instr : Op)
    (masm : MacroAssembler) (st : ExprState) (hdst : instr.dst ≠ -1)
    (hsse2 : masm.Enabled .SSE2 = true) :
    (self.type_ = .DT_FLOAT → instr.type = .CVTEXPINT →
      (∀ zero_idiom, self.Generate zero_idiom instr masm =
        .ok ((if instr.src ≠ -1 then [.ins .movapd [.xmm instr.dst, .xmm instr.src]]
              else [.ins .movss [.xmm instr.dst, .addr instr.args[0]?]]) ++
          [.ins .psrld [.xmm instr.dst, .imm 23]])) ∧
      self.result instr masm st = some (self.argument instr st / 2 ^ 23)) ∧
    (self.type_ = .DT_FLOAT → instr.type = .CVTINTEXP →
      (∀ zero_idiom, self.Generate zero_idiom instr masm =
        .ok ((if instr.src ≠ -1 then [.ins .movapd [.xmm instr.dst, .xmm instr.src]]
              else [.ins .movss [.xmm instr.dst, .addr instr.args[0]?]]) ++
          [.ins .pslld [.xmm instr.dst, .imm 23]])) ∧
      self.result instr masm st = some (self.argument instr st * 2 ^ 23 % 2 ^ 32)) ∧
    (self.type_ = .DT_DOUBLE → instr.type = .CVTEXPINT →
      (∀ zero_idiom, self.Generate zero_idiom instr masm =
        .ok ((if instr.src ≠ -1 then [.ins .movapd [.xmm instr.dst, .xmm instr.src]]
              else [.ins .movsd [.xmm instr.dst, .addr instr.args[0]?]]) ++
          [.ins .psrlq [.xmm instr.dst, .imm 52]])) ∧
      self.result instr masm st = some (self.argument instr st / 2 ^ 52)) ∧
    (self.type_ = .DT_DOUBLE → instr.type = .CVTINTEXP →
      (∀ zero_idiom, self.Generate zero_idiom instr masm =
        .ok ((if instr.src ≠ -1 then [.ins .movapd [.xmm instr.dst, .xmm instr.src]]
              else [.ins .movsd [.xmm instr.dst, .addr instr.args[0]?]]) ++
          [.ins .psllq [.xmm instr.dst, .imm 52]])) ∧
      self.result instr masm st = some (self.argument instr st * 2 ^ 52 % 2 ^ 64)) := by
  refine ⟨?_, ?_, ?_, ?_⟩
  · intro ht hop
    have harg : self.argument instr st < 2 ^ 32 := by
      unfold ScalarFltSSEGenerator.argument
      rw [ht]
      exact Nat.mod_lt _ (by decide)
    have hgen : ∀ zero_idiom, self.Generate zero_idiom instr masm =
        .ok ((if instr.src ≠ -1 then [.ins .movapd [.xmm instr.dst, .xmm instr.src]]
              else [.ins .movss [.xmm instr.dst, .addr instr.args[0]?]]) ++
          [.ins .psrld [.xmm instr.dst, .imm 23]]) := by
      intro zero_idiom
      unfold ScalarFltSSEGenerator.Generate
      simp only [hop]
      rw [GenerateShift_float self instr masm false _ hdst hsse2 ht]
      simp [ht]
    refine ⟨hgen, ?_⟩
    have hres := result_shift_float self instr masm st false 23 ht
      (by simpa using hgen false)
    rw [hres]
    simp only [if_true, Bool.false_eq_true, if_false]
    rw [shiftRight_mod_of_lt _ _ _ harg]
  · intro ht hop
    have harg : self.argument instr st < 2 ^ 32 := by
      unfold ScalarFltSSEGenerator.argument
      rw [ht]
      exact Nat.mod_lt _ (by decide)
    have hgen : ∀ zero_idiom, self.Generate zero_idiom instr masm =
        .ok ((if instr.src ≠ -1 then [.ins .movapd [.xmm instr.dst, .xmm instr.src]]
              else [.ins .movss [.xmm instr.dst, .addr instr.args[0]?]]) ++
          [.ins .pslld [.xmm instr.dst, .imm 23]]) := by
      intro zero_idiom
      unfold ScalarFltSSEGenerator.Generate
      simp only [hop]
      rw [GenerateShift_float self instr masm true _ hdst hsse2 ht]
      simp [ht]
    refine ⟨hgen, ?_⟩
    have hres := result_shift_float self instr masm st true 23 ht
      (by simpa using hgen false)
    rw [hres]
    simp only [if_true, Bool.false_eq_true, if_false]
    rw [Nat.shiftLeft_eq]
  · intro ht hop
    have harg : self.argument instr st < 2 ^ 64 := by
      unfold ScalarFltSSEGenerator.argument
      rw [ht]
      exact Nat.mod_lt _ (by decide)
    have hgen : ∀ zero_idiom, self.Generate zero_idiom instr masm =
        .ok ((if instr.src ≠ -1 then [.ins .movapd [.xmm instr.dst, .xmm instr.src]]
              else [.ins .movsd [.xmm instr.dst, .addr instr.args[0]?]]) ++
          [.ins .psrlq [.xmm instr.dst, .imm 52]]) := by
      intro zero_idiom
      unfold ScalarFltSSEGenerator.Generate
      simp only [hop]
      rw [GenerateShift_double self instr masm false _ hdst hsse2 ht]
      simp [ht]
    refine ⟨hgen, ?_⟩
    have hres := result_shift_double self instr masm st false 52 ht
      (by simpa using hgen false)
    rw [hres]
    simp only [if_true, Bool.false_eq_true, if_false]
    rw [shiftRight_mod_of_lt _ _ _ harg]
  · intro ht hop
    have harg : self.argument instr st < 2 ^ 64 := by
      unfold ScalarFltSSEGenerator.argument
      rw [ht]
      exact Nat.mod_lt _ (by decide)
    have hgen : ∀ zero_idiom, self.Generate zero_idiom instr masm =
        .ok ((if instr.src ≠ -1 then [.ins .movapd [.xmm instr.dst, .xmm instr.src]]
              else [.ins .movsd [.xmm instr.dst, .addr instr.args[0]?]]) ++
          [.ins .psllq [.xmm instr.dst, .imm 52]]) := by
      intro zero_idiom
      unfold ScalarFltSSEGenerator.Generate
      simp only [hop]
      rw [GenerateShift_double self instr masm true _ hdst hsse2 ht]
      simp [ht]
    refine ⟨hgen, ?_⟩
    have hres := result_shift_double self instr masm st true 52 ht
      (by simpa using hgen false)
    rw [hres]
    simp only [if_true, Bool.false_eq_true, if_false]
    rw [Nat.shiftLeft_eq]

/-- Witness for C25 (amended): the float 1.0 (0x3F800000) has the biased exponent 127. -/
theorem ScalarFltSSEGenerator.exponent_shift_witness :
    (sampleOp .CVTEXPINT 0 1 (-1)).dst ≠ -1 ∧
    (sampleAssembler avxFeatures).Enabled .SSE2 = true ∧
    (sampleGenerator .DT_FLOAT []).result (sampleOp .CVTEXPINT 0 1 (-1))
      (sampleAssembler avxFeatures) (sampleExprState 0x3F800000) =
        some ((sampleGenerator .DT_FLOAT []).argument (sampleOp .CVTEXPINT 0 1 (-1))
          (sampleExprState 0x3F800000) / 2 ^ 23) ∧
    (sampleGenerator .DT_FLOAT []).argument (sampleOp .CVTEXPINT 0 1 (-1))
      (sampleExprState 0x3F800000) / 2 ^ 23 = 127 :=
  ⟨by decide, by decide,
    ((ScalarFltSSEGenerator.exponent_shift (sampleGenerator .DT_FLOAT [])
      (sampleOp .CVTEXPINT 0 1 (-1)) (sampleAssembler avxFeatures) (sampleExprState 0x3F800000)
      (by decide) (by decide)).1 rfl rfl).2,
    by decide⟩

/-! ## The masked phase of the outer product -/

/-- C27 (the code at the failing input): in the accumulating outer-product case the masked
phase does not have the shape of the residual phase with one unroll.  The residual phase
loads C into `sum[0]` (register 0) and multiply-adds `elem` (register 1) with B into
`sum[0]`; the masked phase loads C into `elem`, over the broadcast A element, so that the
masked multiply-add uses the content of C as the factor and `sum[0]` never receives C. -/
theorem masked_phase_shape :
    (SIMDMatMul.mk true).verticalPhase 4 12 4 4 true sampleVerticalRegisters 0
        { generator := AVX512FloatGenerator false 0, offset := 0, unrolls := 1, repeat_ := 0,
          masked := 3 } =
      .ok [.gen (AVX512FloatGenerator false 0) (.Broadcast 1 { base := 0 }),
           .gen (AVX512FloatGenerator false 0) (.MaskedLoad 1 { base := 2 }),
           .gen (AVX512FloatGenerator false 0) (.MaskedMulAdd 0 1 { base := 1 }),
           .gen (AVX512FloatGenerator false 0) (.MaskedStore { base := 2 } 0),
           .addq_imm 2 12] ∧
    (SIMDMatMul.mk true).verticalPhase 4 64 4 4 true sampleVerticalRegisters 0
        { generator := AVX512FloatGenerator false 0, offset := 0, unrolls := 1, repeat_ := 0,
          masked := 0 } =
      .ok [.gen (AVX512FloatGenerator false 0) (.Broadcast 1 { base := 0 }),
           .gen (AVX512FloatGenerator false 0) (.Load 0 { base := 2 }),
           .gen (AVX512FloatGenerator false 0) (.MulAdd 0 1 { base := 1 } false),
           .gen (AVX512FloatGenerator false 0) (.Store { base := 2 } 0),
           .addq_imm 2 64] :=
  ⟨rfl, rfl⟩

/-! ## `EnsureOutputOrder` applied twice -/

theorem Arg.Transpose_Transpose (x : Arg) : x.Transpose.Transpose = x := by
  cases x with
  | mk tensor shape transposed =>
    simp [Arg.Transpose, Shape.transpose]

/-- C29: for every argument triple of rank-2 shapes and every order, two successive calls
of `EnsureOutputOrder(order)` leave `a_`, `b_` and `c_` (tensor, shape and transposed flag)
as they were before the first call: the decision to transform reads the order of the
output tensor, which the transformation does not change, so the second call swaps and
transposes back. -/
theorem MatMulArgs.EnsureOutputOrder_twice (args : MatMulArgs) (order : Order)
    (_ha : args.a_.shape.rank = 2) (_hb : args.b_.shape.rank = 2)
    (_hc : args.c_.shape.rank = 2) :
    ((args.EnsureOutputOrder order).2.EnsureOutputOrder order).2 = args ∧
    (args.EnsureOutputOrder order).2.transform order = args.transform order := by
  cases args with
  | mk c a b acc =>
    by_cases h : MatMulArgs.transform { c_ := c, a_ := a, b_ := b, accumulate_ := acc } order
    · have h2 : MatMulArgs.transform
          { c_ := c.Transpose, a_ := b.Transpose, b_ := a.Transpose, accumulate_ := acc }
          order = true := by
        simpa [MatMulArgs.transform, Arg.Transpose] using h
      simp only [MatMulArgs.EnsureOutputOrder, h, h2, if_true, Arg.Transpose_Transpose,
        and_self]
    · simp only [MatMulArgs.EnsureOutputOrder, h, if_false, Bool.false_eq_true, and_self]

/-- Witness for C29: the column-major output of `columnMajorOutputArgs` is transformed by
the first call and restored by the second. -/
theorem MatMulArgs.EnsureOutputOrder_twice_witness :
    columnMajorOutputArgs.a_.shape.rank = 2 ∧ columnMajorOutputArgs.b_.shape.rank = 2 ∧
    columnMajorOutputArgs.c_.shape.rank = 2 ∧
    columnMajorOutputArgs.transform .ROW_MAJOR = true ∧
    ((columnMajorOutputArgs.EnsureOutputOrder .ROW_MAJOR).2.EnsureOutputOrder .ROW_MAJOR).2 =
      columnMajorOutputArgs :=
  ⟨by decide, by decide, by decide, by decide,
    (MatMulArgs.EnsureOutputOrder_twice columnMajorOutputArgs .ROW_MAJOR (by decide)
      (by decide) (by decide)).1⟩

/-! ## The dimension assertions of the loop nests -/

theorem Arg.consistent_Init (tensor : Tensor) (transposed : Bool) :
    (Arg.Init tensor transposed).consistent = true := by
  simp [Arg.consistent, Arg.Init]

theorem Arg.consistent_Transpose (x : Arg) (h : x.consistent = true) :
    x.Transpose.consistent = true := by
  obtain ⟨tensor, shape, transposed⟩ := x
  simp only [Arg.consistent, Arg.Init, decide_eq_true_eq] at h
  subst h
  cases transposed <;> simp [Arg.consistent, Arg.Init, Arg.Transpose, Shape.transpose]

theorem MatMulArgs.new_consistent (step : Step) (args : MatMulArgs)
    (h : MatMulArgs.new step = .ok args) :
    args.a_.consistent = true ∧ args.b_.consistent = true ∧ args.c_.consistent = true := by
  unfold MatMulArgs.new at h
  split_ifs at h
  dsimp only at h
  split at h
  · simp only [Except.ok.injEq] at h
    subst h
    exact ⟨Arg.consistent_Init _ _, Arg.consistent_Init _ _, Arg.consistent_Init _ _⟩
  · simp at h

theorem nestCheck_of_shapes (args : MatMulArgs) (ha : args.a_.consistent = true)
    (hb : args.b_.consistent = true) (hs : args.CheckShapes = true) :
    args.nestCheck = true := by
  obtain ⟨m, k, n, hda, hdb, -⟩ := CheckShapes_dims args hs
  obtain ⟨c, ⟨ta, sa, fa⟩, ⟨tb, sb, fb⟩, acc⟩ := args
  obtain ⟨sa⟩ := sa
  obtain ⟨sb⟩ := sb
  simp only at hda hdb
  subst hda hdb
  simp only [Arg.consistent, Arg.Init, decide_eq_true_eq] at ha hb
  obtain ⟨na, tya, oa, ⟨dima⟩, stra, pada, sza, supa⟩ := ta
  obtain ⟨nb, tyb, ob, ⟨dimb⟩, strb, padb, szb, supb⟩ := tb
  have hdima : dima = if fa then [k, m] else [m, k] := by
    cases fa <;> simp [Shape.transpose] at ha
    · exact ha.symm
    · have := congrArg List.reverse ha
      simpa using this.symm
  have hdimb : dimb = if fb then [n, k] else [k, n] := by
    cases fb <;> simp [Shape.transpose] at hb
    · exact hb.symm
    · have := congrArg List.reverse hb
      simpa using this.symm
  subst hdima hdimb
  cases oa <;> cases ob <;> cases fa <;> cases fb <;>
    simp [MatMulArgs.nestCheck, Arg.order, Arg.width, Arg.height, Arg.inner, Arg.outer,
      Tensor.dim, Shape.dim]

theorem CheckShapes_transposed (args : MatMulArgs) (hs : args.CheckShapes = true) :
    MatMulArgs.CheckShapes
      { args with a_ := args.b_.Transpose, b_ := args.a_.Transpose,
                  c_ := args.c_.Transpose } = true := by
  obtain ⟨m, k, n, hda, hdb, hdc⟩ := CheckShapes_dims args hs
  simp [MatMulArgs.CheckShapes, Arg.Transpose, Shape.transpose, Shape.rank, Shape.dim, hda,
    hdb, hdc]

/-- C28: for every argument triple whose A and B arguments carry the shape of their
tensor (transposed when flagged) and that satisfies `CheckShapes`, the dimension assertion
of the loop nest selected by the effective orders of A and B holds, before and after
`EnsureOutputOrder`: `a.width = b.height` for vertical consecutive, `a.height = b.height`
for vertical strided, `a.width = b.width` for horizontal and `a.height = b.width` for
ColCol; `EnsureOutputOrder` keeps `CheckShapes` and the relation between shape and
tensor. -/
theorem MatMulArgs.nest_dimensions (args : MatMulArgs) (order : Order)
    (ha : args.a_.consistent = true) (hb : args.b_.consistent = true)
    (hs : args.CheckShapes = true) :
    args.nestCheck = true ∧
    (args.EnsureOutputOrder order).2.CheckShapes = true ∧
    (args.EnsureOutputOrder order).2.a_.consistent = true ∧
    (args.EnsureOutputOrder order).2.b_.consistent = true ∧
    (args.EnsureOutputOrder order).2.nestCheck = true := by
  have h1 := nestCheck_of_shapes args ha hb hs
  have h2 : (args.EnsureOutputOrder order).2.CheckShapes = true ∧
      (args.EnsureOutputOrder order).2.a_.consistent = true ∧
      (args.EnsureOutputOrder order).2.b_.consistent = true := by
    unfold MatMulArgs.EnsureOutputOrder
    simp only
    split_ifs
    · exact ⟨CheckShapes_transposed args hs, Arg.consistent_Transpose _ hb,
        Arg.consistent_Transpose _ ha⟩
    · exact ⟨hs, ha, hb⟩
  exact ⟨h1, h2.1, h2.2.1, h2.2.2, nestCheck_of_shapes _ h2.2.1 h2.2.2 h2.1⟩

/-- Witness for C28: the arguments built for the 8x1 column-major by 1x8 row-major product
select the strided vertical nest, whose assertion `a.height = b.height` holds. -/
theorem MatMulArgs.nest_dimensions_witness :
    outerProductArgs.a_.consistent = true ∧ outerProductArgs.b_.consistent = true ∧
    outerProductArgs.CheckShapes = true ∧
    MatMulArgs.new outerProductStep = .ok outerProductArgs ∧
    outerProductArgs.a_.order = .COLUMN_MAJOR ∧ outerProductArgs.b_.order = .ROW_MAJOR ∧
    outerProductArgs.a_.height = 1 ∧ outerProductArgs.b_.height = 1 ∧
    (outerProductArgs.EnsureOutputOrder .ROW_MAJOR).2.nestCheck = true :=
  ⟨by decide, by decide, by decide, rfl, by decide, by decide, by decide, by decide,
    (MatMulArgs.nest_dimensions outerProductArgs .ROW_MAJOR (by decide) (by decide)
      (by decide)).2.2.2.2⟩

/-! ## The advance of the C pointer in `GenerateVertical` -/

theorem cAdvances_append (c : Register) (xs ys : List Instruction) :
    cAdvances c (xs ++ ys) = cAdvances c xs ++ cAdvances c ys := by
  simp [cAdvances, List.filterMap_append]

theorem cAdvances_Broadcast (c : Register) (g : SIMDGenerator) (dst : Nat) (src : Operand)
    (b : List Instruction) (h : g.Broadcast dst src = .ok b) : cAdvances c b = [] := by
  unfold SIMDGenerator.Broadcast at h
  split_ifs at h <;> simp only [Except.ok.injEq] at h <;> subst h <;> rfl

theorem cAdvances_masked (c : Register) (g : SIMDGenerator) (op : GenOp)
    (b : List Instruction) (h : g.masked op = .ok b) : cAdvances c b = [] := by
  unfold SIMDGenerator.masked at h
  split at h
  · simp only [Except.ok.injEq] at h
    subst h
    rfl
  · simp at h

theorem cAdvances_outerProduct (self : SIMDMatMul) (dsize : Int) (r : VerticalRegisters)
    (phase : Phase) (bsrc : Nat → Operand) (code : List Instruction)
    (h : self.outerProduct dsize r phase bsrc = .ok code) : cAdvances r.c code = [] := by
  unfold SIMDMatMul.outerProduct at h
  cases hb : phase.generator.Broadcast r.elem { base := r.a } with
  | error e => simp [hb, bind, Except.bind] at h
  | ok b =>
    simp only [hb, bind, Except.bind, pure, Except.pure, Except.ok.injEq] at h
    subst h
    rw [cAdvances_append, cAdvances_Broadcast r.c _ _ _ b hb]
    cases self.accumulate_ <;> simp [cAdvances, List.filterMap_flatMap]

theorem cAdvances_innerLoop (self : SIMDMatMul) (dsize b_stride inner_step inner_limit : Int)
    (r : VerticalRegisters) (iter : Nat) (phase : Phase) (bstart : Operand)
    (code : List Instruction) (hb_ptr : r.b_ptr ≠ r.c) (ha_ofs : r.a_ofs ≠ r.c)
    (h : self.innerLoop dsize b_stride inner_step inner_limit r iter phase bstart = .ok code) :
    cAdvances r.c code = [] := by
  unfold SIMDMatMul.innerLoop at h
  cases hb : phase.generator.Broadcast r.elem { base := r.a, index := some r.a_ofs } with
  | error e => simp [hb, bind, Except.bind] at h
  | ok b =>
    simp only [hb, bind, Except.bind, pure, Except.pure, Except.ok.injEq] at h
    subst h
    have hbc := cAdvances_Broadcast r.c _ _ _ b hb
    simp only [cAdvances_append, hbc]
    cases self.accumulate_ <;>
      simp [cAdvances, List.filterMap_flatMap, List.filterMap_map, hb_ptr, ha_ofs]

theorem masked_of_avx512 (g : SIMDGenerator) (h : g.cls = .AVX512FloatGenerator)
    (op : GenOp) : g.masked op = .ok [.gen g op] := by
  simp [SIMDGenerator.masked, h]

theorem masked_of_not_avx512 (g : SIMDGenerator) (h : g.cls ≠ .AVX512FloatGenerator)
    (op : GenOp) : g.masked op = .error .MaskingNotSupported := by
  unfold SIMDGenerator.masked
  split
  · contradiction
  · rfl

theorem Broadcast_of_avx512 (g : SIMDGenerator) (h : g.cls = .AVX512FloatGenerator)
    (dst : Nat) (src : Operand) : g.Broadcast dst src = .ok [.gen g (.Broadcast dst src)] := by
  simp [SIMDGenerator.Broadcast, SIMDGenerator.inheritsScalarDefaults, h]

theorem cAdvances_maskedPhase (self : SIMDMatMul) (dsize b_stride inner_step inner_limit : Int)
    (inner_single : Bool) (r : VerticalRegisters) (iter : Nat) (phase : Phase)
    (code : List Instruction) (hb_ptr : r.b_ptr ≠ r.c) (ha_ofs : r.a_ofs ≠ r.c)
    (h : self.maskedPhase dsize b_stride inner_step inner_limit inner_single r iter phase =
      .ok code) :
    cAdvances r.c code = [phase.masked * dsize] := by
  unfold SIMDMatMul.maskedPhase at h
  by_cases hu : phase.unrolls = 1
  swap
  · simp [hu, bind, Except.bind, throw, throwThe, MonadExceptOf.throw] at h
  by_cases hcls : phase.generator.cls = .AVX512FloatGenerator
  · cases inner_single <;> cases hacc : self.accumulate_ <;>
      simp [hu, hacc, masked_of_avx512 _ hcls, Broadcast_of_avx512 _ hcls, bind, Except.bind,
        pure, Except.pure] at h <;>
      subst h <;>
      simp [cAdvances, hb_ptr, ha_ofs]
  · exfalso
    cases inner_single <;> cases hacc : self.accumulate_
    · cases hb : phase.generator.Broadcast r.elem { base := r.a, index := some r.a_ofs } <;>
        simp [hu, hacc, hb, masked_of_not_avx512 _ hcls, bind, Except.bind, pure,
          Except.pure] at h
    · cases hb : phase.generator.Broadcast r.elem { base := r.a, index := some r.a_ofs } <;>
        simp [hu, hacc, hb, masked_of_not_avx512 _ hcls, bind, Except.bind, pure,
          Except.pure] at h
    · cases hb : phase.generator.Broadcast r.elem { base := r.a } <;>
        simp [hu, hacc, hb, masked_of_not_avx512 _ hcls, bind, Except.bind, pure,
          Except.pure] at h
    · cases hb : phase.generator.Broadcast r.elem { base := r.a } <;>
        simp [hu, hacc, hb, masked_of_not_avx512 _ hcls, bind, Except.bind, pure,
          Except.pure] at h

theorem Phase.cBytes_eq (dsize : Int) (p : Phase) : p.cBytes dsize = p.elements * dsize := by
  unfold Phase.cBytes Phase.elements
  simp only
  split_ifs <;> ring

theorem cBytes_sum (dsize : Int) (ps : List Phase) :
    (ps.map (Phase.cBytes dsize)).sum = coverage ps * dsize := by
  induction ps with
  | nil => simp [coverage]
  | cons p ps ih =>
    simp only [List.map_cons, List.sum_cons, ih, coverage, Phase.cBytes_eq]
    ring

/-- C30: in `GenerateVertical` the code of a repeated phase (`repeat > 1`) is a loop over
`col_ofs` from `blkstart` in steps of `blksize = unrolls * V * dsize` up to
`blkstart + repeat * blksize` whose body adds `blksize` to the C pointer once; the code of
a residual phase adds `blksize` once and the code of a masked phase `masked * dsize` once.
Counted in this way, the bytes added to the C pointer over the phases of every plan for
`N` elements are `N * dsize`. -/
theorem SIMDMatMul.c_advance (self : SIMDMatMul)
    (dsize b_stride inner_step inner_limit : Int) (inner_single : Bool)
    (r : VerticalRegisters) (main : SIMDGenerator) (cascade : List SIMDGenerator)
    (N max_unrolls : Int) (hN : 0 ≤ N) (hmain : 1 ≤ main.VectorSize)
    (hsizes : ∀ g ∈ cascade, 1 ≤ g.VectorSize)
    (hlast : ∃ g, cascade.getLast? = some g ∧ g.VectorSize = 1)
    (hb_ptr : r.b_ptr ≠ r.c) (ha_ofs : r.a_ofs ≠ r.c) :
    (∀ (p : Phase) (iter : Nat) (code : List Instruction),
      self.verticalPhase dsize b_stride inner_step inner_limit inner_single r iter p =
        .ok code →
      (p.repeat_ > 1 →
        ∃ body, cAdvances r.c body = [] ∧
          code = [if p.offset = 0 then Instruction.xorq r.col_ofs r.col_ofs
                  else Instruction.movq_imm r.col_ofs (p.offset * dsize),
                  .bind (.l2 iter)] ++ body ++
            [.addq_imm r.c (p.unrolls * p.generator.VectorSize * dsize),
             .addq_imm r.col_ofs (p.unrolls * p.generator.VectorSize * dsize),
             .cmpq_imm r.col_ofs
               (p.offset * dsize + p.repeat_ * (p.unrolls * p.generator.VectorSize * dsize)),
             .j_less (.l2 iter)]) ∧
      (¬ p.repeat_ > 1 →
        cAdvances r.c code =
          [if p.masked = 0 then p.unrolls * p.generator.VectorSize * dsize
           else p.masked * dsize])) ∧
    ((SIMDStrategy.plan main cascade N max_unrolls).map (Phase.cBytes dsize)).sum =
      N * dsize := by
  constructor
  · intro p iter code h
    unfold SIMDMatMul.verticalPhase at h
    constructor
    · intro hrep
      simp only [hrep, if_true, bind, Except.bind, pure, Except.pure] at h
      cases inner_single
      · simp only [Bool.false_eq_true, if_false] at h
        cases hbody : self.innerLoop dsize b_stride inner_step inner_limit r iter p
            { base := r.b, index := some r.col_ofs } with
        | error e => simp [hbody] at h
        | ok body =>
          simp only [hbody, Except.ok.injEq] at h
          refine ⟨body, cAdvances_innerLoop self _ _ _ _ r iter p _ body hb_ptr ha_ofs hbody, ?_⟩
          rw [← h]
          split_ifs <;> simp
      · simp only [if_true] at h
        cases hbody : self.outerProduct dsize r p
            (fun i => { base := r.b, index := some r.col_ofs,
                        disp := i * p.generator.VectorSize * dsize }) with
        | error e => simp [hbody] at h
        | ok body =>
          simp only [hbody, Except.ok.injEq] at h
          refine ⟨body, cAdvances_outerProduct self _ r p _ body hbody, ?_⟩
          rw [← h]
          split_ifs <;> simp
    · intro hrep
      simp only [hrep, if_false, bind, Except.bind, pure, Except.pure] at h
      by_cases hm : p.masked = 0
      · simp only [hm, if_true] at h ⊢
        cases inner_single
        · simp only [Bool.false_eq_true, if_false] at h
          cases hbody : self.innerLoop dsize b_stride inner_step inner_limit r iter p
              { base := r.b, disp := p.offset * dsize } with
          | error e => simp [hbody] at h
          | ok body =>
            simp only [hbody, Except.ok.injEq] at h
            rw [← h, cAdvances_append,
              cAdvances_innerLoop self _ _ _ _ r iter p _ body hb_ptr ha_ofs hbody]
            simp [cAdvances]
        · simp only [if_true] at h
          cases hbody : self.outerProduct dsize r p
              (fun i => { base := r.b,
                          disp := p.offset * dsize + i * p.generator.VectorSize * dsize }) with
          | error e => simp [hbody] at h
          | ok body =>
            simp only [hbody, Except.ok.injEq] at h
            rw [← h, cAdvances_append, cAdvances_outerProduct self _ r p _ body hbody]
            simp [cAdvances]
      · simp only [hm, if_false] at h ⊢
        exact cAdvances_maskedPhase self _ _ _ _ _ r iter p code hb_ptr ha_ofs h
  · rw [cBytes_sum]
    have hb := addBulk_inv main N max_unrolls hN hmain
    have hr := residuals_inv cascade N _ hsizes hb
    have he := residuals_exhaust cascade N _ hsizes hlast hb
    have h1 := hr.covered
    have h2 := hr.split
    rw [he] at h2
    have hcov : coverage (SIMDStrategy.plan main cascade N max_unrolls) = N := by
      simp only [SIMDStrategy.plan]
      omega
    rw [hcov]

/-- Witness for C30: the AVX cascade on rows of 35 floats moves the C pointer by 140
bytes. -/
theorem SIMDMatMul.c_advance_witness :
    (0 : Int) ≤ 35 ∧ 1 ≤ (AVX256FloatGenerator true).VectorSize ∧
    (∀ g ∈ [AVX256FloatGenerator true, AVX128FloatGenerator true,
        AVXScalarFloatGenerator true], 1 ≤ g.VectorSize) ∧
    sampleVerticalRegisters.b_ptr ≠ sampleVerticalRegisters.c ∧
    sampleVerticalRegisters.a_ofs ≠ sampleVerticalRegisters.c ∧
    ((SIMDStrategy.plan (AVX256FloatGenerator true)
        [AVX256FloatGenerator true, AVX128FloatGenerator true, AVXScalarFloatGenerator true]
        35 4).map (Phase.cBytes 4)).sum = 35 * 4 :=
  ⟨by decide, by decide, by decide, by decide, by decide,
    (SIMDMatMul.c_advance (SIMDMatMul.mk false) 4 140 4 4 true sampleVerticalRegisters
      (AVX256FloatGenerator true)
      [AVX256FloatGenerator true, AVX128FloatGenerator true, AVXScalarFloatGenerator true]
      35 4 (by decide) (by decide) (by decide) ⟨_, rfl, rfl⟩ (by decide) (by decide)).2⟩

/-! ## The `retain` flag in `GenerateVertical` -/

theorem elemScan_append (a : Register) (elem : Nat) (live : Bool) (xs ys : List Instruction) :
    elemScan a elem live (xs ++ ys) =
      (elemScan a elem live xs).bind (fun l => elemScan a elem l ys) := by
  induction xs generalizing live with
  | nil => rfl
  | cons x xs ih =>
    simp only [List.cons_append, elemScan]
    cases x.elemStep a elem live with
    | none => rfl
    | some l => exact ih l

theorem retainFlags_append (xs ys : List Instruction) :
    retainFlags (xs ++ ys) = retainFlags xs ++ retainFlags ys := by
  simp [retainFlags, List.filterMap_append]

theorem elemScan_some (a : Register) (elem : Nat) (live : Bool) (xs : List Instruction)
    (h : ∀ i ∈ xs, ∀ g dst src1 src2 retain, i ≠ .gen g (.MulAdd dst src1 src2 retain)) :
    ∃ l, elemScan a elem live xs = some l := by
  induction xs generalizing live with
  | nil => exact ⟨live, rfl⟩
  | cons x xs ih =>
    have hx := h x (List.mem_cons_self _ _)
    have hxs := fun i hi => h i (List.mem_cons_of_mem _ hi)
    simp only [elemScan]
    cases x with
    | gen g op =>
      cases op with
      | MulAdd dst src1 src2 retain => exact absurd rfl (hx g dst src1 src2 retain)
      | _ => exact ih _ hxs
    | _ => exact ih _ hxs

theorem Broadcast_scan (a : Register) (elem : Nat) (live : Bool) (g : SIMDGenerator)
    (src : Operand) (b : List Instruction) (hsrc : src.base = a)
    (h : g.Broadcast elem src = .ok b) :
    elemScan a elem live b = some true ∧ retainFlags b = [] := by
  unfold SIMDGenerator.Broadcast at h
  split_ifs at h <;> simp only [Except.ok.injEq] at h <;> subst h <;>
    simp [elemScan, Instruction.elemStep, retainFlags, hsrc]

theorem elemScan_flatMap_range (a : Register) (elem : Nat) (f : Nat → List Instruction)
    (n : Nat)
    (hchunk : ∀ i, i < n → ∃ l, elemScan a elem true (f i) = some l ∧ (i + 1 < n → l = true)) :
    ∀ m, m ≤ n → ∃ l, elemScan a elem true ((List.range m).flatMap f) = some l ∧
      (m < n → l = true) := by
  intro m
  induction m with
  | zero => exact fun _ => ⟨true, rfl, fun _ => rfl⟩
  | succ m ih =>
    intro hm
    obtain ⟨l, hl, hlt⟩ := ih (by omega)
    have hl1 : l = true := hlt (by omega)
    subst hl1
    obtain ⟨l1, hl1, hlt1⟩ := hchunk m (by omega)
    refine ⟨l1, ?_, hlt1⟩
    rw [List.range_succ, List.flatMap_append, elemScan_append, hl]
    simpa using hl1

theorem elemScan_unrolls (a : Register) (elem : Nat) (f : Nat → List Instruction) (n : Nat)
    (hchunk : ∀ i, i < n → ∃ l, elemScan a elem true (f i) = some l ∧ (i + 1 < n → l = true)) :
    ∃ l, elemScan a elem true ((List.range n).flatMap f) = some l := by
  obtain ⟨l, hl, -⟩ := elemScan_flatMap_range a elem f n hchunk n (le_refl _)
  exact ⟨l, hl⟩

theorem getD_ne_elem (sum : List Nat) (elem i : Nat) (hi : i < sum.length)
    (helem : elem ∉ sum) : sum.getD i 0 ≠ elem := by
  intro h
  apply helem
  rw [← h, List.getD_eq_getElem _ _ hi]
  exact List.getElem_mem hi

theorem retain_iff (u : Int) (i : Nat) (hi : i < u.toNat) :
    decide ((i : Int) ≠ u - 1) = decide (i + 1 < u.toNat) := by
  by_cases h : i + 1 < u.toNat
  · have : (i : Int) ≠ u - 1 := by omega
    simp [h, this]
  · have : (i : Int) = u - 1 := by omega
    simp [h, this]

theorem flatMap_singleton_map (f : Nat → Bool) (l : List Nat) :
    l.flatMap (fun i => [f i]) = l.map f := by
  induction l with
  | nil => rfl
  | cons x xs ih => simp [List.flatMap_cons, ih]

theorem outerProduct_retain (self : SIMDMatMul) (dsize : Int) (r : VerticalRegisters)
    (phase : Phase) (bsrc : Nat → Operand) (code : List Instruction) (live : Bool)
    (hsum : phase.unrolls.toNat ≤ r.sum.length) (helem : r.elem ∉ r.sum)
    (h : self.outerProduct dsize r phase bsrc = .ok code) :
    (∃ l, elemScan r.a r.elem live code = some l) ∧
    retainFlags code =
      if self.accumulate_ then
        (List.range phase.unrolls.toNat).map (fun i => decide (i + 1 < phase.unrolls.toNat))
      else [] := by
  unfold SIMDMatMul.outerProduct at h
  cases hb : phase.generator.Broadcast r.elem { base := r.a } with
  | error e => simp [hb, bind, Except.bind] at h
  | ok b =>
    simp only [hb, bind, Except.bind, pure, Except.pure, Except.ok.injEq] at h
    subst h
    obtain ⟨hscan, hflags⟩ := Broadcast_scan r.a r.elem live _ _ b rfl hb
    constructor
    · rw [elemScan_append, hscan]
      simp only [Option.bind_some, unrollIndices]
      apply elemScan_unrolls
      intro i hi
      have hne0 := getD_ne_elem r.sum r.elem i (by omega) helem
      have hne : r.sum[i]?.getD 0 ≠ r.elem := by
        simpa [List.getD_eq_getElem?_getD] using hne0
      have hne2 : r.elem ≠ r.sum[i]?.getD 0 := fun h => hne h.symm
      cases hacc : self.accumulate_
      · exact ⟨true, by simp [elemScan, Instruction.elemStep, GenOp.writes, hne2],
          fun _ => rfl⟩
      · refine ⟨decide ((i : Int) ≠ phase.unrolls - 1), ?_, ?_⟩
        · by_cases hlast : (i : Int) = phase.unrolls - 1 <;>
            simp [elemScan, Instruction.elemStep, GenOp.writes, hne, hne2, hlast]
        · intro hlt
          have : (i : Int) ≠ phase.unrolls - 1 := by omega
          simp [this]
    · rw [retainFlags_append, hflags, List.nil_append]
      cases hacc : self.accumulate_
      · simp [retainFlags, unrollIndices, List.filterMap_flatMap]
      · simp only [retainFlags, unrollIndices, List.filterMap_flatMap, if_true]
        simp only [List.filterMap_append, List.filterMap_cons, List.filterMap_nil,
          List.append_nil, List.nil_append]
        rw [flatMap_singleton_map]
        apply List.map_congr_left
        intro i hi
        exact retain_iff phase.unrolls i (List.mem_range.1 hi)

theorem map_eq_flatMap_singleton (g : Nat → Instruction) (l : List Nat) :
    l.map g = l.flatMap (fun i => [g i]) := by
  induction l with
  | nil => rfl
  | cons x xs ih => simp [List.flatMap_cons, ih]

theorem retainFlags_map_MulAdd (l : List Nat) (g : SIMDGenerator) (d : Nat → Nat) (e : Nat)
    (src : Nat → Operand) (ret : Nat → Bool) :
    retainFlags (l.map (fun i => Instruction.gen g (.MulAdd (d i) e (src i) (ret i)))) =
      l.map ret := by
  induction l with
  | nil => rfl
  | cons x xs ih =>
    simp only [List.map_cons]
    rw [← ih]
    rfl

theorem innerLoop_retain (self : SIMDMatMul) (dsize b_stride inner_step inner_limit : Int)
    (r : VerticalRegisters) (iter : Nat) (phase : Phase) (bstart : Operand)
    (code : List Instruction) (live : Bool)
    (hsum : phase.unrolls.toNat ≤ r.sum.length) (helem : r.elem ∉ r.sum)
    (h : self.innerLoop dsize b_stride inner_step inner_limit r iter phase bstart = .ok code) :
    (∃ l, elemScan r.a r.elem live code = some l) ∧
    retainFlags code =
      (List.range phase.unrolls.toNat).map (fun i => decide (i + 1 < phase.unrolls.toNat)) := by
  unfold SIMDMatMul.innerLoop at h
  cases hb : phase.generator.Broadcast r.elem { base := r.a, index := some r.a_ofs } with
  | error e => simp [hb, bind, Except.bind] at h
  | ok b =>
    simp only [hb, bind, Except.bind, pure, Except.pure, Except.ok.injEq] at h
    subst h
    obtain ⟨hscan, hflags⟩ := Broadcast_scan r.a r.elem false _ _ b rfl hb
    constructor
    · simp only [elemScan_append, unrollIndices]
      obtain ⟨l0, h0⟩ := elemScan_some r.a r.elem live
        ((List.range phase.unrolls.toNat).map
          (fun i => Instruction.gen phase.generator (.Zero (r.sum.getD i 0))))
        (by simp)
      rw [h0]
      simp only [Option.some_bind]
      have hmid : elemScan r.a r.elem l0
          [.xorq r.a_ofs r.a_ofs, .leaq r.b_ptr bstart, .bind (.l3 iter)] = some false := by
        simp [elemScan, Instruction.elemStep]
      rw [hmid]
      simp only [Option.some_bind, hscan]
      obtain ⟨l2, h2⟩ : ∃ l, elemScan r.a r.elem true
          ((List.range phase.unrolls.toNat).map (fun i =>
            Instruction.gen phase.generator (.MulAdd (r.sum.getD i 0) r.elem
              { base := r.b_ptr, disp := i * phase.generator.VectorSize * dsize }
              (decide ((i : Int) ≠ phase.unrolls - 1))))) = some l := by
        rw [map_eq_flatMap_singleton]
        apply elemScan_unrolls
        intro i hi
        have hne0 := getD_ne_elem r.sum r.elem i (by omega) helem
        have hne : r.sum[i]?.getD 0 ≠ r.elem := by
          simpa [List.getD_eq_getElem?_getD] using hne0
        have hne2 : r.elem ≠ r.sum[i]?.getD 0 := fun h => hne h.symm
        refine ⟨decide ((i : Int) ≠ phase.unrolls - 1), ?_, ?_⟩
        · by_cases hlast : (i : Int) = phase.unrolls - 1 <;>
            simp [elemScan, Instruction.elemStep, GenOp.writes, hne, hne2, hlast]
        · intro hlt
          have : (i : Int) ≠ phase.unrolls - 1 := by omega
          simp [this]
      rw [h2]
      simp only [Option.some_bind]
      have htail : elemScan r.a r.elem l2
          [.addq_imm r.b_ptr b_stride, .addq_imm r.a_ofs inner_step,
           .cmpq_imm r.a_ofs inner_limit, .j_less (.l3 iter)] = some l2 := by
        simp [elemScan, Instruction.elemStep]
      rw [htail]
      simp only [Option.some_bind]
      apply elemScan_some
      intro i hi
      simp only [List.mem_flatMap, List.mem_range] at hi
      obtain ⟨k, -, hk⟩ := hi
      cases hacc : self.accumulate_ <;> simp [hacc] at hk
      · subst hk; simp
      · rcases hk with rfl | rfl <;> simp
    · simp only [retainFlags_append, hflags, unrollIndices]
      have hz : retainFlags ((List.range phase.unrolls.toNat).map
          (fun i => Instruction.gen phase.generator (.Zero (r.sum.getD i 0)))) = [] := by
        simp [retainFlags, List.filterMap_map]
      have hs : retainFlags ((List.range phase.unrolls.toNat).flatMap fun i =>
          (if self.accumulate_ then
            [Instruction.gen phase.generator (.AddMem (r.sum.getD i 0) (r.sum.getD i 0)
              { base := r.c, disp := i * phase.generator.VectorSize * dsize })]
          else []) ++
          [Instruction.gen phase.generator
            (.Store { base := r.c, disp := i * phase.generator.VectorSize * dsize }
              (r.sum.getD i 0))]) = [] := by
        cases self.accumulate_ <;> simp [retainFlags, List.filterMap_flatMap]
      rw [hz, hs, retainFlags_map_MulAdd]
      have h1 : retainFlags [.xorq r.a_ofs r.a_ofs, .leaq r.b_ptr bstart, .bind (.l3 iter)] =
          [] := rfl
      have h2 : retainFlags [.addq_imm r.b_ptr b_stride, .addq_imm r.a_ofs inner_step,
          .cmpq_imm r.a_ofs inner_limit, .j_less (.l3 iter)] = [] := rfl
      rw [h1, h2]
      simp only [List.nil_append, List.append_nil]
      apply List.map_congr_left
      intro i hi
      exact retain_iff phase.unrolls i (List.mem_range.1 hi)

theorem wrap_retain (a : Register) (elem : Nat) (pre body post : List Instruction)
    (flags : List Bool)
    (hpre : ∀ i ∈ pre, ∀ g dst src1 src2 retain, i ≠ .gen g (.MulAdd dst src1 src2 retain))
    (hpost : ∀ i ∈ post, ∀ g dst src1 src2 retain, i ≠ .gen g (.MulAdd dst src1 src2 retain))
    (hpre_flags : retainFlags pre = []) (hpost_flags : retainFlags post = [])
    (hbody : ∀ live, ∃ l, elemScan a elem live body = some l)
    (hflags : retainFlags body = flags) :
    retainFlags (pre ++ body ++ post) = flags ∧
    ∃ l, elemScan a elem false (pre ++ body ++ post) = some l := by
  constructor
  · simp [retainFlags_append, hpre_flags, hpost_flags, hflags]
  · simp only [elemScan_append]
    obtain ⟨l0, h0⟩ := elemScan_some a elem false pre hpre
    obtain ⟨l1, h1⟩ := hbody l0
    obtain ⟨l2, h2⟩ := elemScan_some a elem l1 post hpost
    exact ⟨l2, by simp [h0, h1, h2]⟩

/-- C26: in `GenerateVertical`, in the code of every repeated or residual phase, the
`retain` arguments of the `MulAdd` calls of the unrolls `i = 0..unrolls-1` are true for
every unroll but the last and false for the last (the outer product emits `MulAdd` only
when accumulating; otherwise it emits `Mul`).  Hence, with accumulator registers distinct
from `elem`, `elem` holds the broadcast A element at every `MulAdd` that reads it: between
the broadcast and such a `MulAdd` no call overwrites `elem`. -/
theorem SIMDMatMul.retain_all_but_last (self : SIMDMatMul)
    (dsize b_stride inner_step inner_limit : Int) (inner_single : Bool)
    (r : VerticalRegisters) (iter : Nat) (p : Phase) (code : List Instruction)
    (hsum : p.unrolls.toNat ≤ r.sum.length) (helem : r.elem ∉ r.sum)
    (hphase : p.repeat_ > 1 ∨ p.masked = 0)
    (h : self.verticalPhase dsize b_stride inner_step inner_limit inner_single r iter p =
      .ok code) :
    retainFlags code =
      (if inner_single && !self.accumulate_ then []
       else (List.range p.unrolls.toNat).map (fun i => decide (i + 1 < p.unrolls.toNat))) ∧
    ∃ l, elemScan r.a r.elem false code = some l := by
  unfold SIMDMatMul.verticalPhase at h
  by_cases hrep : p.repeat_ > 1
  · simp only [hrep, if_true, bind, Except.bind, pure, Except.pure] at h
    cases inner_single
    · simp only [Bool.false_eq_true, if_false] at h
      cases hbody : self.innerLoop dsize b_stride inner_step inner_limit r iter p
          { base := r.b, index := some r.col_ofs } with
      | error e => simp [hbody] at h
      | ok body =>
        simp only [hbody, Except.ok.injEq] at h
        rw [← h]
        simp only [Bool.false_and, Bool.false_eq_true, if_false]
        apply wrap_retain
        · intro i hi; split_ifs at hi <;> simp at hi <;> rcases hi with rfl | rfl <;> simp
        · intro i hi; simp at hi; rcases hi with rfl | rfl | rfl | rfl <;> simp
        · split_ifs <;> rfl
        · rfl
        · exact fun live =>
            (innerLoop_retain self _ _ _ _ r iter p _ body live hsum helem hbody).1
        · exact (innerLoop_retain self _ _ _ _ r iter p _ body false hsum helem hbody).2
    · simp only [if_true] at h
      cases hbody : self.outerProduct dsize r p
          (fun i => { base := r.b, index := some r.col_ofs,
                      disp := i * p.generator.VectorSize * dsize }) with
      | error e => simp [hbody] at h
      | ok body =>
        simp only [hbody, Except.ok.injEq] at h
        rw [← h]
        apply wrap_retain
        · intro i hi; split_ifs at hi <;> simp at hi <;> rcases hi with rfl | rfl <;> simp
        · intro i hi; simp at hi; rcases hi with rfl | rfl | rfl | rfl <;> simp
        · split_ifs <;> rfl
        · rfl
        · exact fun live => (outerProduct_retain self _ r p _ body live hsum helem hbody).1
        · rw [(outerProduct_retain self _ r p _ body false hsum helem hbody).2]
          cases self.accumulate_ <;> simp
  · have hm : p.masked = 0 := hphase.resolve_left hrep
    simp only [hrep, hm, if_false, if_true, bind, Except.bind, pure, Except.pure] at h
    cases inner_single
    · simp only [Bool.false_eq_true, if_false] at h
      cases hbody : self.innerLoop dsize b_stride inner_step inner_limit r iter p
          { base := r.b, disp := p.offset * dsize } with
      | error e => simp [hbody] at h
      | ok body =>
        simp only [hbody, Except.ok.injEq] at h
        rw [← h]
        simp only [Bool.false_and, Bool.false_eq_true, if_false]
        have := wrap_retain r.a r.elem [] body
          [.addq_imm r.c (p.unrolls * p.generator.VectorSize * dsize)] _
          (by simp) (by intro i hi; simp at hi; subst hi; simp) rfl rfl
          (fun live => (innerLoop_retain self _ _ _ _ r iter p _ body live hsum helem hbody).1)
          (innerLoop_retain self _ _ _ _ r iter p _ body false hsum helem hbody).2
        simpa using this
    · simp only [if_true] at h
      cases hbody : self.outerProduct dsize r p
          (fun i => { base := r.b,
                      disp := p.offset * dsize + i * p.generator.VectorSize * dsize }) with
      | error e => simp [hbody] at h
      | ok body =>
        simp only [hbody, Except.ok.injEq] at h
        rw [← h]
        have := wrap_retain r.a r.elem [] body
          [.addq_imm r.c (p.unrolls * p.generator.VectorSize * dsize)] _
          (by simp) (by intro i hi; simp at hi; subst hi; simp) rfl rfl
          (fun live => (outerProduct_retain self _ r p _ body live hsum helem hbody).1)
          (outerProduct_retain self _ r p _ body false hsum helem hbody).2
        cases hacc : self.accumulate_ <;> simpa [hacc] using this

/-- Witness for C26: a residual phase of two unrolls in the accumulating outer product:
the first `MulAdd` retains `elem`, the second does not. -/
theorem SIMDMatMul.retain_all_but_last_witness :
    twoUnrollPhase.unrolls.toNat ≤ twoSumRegisters.sum.length ∧
    twoSumRegisters.elem ∉ twoSumRegisters.sum ∧
    (SIMDMatMul.mk true).verticalPhase 4 64 4 4 true twoSumRegisters 0 twoUnrollPhase =
      .ok twoUnrollCode ∧
    retainFlags twoUnrollCode = [true, false] ∧
    ∃ l, elemScan twoSumRegisters.a twoSumRegisters.elem false twoUnrollCode = some l :=
  ⟨by decide, by decide, rfl, by decide,
    (SIMDMatMul.retain_all_but_last (SIMDMatMul.mk true) 4 64 4 4 true twoSumRegisters 0
      twoUnrollPhase twoUnrollCode (by decide) (by decide) (Or.inr rfl) rfl).2⟩

end Sling
